import Mathlib

/-!
# libneopixel32: a shallow embedding of `neopixel32.c` / `neopixel32.h`

Modelling conventions.

* `uint8_t` / `uint16_t` values are natural numbers; every store into such a
  variable goes through `u8` / `u16`, which reduce a C `int` value modulo
  `2^8` / `2^16`.  Arithmetic on promoted operands is done in `Int`
  (`int` is taken to be at least 32 bits wide, as on the STM32 targets of the
  library, so the promoted arithmetic itself never overflows).
* A pointer field is a `Ptr`: null, a live allocation holding a list of cells,
  or a pointer to storage that has been given back to the allocator.
* A function that can loop takes an iteration budget `fuel`; running out of
  budget, an access outside an allocation and a dereference of a pointer
  that is not live are the three `Fault`s.  A C function returning `int8_t` is
  a function into `Except Fault (Int × NP32_Instance)`; `NP32_Init`, which neither
  loops nor dereferences, returns the pair directly, and `NP32_Update` also returns
  the list of the invocations of the delegate.
* Execution is sequential: no interrupt handler runs inside a call.  The allocator
  and the delegate are parameters of the functions that use them.
-/

namespace NP32

/-! ## Machine integers -/

/-- Conversion of a C `int` value to `uint8_t`. -/
def u8 (x : Int) : Nat := (x % 256).toNat

/-- Conversion of a C `int` value to `uint16_t`. -/
def u16 (x : Int) : Nat := (x % 65536).toNat

/-! ## Faults, pointers, loops -/

/-- The ways in which a run of the model fails to return. -/
inductive Fault where
  | outOfBounds
  | badPointer
  | outOfFuel
  deriving DecidableEq, Repr

/-- A C pointer to an array: `NULL`, a live allocation, or a pointer whose
storage was passed to `free`. -/
inductive Ptr (α : Type) where
  | null
  | live (cells : List α)
  | freed
  deriving DecidableEq, Repr

/-- Read of `p[i]` for a C `int` index `i`. -/
def Ptr.load {α : Type} (p : Ptr α) (i : Int) : Except Fault α :=
  match p with
  | .live cells =>
    if 0 ≤ i then
      match cells[i.toNat]? with
      | some v => .ok v
      | none => .error .outOfBounds
    else .error .outOfBounds
  | _ => .error .badPointer

/-- Write `p[i] = v` for a C `int` index `i`. -/
def Ptr.store {α : Type} (p : Ptr α) (i : Int) (v : α) : Except Fault (Ptr α) :=
  match p with
  | .live cells =>
    if 0 ≤ i ∧ i.toNat < cells.length then .ok (.live (cells.set i.toNat v))
    else .error .outOfBounds
  | _ => .error .badPointer

/-- The loop `while (cond) body`, run for at most `fuel` iterations. -/
def whileLoop {σ : Type} (cond : σ → Bool) (body : σ → Except Fault σ) :
    Nat → σ → Except Fault σ
  | 0, s => if cond s then .error .outOfFuel else .ok s
  | fuel + 1, s =>
    if cond s then
      match body s with
      | .ok s' => whileLoop cond body fuel s'
      | .error e => .error e
    else .ok s

/-- The loop `do body while (cond)`, run for at most `fuel` iterations. -/
def doWhile {σ : Type} (body : σ → Except Fault σ) (cond : σ → Bool) :
    Nat → σ → Except Fault σ
  | 0, _ => .error .outOfFuel
  | fuel + 1, s =>
    match body s with
    | .ok s' => if cond s' then doWhile body cond fuel s' else .ok s'
    | .error e => .error e

/-! ## Constants and types of `neopixel32.h` -/

def NP32_WS2812_TIM_PERIOD : Nat := 93
def NP32_WS2812_0_TIME : Nat := 28
def NP32_WS2812_1_TIME : Nat := 50
def NP32_WS2812_ZERO_PERIODS : Nat := 48

/-- The macro `NP32_RESOLVE_BIT_TIME(val,bit)`:
`(((val >> bit) & 0x01) ? NP32_WS2812_1_TIME : NP32_WS2812_0_TIME)`. -/
def NP32_RESOLVE_BIT_TIME (val bit : Nat) : Nat :=
  if (val >>> bit) &&& 0x01 ≠ 0 then NP32_WS2812_1_TIME else NP32_WS2812_0_TIME

/-- The type `struct __NP32_RGB`: three `uint8_t` channels. -/
structure NP32_RGB where
  R : Nat
  G : Nat
  B : Nat
  deriving DecidableEq, Repr

/-- The type `struct __NP32_HSV`: `uint16_t H`, `uint8_t S`, `uint8_t V`. -/
structure NP32_HSV where
  H : Nat
  S : Nat
  V : Nat
  deriving DecidableEq, Repr

def NP32_COL_BLACK : NP32_RGB := ⟨0x00, 0x00, 0x00⟩

/-- The type `struct __NP32_Instance`.  `StartDMA_Call` is the address of the
delegate (`none` is `NULL`); what the delegate does is supplied by the caller
of the model of `NP32_Update`. -/
structure NP32_Instance where
  LED_Count : Nat
  LED_Col_Buffer : Ptr NP32_RGB
  LED_Disable_Flag : Nat
  _DMA_Buffer : Ptr Nat
  DMA_Busy_Flag : Nat
  StartDMA_Call : Option Nat
  deriving DecidableEq, Repr

/-- Read of `handle->LED_Col_Buffer[i]`. -/
def NP32_Instance.loadCol (handle : NP32_Instance) (i : Int) : Except Fault NP32_RGB :=
  handle.LED_Col_Buffer.load i

/-- Write `handle->LED_Col_Buffer[i] = v`. -/
def NP32_Instance.storeCol (handle : NP32_Instance) (i : Int) (v : NP32_RGB) :
    Except Fault NP32_Instance :=
  match handle.LED_Col_Buffer.store i v with
  | .ok p => .ok { handle with LED_Col_Buffer := p }
  | .error e => .error e

/-- Write `handle->_DMA_Buffer[i] = v`. -/
def NP32_Instance.storeDMA (handle : NP32_Instance) (i : Int) (v : Nat) :
    Except Fault NP32_Instance :=
  match handle._DMA_Buffer.store i v with
  | .ok p => .ok { handle with _DMA_Buffer := p }
  | .error e => .error e

/-! ## `NP32_HSV_To_RGB` -/

/-- The function `NP32_HSV_To_RGB`.  The result is the value left in `*rgb`.  Division is
C division of `int` operands (`Int.tdiv`); every assignment to a `uint8_t`
field or to `d` is a `u8`. -/
def NP32_HSV_To_RGB (hsv : NP32_HSV) : NP32_RGB :=
  let H : Nat := if hsv.H > 359 then 359 else hsv.H
  let S : Nat := if hsv.S > 100 then 100 else hsv.S
  let V : Nat := if hsv.V > 100 then 100 else hsv.V
  let rgb : NP32_RGB :=
    if H < 61 then
      ⟨u8 255, u8 (Int.tdiv (425 * (H : Int)) 100), u8 0⟩
    else if H < 121 then
      ⟨u8 (255 - Int.tdiv (425 * ((H : Int) - 60)) 100), u8 255, u8 0⟩
    else if H < 181 then
      ⟨u8 0, u8 255, u8 (Int.tdiv (425 * ((H : Int) - 120)) 100)⟩
    else if H < 241 then
      ⟨u8 0, u8 (255 - Int.tdiv (425 * ((H : Int) - 180)) 100), u8 255⟩
    else if H < 301 then
      ⟨u8 (Int.tdiv (425 * ((H : Int) - 240)) 100), u8 0, u8 255⟩
    else
      ⟨u8 255, u8 0, u8 (255 - Int.tdiv (425 * ((H : Int) - 300)) 100)⟩
  let S : Nat := u8 (100 - (S : Int))
  let d : Nat := u8 (Int.tdiv ((255 - (rgb.R : Int)) * (S : Int)) 100)
  let rgb : NP32_RGB := { rgb with R := u8 ((rgb.R : Int) + (d : Int)) }
  let d : Nat := u8 (Int.tdiv ((255 - (rgb.G : Int)) * (S : Int)) 100)
  let rgb : NP32_RGB := { rgb with G := u8 ((rgb.G : Int) + (d : Int)) }
  let d : Nat := u8 (Int.tdiv ((255 - (rgb.B : Int)) * (S : Int)) 100)
  let rgb : NP32_RGB := { rgb with B := u8 ((rgb.B : Int) + (d : Int)) }
  let rgb : NP32_RGB := { rgb with R := u8 (Int.tdiv ((rgb.R : Int) * (V : Int)) 100) }
  let rgb : NP32_RGB := { rgb with G := u8 (Int.tdiv ((rgb.G : Int) * (V : Int)) 100) }
  let rgb : NP32_RGB := { rgb with B := u8 (Int.tdiv ((rgb.B : Int) * (V : Int)) 100) }
  rgb

/-! ## Pixel-buffer setters -/

/-- The function `NP32_SetLED_RGB`. -/
def NP32_SetLED_RGB (handle : NP32_Instance) (led_index : Nat) (rgb : NP32_RGB) :
    Except Fault (Int × NP32_Instance) :=
  if led_index ≥ handle.LED_Count then .ok (-1, handle)
  else
    match handle.storeCol led_index rgb with
    | .ok handle => .ok (0, handle)
    | .error e => .error e

/-- Loop test shared by the ascending loops `for (i = ...; i < handle->LED_Count; i++)`;
the loop state is the pair `(i, handle)`. -/
def ltCount (s : Nat × NP32_Instance) : Bool := decide (s.1 < s.2.LED_Count)

/-- Body and increment of the loop of `NP32_SetAllLEDs_RGB`. -/
def NP32_SetAllLEDs_RGB.body (rgb : NP32_RGB) (s : Nat × NP32_Instance) :
    Except Fault (Nat × NP32_Instance) :=
  match s.2.storeCol s.1 rgb with
  | .ok handle => .ok (u16 (s.1 + 1), handle)
  | .error e => .error e

/-- The function `NP32_SetAllLEDs_RGB`. -/
def NP32_SetAllLEDs_RGB (fuel : Nat) (handle : NP32_Instance) (rgb : NP32_RGB) :
    Except Fault (Int × NP32_Instance) :=
  match whileLoop ltCount (NP32_SetAllLEDs_RGB.body rgb) fuel (0, handle) with
  | .ok s => .ok (0, s.2)
  | .error e => .error e

/-- Body and increment of the loop of `NP32_SetLEDSpan_RGB`. -/
def NP32_SetLEDSpan_RGB.body (rgb : NP32_RGB) (s : Nat × NP32_Instance) :
    Except Fault (Nat × NP32_Instance) :=
  match s.2.storeCol s.1 rgb with
  | .ok handle => .ok (u16 (s.1 + 1), handle)
  | .error e => .error e

/-- The function `NP32_SetLEDSpan_RGB`. -/
def NP32_SetLEDSpan_RGB (fuel : Nat) (handle : NP32_Instance)
    (lower_bound higher_bound : Nat) (rgb : NP32_RGB) : Except Fault (Int × NP32_Instance) :=
  if lower_bound ≥ handle.LED_Count ∨ higher_bound ≥ handle.LED_Count
      ∨ lower_bound > higher_bound then .ok (-1, handle)
  else
    match whileLoop (fun s => decide (s.1 ≤ higher_bound)) (NP32_SetLEDSpan_RGB.body rgb)
        fuel (lower_bound, handle) with
    | .ok s => .ok (0, s.2)
    | .error e => .error e

/-- The function `NP32_SetLED_HSV`. -/
def NP32_SetLED_HSV (handle : NP32_Instance) (led_index : Nat) (hsv : NP32_HSV) :
    Except Fault (Int × NP32_Instance) :=
  NP32_SetLED_RGB handle led_index (NP32_HSV_To_RGB hsv)

/-- The function `NP32_SetAllLEDs_HSV`. -/
def NP32_SetAllLEDs_HSV (fuel : Nat) (handle : NP32_Instance) (hsv : NP32_HSV) :
    Except Fault (Int × NP32_Instance) :=
  NP32_SetAllLEDs_RGB fuel handle (NP32_HSV_To_RGB hsv)

/-- The function `NP32_SetLEDSpan_HSV`. -/
def NP32_SetLEDSpan_HSV (fuel : Nat) (handle : NP32_Instance)
    (lower_bound higher_bound : Nat) (hsv : NP32_HSV) : Except Fault (Int × NP32_Instance) :=
  NP32_SetLEDSpan_RGB fuel handle lower_bound higher_bound (NP32_HSV_To_RGB hsv)

/-- The function `NP32_ClearAllLEDs`. -/
def NP32_ClearAllLEDs (fuel : Nat) (handle : NP32_Instance) :
    Except Fault (Int × NP32_Instance) :=
  NP32_SetAllLEDs_RGB fuel handle NP32_COL_BLACK

/-! ## Shifts and rotations -/

/-- Body and increment of the loop of `NP32_ShiftLeft`; `sv` is the local `s`. -/
def NP32_ShiftLeft.body (shift_amount : Nat) (s : Nat × NP32_Instance) :
    Except Fault (Nat × NP32_Instance) := do
  let i := s.1
  let handle := s.2
  let sv := u16 ((shift_amount : Int) + (i : Int))
  let handle ←
    if sv ≥ handle.LED_Count then handle.storeCol i NP32_COL_BLACK
    else do
      let v ← handle.loadCol sv
      handle.storeCol i v
  pure (u16 ((i : Int) + 1), handle)

/-- The function `NP32_ShiftLeft`. -/
def NP32_ShiftLeft (fuel : Nat) (handle : NP32_Instance) (shift_amount : Nat) :
    Except Fault (Int × NP32_Instance) := do
  let s ← whileLoop ltCount (NP32_ShiftLeft.body shift_amount) fuel (0, handle)
  pure (0, s.2)

/-- Loop test `i >= 0` of the descending loops, on the `uint16_t` counter `i`. -/
def geZero (i : Nat) : Bool := decide ((i : Int) ≥ 0)

/-- Body and decrement of the loop of `NP32_ShiftRight`. -/
def NP32_ShiftRight.body (shift_amount : Nat) (s : Nat × NP32_Instance) :
    Except Fault (Nat × NP32_Instance) := do
  let i := s.1
  let handle := s.2
  let handle ←
    if shift_amount > i then handle.storeCol i NP32_COL_BLACK
    else do
      let v ← handle.loadCol ((i : Int) - (shift_amount : Int))
      handle.storeCol i v
  pure (u16 ((i : Int) - 1), handle)

/-- The function `NP32_ShiftRight`. -/
def NP32_ShiftRight (fuel : Nat) (handle : NP32_Instance) (shift_amount : Nat) :
    Except Fault (Int × NP32_Instance) := do
  let s ← whileLoop (fun s => geZero s.1) (NP32_ShiftRight.body shift_amount) fuel
    (u16 ((handle.LED_Count : Int) - 1), handle)
  pure (0, s.2)

/-- The call `calloc(n, sizeof(NP32_RGB_t))`: `NULL` when the allocator has no memory
(`mem_ok = false`), otherwise `n` zeroed cells. -/
def callocRGB (mem_ok : Bool) (n : Nat) : Ptr NP32_RGB :=
  if mem_ok then .live (List.replicate n ⟨0, 0, 0⟩) else .null

/-- Body and increment of the loop of `NP32_RotateLeft`; the loop state is
`(i, buf, handle)` and `sv` is the local `s`. -/
def NP32_RotateLeft.body (rotate_amount : Nat) (s : Nat × Ptr NP32_RGB × NP32_Instance) :
    Except Fault (Nat × Ptr NP32_RGB × NP32_Instance) := do
  let i := s.1
  let buf := s.2.1
  let handle := s.2.2
  let sv := u16 ((rotate_amount : Int) + (i : Int))
  let buf ←
    if i < rotate_amount then do
      let v ← handle.loadCol i
      buf.store i v
    else pure buf
  let handle ←
    if sv ≥ handle.LED_Count then do
      let v ← buf.load ((sv : Int) - (handle.LED_Count : Int))
      handle.storeCol i v
    else do
      let v ← handle.loadCol sv
      handle.storeCol i v
  pure (u16 ((i : Int) + 1), buf, handle)

/-- The function `NP32_RotateLeft`; `mem_ok` tells whether its `calloc` succeeds. -/
def NP32_RotateLeft (mem_ok : Bool) (fuel : Nat) (handle : NP32_Instance)
    (rotate_amount : Nat) : Except Fault (Int × NP32_Instance) :=
  match callocRGB mem_ok rotate_amount with
  | .null => .ok (-1, handle)
  | buf => do
    let s ← whileLoop (fun s => decide (s.1 < s.2.2.LED_Count))
      (NP32_RotateLeft.body rotate_amount) fuel (0, buf, handle)
    pure (0, s.2.2)

/-- Body and decrement of the loop of `NP32_RotateRight`; the loop state is
`(i, buf, handle)`. -/
def NP32_RotateRight.body (rotate_amount : Nat) (s : Nat × Ptr NP32_RGB × NP32_Instance) :
    Except Fault (Nat × Ptr NP32_RGB × NP32_Instance) := do
  let i := s.1
  let buf := s.2.1
  let handle := s.2.2
  let buf ←
    if (i : Int) ≥ (handle.LED_Count : Int) - (rotate_amount : Int) then do
      let v ← handle.loadCol i
      buf.store ((i : Int) - ((handle.LED_Count : Int) - (rotate_amount : Int))) v
    else pure buf
  let handle ←
    if rotate_amount > i then do
      let v ← buf.load i
      handle.storeCol i v
    else do
      let v ← handle.loadCol ((i : Int) - (rotate_amount : Int))
      handle.storeCol i v
  pure (u16 ((i : Int) - 1), buf, handle)

/-- The function `NP32_RotateRight`; `mem_ok` tells whether its `calloc` succeeds. -/
def NP32_RotateRight (mem_ok : Bool) (fuel : Nat) (handle : NP32_Instance)
    (rotate_amount : Nat) : Except Fault (Int × NP32_Instance) :=
  match callocRGB mem_ok rotate_amount with
  | .null => .ok (-1, handle)
  | buf => do
    let s ← whileLoop (fun s => geZero s.1)
      (NP32_RotateRight.body rotate_amount) fuel
      (u16 ((handle.LED_Count : Int) - 1), buf, handle)
    pure (0, s.2.2)

/-! ## The encoder `_NP32_Recalc_DMA_Buf` -/

/-- Body of one `do ... while (b > 0)` loop of the encoder, for the channel value `val`:
`handle->_DMA_Buffer[i_dma++] = NP32_RESOLVE_BIT_TIME(val, --b)`.  The loop state
is `(b, i_dma, handle)`. -/
def bitBody (val : Nat) (s : Nat × Nat × NP32_Instance) :
    Except Fault (Nat × Nat × NP32_Instance) := do
  let b := u8 ((s.1 : Int) - 1)
  let i_dma := s.2.1
  let handle ← s.2.2.storeDMA i_dma (NP32_RESOLVE_BIT_TIME val b)
  pure (b, u16 ((i_dma : Int) + 1), handle)

/-- Body and increment of the disable-mode loop of the encoder; the state is `(i_dma, handle)`. -/
def zeroBody (s : Nat × NP32_Instance) : Except Fault (Nat × NP32_Instance) := do
  let handle ← s.2.storeDMA s.1 0x00
  pure (u16 ((s.1 : Int) + 1), handle)

/-- Body and increment of the pixel loop of the encoder; the state is `(i, i_dma, handle)`. -/
def pixelBody (fuel : Nat) (s : Nat × Nat × NP32_Instance) :
    Except Fault (Nat × Nat × NP32_Instance) := do
  let i := s.1
  let handle := s.2.2
  let curr_col ← handle.loadCol i
  let i_dma := u16 ((i : Int) * 24)
  let t ← doWhile (bitBody curr_col.G) (fun t => decide (t.1 > 0)) fuel (8, i_dma, handle)
  let t ← doWhile (bitBody curr_col.R) (fun t => decide (t.1 > 0)) fuel (8, t.2.1, t.2.2)
  let t ← doWhile (bitBody curr_col.B) (fun t => decide (t.1 > 0)) fuel (8, t.2.1, t.2.2)
  pure (u16 ((i : Int) + 1), t.2.1, t.2.2)

/-- Body and increment of the reset-gap loop of the encoder; the state is `(i, i_dma, handle)`. -/
def resetBody (s : Nat × Nat × NP32_Instance) : Except Fault (Nat × Nat × NP32_Instance) := do
  let handle ← s.2.2.storeDMA s.2.1 0x00
  pure (u16 ((s.1 : Int) + 1), u16 ((s.2.1 : Int) + 1), handle)

/-- The function `_NP32_Recalc_DMA_Buf`. -/
def _NP32_Recalc_DMA_Buf (fuel : Nat) (handle : NP32_Instance) : Except Fault NP32_Instance :=
  if handle.LED_Disable_Flag = 1 then do
    let s ← whileLoop
      (fun s => decide (s.1 < s.2.LED_Count * 24 + NP32_WS2812_ZERO_PERIODS))
      zeroBody fuel (0, handle)
    pure s.2
  else do
    let s ← whileLoop (fun s => decide (s.1 < s.2.2.LED_Count)) (pixelBody fuel) fuel
      (0, 0, handle)
    let s ← whileLoop (fun s => decide (s.1 < NP32_WS2812_ZERO_PERIODS)) resetBody fuel
      (0, s.2.1, s.2.2)
    pure s.2.2

/-! ## Lifecycle and transfer control -/

/-- The test `p == NULL`. -/
def Ptr.isNull {α : Type} (p : Ptr α) : Bool :=
  match p with
  | .null => true
  | _ => false

/-- The call `free(p)`: nothing happens for `NULL`, a live allocation is given back (the
pointer keeps its value and now dangles), and freeing a dangling pointer is a fault. -/
def Ptr.free {α : Type} (p : Ptr α) : Except Fault (Ptr α) :=
  match p with
  | .null => .ok .null
  | .live _ => .ok .freed
  | .freed => .error .badPointer

/-- The call `calloc(n, sizeof(uint16_t))`: `NULL` when the allocator has no memory
(`mem_ok = false`), otherwise `n` zeroed cells. -/
def callocU16 (mem_ok : Bool) (n : Nat) : Ptr Nat :=
  if mem_ok then .live (List.replicate n 0) else .null

/-- One invocation of the delegate `StartDMA_Call(buf, len)`: the buffer and element
count it was given and the status it returned. -/
structure DMACall where
  buf : Ptr Nat
  len : Nat
  status : Int
  deriving DecidableEq, Repr

/-- The function `NP32_Init`; `mem_col` and `mem_dma` tell whether its first and second
`calloc` succeed.  The element count of the second `calloc` is computed in `unsigned int`
and passed as `size_t`, so it is not truncated. -/
def NP32_Init (mem_col mem_dma : Bool) (handle : NP32_Instance) : Int × NP32_Instance :=
  if handle.LED_Count = 0 then (-1, handle)
  else
    let handle := { handle with LED_Col_Buffer := callocRGB mem_col handle.LED_Count }
    if handle.LED_Col_Buffer.isNull then (-1, handle)
    else
      let handle := { handle with
        _DMA_Buffer := callocU16 mem_dma (handle.LED_Count * 24 + NP32_WS2812_ZERO_PERIODS) }
      if handle._DMA_Buffer.isNull then (-1, handle)
      else if handle.StartDMA_Call.isNone then (-1, handle)
      else (0, handle)

/-- The function `NP32_DeInit`.  Both pointer fields keep their values, which dangle
after the call. -/
def NP32_DeInit (handle : NP32_Instance) : Except Fault NP32_Instance := do
  let col ← handle.LED_Col_Buffer.free
  let handle := { handle with LED_Col_Buffer := col }
  let dma ← handle._DMA_Buffer.free
  let handle := { handle with _DMA_Buffer := dma }
  pure { handle with LED_Count := 0 }

/-- The function `NP32_Update`.  `startDMA` is what the delegate designated by
`handle->StartDMA_Call` returns for a buffer and an element count; the third component
of the result lists the invocations of the delegate.  The model is sequential: no
interrupt handler runs during the call, so the wait `while (handle->DMA_Busy_Flag);`
leaves the instance as it is and ends only if the flag is 0.  The element count
argument is converted to the `uint16_t` parameter `len`. -/
def NP32_Update (fuel : Nat) (startDMA : Ptr Nat → Nat → Int) (handle : NP32_Instance) :
    Except Fault (Int × NP32_Instance × List DMACall) :=
  if handle.LED_Col_Buffer.isNull || handle._DMA_Buffer.isNull then .ok (-1, handle, [])
  else do
    let handle ← whileLoop (fun h : NP32_Instance => decide (h.DMA_Busy_Flag ≠ 0))
      (fun h => .ok h) fuel handle
    let handle ← _NP32_Recalc_DMA_Buf fuel handle
    let handle := { handle with DMA_Busy_Flag := 1 }
    match handle.StartDMA_Call with
    | none => .error .badPointer
    | some _ =>
      let len := u16 ((handle.LED_Count : Int) * 24 + (NP32_WS2812_ZERO_PERIODS : Int))
      let status := startDMA handle._DMA_Buffer len
      pure (0, handle, [⟨handle._DMA_Buffer, len, status⟩])

/-- The function `NP32_DMAComplete_Callback`. -/
def NP32_DMAComplete_Callback (handle : NP32_Instance) : NP32_Instance :=
  if handle.DMA_Busy_Flag ≠ 0 then { handle with DMA_Busy_Flag := 0 } else handle

/-- The public operations that are the steps of the transition system of an instance. -/
inductive Op where
  | setLED
  | setAll
  | setSpan
  | clearAll
  | shiftLeft
  | rotateLeft
  | dmaComplete
  | update
  deriving DecidableEq, Repr

/-- The step relation of an instance: `Step op h h'` holds when the public operation `op`,
called on `h` with some arguments (and, for the functions that allocate or call the
delegate, some behaviour of the allocator and of the delegate), returns and leaves `h'`. -/
inductive Step : Op → NP32_Instance → NP32_Instance → Prop where
  | setLED (h h' : NP32_Instance) (led_index : Nat) (rgb : NP32_RGB) (r : Int) :
      NP32_SetLED_RGB h led_index rgb = .ok (r, h') → Step .setLED h h'
  | setAll (h h' : NP32_Instance) (fuel : Nat) (rgb : NP32_RGB) (r : Int) :
      NP32_SetAllLEDs_RGB fuel h rgb = .ok (r, h') → Step .setAll h h'
  | setSpan (h h' : NP32_Instance) (fuel lower_bound higher_bound : Nat) (rgb : NP32_RGB)
      (r : Int) :
      NP32_SetLEDSpan_RGB fuel h lower_bound higher_bound rgb = .ok (r, h') →
      Step .setSpan h h'
  | clearAll (h h' : NP32_Instance) (fuel : Nat) (r : Int) :
      NP32_ClearAllLEDs fuel h = .ok (r, h') → Step .clearAll h h'
  | shiftLeft (h h' : NP32_Instance) (fuel shift_amount : Nat) (r : Int) :
      NP32_ShiftLeft fuel h shift_amount = .ok (r, h') → Step .shiftLeft h h'
  | rotateLeft (h h' : NP32_Instance) (mem_ok : Bool) (fuel rotate_amount : Nat) (r : Int) :
      NP32_RotateLeft mem_ok fuel h rotate_amount = .ok (r, h') → Step .rotateLeft h h'
  | dmaComplete (h : NP32_Instance) : Step .dmaComplete h (NP32_DMAComplete_Callback h)
  | update (h h' : NP32_Instance) (fuel : Nat) (startDMA : Ptr Nat → Nat → Int) (r : Int)
      (calls : List DMACall) :
      NP32_Update fuel startDMA h = .ok (r, h', calls) → Step .update h h'

/-! ## `NP32_Update` statement by statement -/

/-- The program points of `NP32_Update`: before the `NULL` check, at the wait
`while (handle->DMA_Busy_Flag);`, before the call of `_NP32_Recalc_DMA_Buf`, before the
assignment `handle->DMA_Busy_Flag = 1U`, before the call of the delegate, and after the
`return` of a status. -/
inductive UpdatePC where
  | check
  | wait
  | encode
  | setBusy
  | call
  | ret (status : Int)
  deriving DecidableEq, Repr

/-- One statement of `NP32_Update`, executed at the program point `pc` on the instance as
it is at that moment; it gives the next program point, the instance, and the invocations
of the delegate made by the statement.  At `wait` one evaluation of the loop test is made:
the volatile flag is read, and the loop is left only if the value read is 0. -/
def NP32_Update.step (fuel : Nat) (startDMA : Ptr Nat → Nat → Int) (pc : UpdatePC)
    (handle : NP32_Instance) : Except Fault (UpdatePC × NP32_Instance × List DMACall) :=
  match pc with
  | .check =>
    if handle.LED_Col_Buffer.isNull || handle._DMA_Buffer.isNull then
      .ok (.ret (-1), handle, [])
    else .ok (.wait, handle, [])
  | .wait =>
    if handle.DMA_Busy_Flag ≠ 0 then .ok (.wait, handle, [])
    else .ok (.encode, handle, [])
  | .encode =>
    match _NP32_Recalc_DMA_Buf fuel handle with
    | .ok handle => .ok (.setBusy, handle, [])
    | .error e => .error e
  | .setBusy => .ok (.call, { handle with DMA_Busy_Flag := 1 }, [])
  | .call =>
    match handle.StartDMA_Call with
    | none => .error .badPointer
    | some _ =>
      let len := u16 ((handle.LED_Count : Int) * 24 + (NP32_WS2812_ZERO_PERIODS : Int))
      let status := startDMA handle._DMA_Buffer len
      .ok (.ret 0, handle, [⟨handle._DMA_Buffer, len, status⟩])
  | .ret status => .ok (.ret status, handle, [])

/-- Execution of `NP32_Update` as the succession of its statements, without
interruption, for at most `k` statements: the run ends when the `return` is reached. -/
def NP32_Update.drive (fuel : Nat) (startDMA : Ptr Nat → Nat → Int) :
    Nat → UpdatePC → NP32_Instance → List DMACall →
      Except Fault (Int × NP32_Instance × List DMACall)
  | _, .ret status, handle, calls => .ok (status, handle, calls)
  | 0, _, _, _ => .error .outOfFuel
  | k + 1, pc, handle, calls =>
    match NP32_Update.step fuel startDMA pc handle with
    | .ok (pc', handle', made) => NP32_Update.drive fuel startDMA k pc' handle' (calls ++ made)
    | .error e => .error e

/-- An instance together with the program point of the `NP32_Update` call in progress on
it, if there is one. -/
structure Machine where
  handle : NP32_Instance
  pc : Option UpdatePC

/-- The transitions of an instance in use.  A public operation other than `NP32_Update`
(a pixel-buffer operation, or `NP32_DMAComplete_Callback` from the completion interrupt)
may run to completion at any moment, also between two statements of an `NP32_Update` call;
`NP32_Update` is entered when no call of it is in progress, executes its statements one
at a time, and is left after its `return`. -/
inductive Trans : Machine → Machine → Prop where
  | publicOp (m : Machine) (op : Op) (h' : NP32_Instance) :
      op ≠ .update → Step op m.handle h' → Trans m ⟨h', m.pc⟩
  | enter (m : Machine) : m.pc = none → Trans m ⟨m.handle, some .check⟩
  | statement (m : Machine) (fuel : Nat) (startDMA : Ptr Nat → Nat → Int)
      (pc pc' : UpdatePC) (h' : NP32_Instance) (made : List DMACall) :
      m.pc = some pc → NP32_Update.step fuel startDMA pc m.handle = .ok (pc', h', made) →
      Trans m ⟨h', some pc'⟩
  | leave (m : Machine) (status : Int) :
      m.pc = some (.ret status) → Trans m ⟨m.handle, none⟩

/-- The states reached from a given state by finitely many transitions. -/
inductive Reach : Machine → Machine → Prop where
  | refl (m : Machine) : Reach m m
  | tail (m0 m m' : Machine) : Reach m0 m → Trans m m' → Reach m0 m'

/-! ## Reference definitions, following the specification -/

/-- Reference symbol for one bit, from the specification: a set bit is the value 50, a
clear bit is the value 28. -/
def refSymbol (bit : Bool) : Nat := if bit then 50 else 28

/-- Reference waveform of one pixel, from the specification: symbol `k` of the 24
symbols of a pixel is bit `7-k` of G for `k < 8`, bit `15-k` of R for `8 <= k < 16`
and bit `23-k` of B for `16 <= k < 24`. -/
def refWave (px : NP32_RGB) (k : Nat) : Nat :=
  if k < 8 then refSymbol (px.G.testBit (7 - k))
  else if k < 16 then refSymbol (px.R.testBit (15 - k))
  else refSymbol (px.B.testBit (23 - k))

/-- Inverse bit-timing mapping, from the specification: 50 decodes to bit 1, 28 decodes
to bit 0, and no other value is a symbol. -/
def decodeSymbol (t : Nat) : Option Nat :=
  if t = 50 then some 1 else if t = 28 then some 0 else none

/-- Reassembly of a byte from its symbols, most significant bit first. -/
def decodeByte (syms : List Nat) : Option Nat :=
  syms.foldl (fun acc t =>
    match acc, decodeSymbol t with
    | some a, some b => some (2 * a + b)
    | _, _ => none) (some 0)

/-- Decoding of the 24 symbols of one pixel: three bytes in the order G, R, B. -/
def decodePixel (syms : List Nat) : Option NP32_RGB :=
  match decodeByte (syms.take 8), decodeByte ((syms.drop 8).take 8),
      decodeByte ((syms.drop 16).take 8) with
  | some g, some r, some b => some ⟨r, g, b⟩
  | _, _, _ => none

/-- Base colour of the reference conversion, from the specification, for a clamped hue
`h`, in unbounded integers with truncating division. -/
def hsvBase (h : Int) : Int × Int × Int :=
  if h ≤ 60 then (255, Int.tdiv (425 * h) 100, 0)
  else if h ≤ 120 then (255 - Int.tdiv (425 * (h - 60)) 100, 255, 0)
  else if h ≤ 180 then (0, 255, Int.tdiv (425 * (h - 120)) 100)
  else if h ≤ 240 then (0, 255 - Int.tdiv (425 * (h - 180)) 100, 255)
  else if h ≤ 300 then (Int.tdiv (425 * (h - 240)) 100, 0, 255)
  else (255, 0, 255 - Int.tdiv (425 * (h - 300)) 100)

/-- Saturation blend of the reference conversion: `c0 + ((255 - c0)*(100 - s))/100`. -/
def hsvBlend (c0 s : Int) : Int := c0 + Int.tdiv ((255 - c0) * (100 - s)) 100

/-- Output channel of the reference conversion:
`((c0 + ((255 - c0)*(100 - s))/100) * v)/100`. -/
def hsvChannel (c0 s v : Int) : Int := Int.tdiv (hsvBlend c0 s * v) 100

/-- The reference conversion of the specification, in unbounded integers: clamp, base
colour by hue sector, then every channel blended from its own base value and scaled. -/
def hsvReference (hsv : NP32_HSV) : Int × Int × Int :=
  let h : Int := min (hsv.H : Int) 359
  let s : Int := min (hsv.S : Int) 100
  let v : Int := min (hsv.V : Int) 100
  let base := hsvBase h
  (hsvChannel base.1 s v, hsvChannel base.2.1 s v, hsvChannel base.2.2 s v)

/-! ## Concrete instances -/

/-- A three-pixel instance used to exercise the setters: all pixels black, idle, enabled. -/
def inst3 : NP32_Instance :=
  { LED_Count := 3
    LED_Col_Buffer := .live [⟨0, 0, 0⟩, ⟨0, 0, 0⟩, ⟨0, 0, 0⟩]
    LED_Disable_Flag := 0
    _DMA_Buffer := .live (List.replicate 120 0)
    DMA_Busy_Flag := 0
    StartDMA_Call := some 1 }

/-- A one-pixel instance holding pure green, enabled, idle. -/
def instGreen : NP32_Instance :=
  { LED_Count := 1
    LED_Col_Buffer := .live [⟨0, 255, 0⟩]
    LED_Disable_Flag := 0
    _DMA_Buffer := .live (List.replicate 72 0)
    DMA_Busy_Flag := 0
    StartDMA_Call := some 1 }

/-- The three-pixel instance of the specification's example after
`SetLED_RGB(1, {10,20,30})` on a black buffer. -/
def instExample : NP32_Instance :=
  { LED_Count := 3
    LED_Col_Buffer := .live [⟨0, 0, 0⟩, ⟨10, 20, 30⟩, ⟨0, 0, 0⟩]
    LED_Disable_Flag := 0
    _DMA_Buffer := .live (List.replicate 120 0)
    DMA_Busy_Flag := 0
    StartDMA_Call := some 1 }

/-- A two-pixel instance with coloured pixels and the disable flag set; its timing
buffer holds stale non-zero entries. -/
def instDisabled : NP32_Instance :=
  { LED_Count := 2
    LED_Col_Buffer := .live [⟨255, 128, 7⟩, ⟨1, 2, 3⟩]
    LED_Disable_Flag := 1
    _DMA_Buffer := .live (List.replicate 96 50)
    DMA_Busy_Flag := 0
    StartDMA_Call := some 1 }

/-- A one-pixel instance holding the colour (1,2,3). -/
def instOne : NP32_Instance :=
  { LED_Count := 1
    LED_Col_Buffer := .live [⟨1, 2, 3⟩]
    LED_Disable_Flag := 0
    _DMA_Buffer := .live (List.replicate 72 0)
    DMA_Busy_Flag := 0
    StartDMA_Call := some 1 }

/-- A three-pixel instance holding three different colours. -/
def instThree : NP32_Instance :=
  { LED_Count := 3
    LED_Col_Buffer := .live [⟨1, 1, 1⟩, ⟨2, 2, 2⟩, ⟨3, 3, 3⟩]
    LED_Disable_Flag := 0
    _DMA_Buffer := .live (List.replicate 120 0)
    DMA_Busy_Flag := 0
    StartDMA_Call := some 1 }

/-- A pixel buffer of 32769 pixels, black except for the last one. -/
def bufShift : List NP32_RGB := List.replicate 32768 ⟨0, 0, 0⟩ ++ [⟨1, 2, 3⟩]

/-- An instance of 32769 LEDs over `bufShift`. -/
def instShift : NP32_Instance :=
  { LED_Count := 32769
    LED_Col_Buffer := .live bufShift
    LED_Disable_Flag := 0
    _DMA_Buffer := .live (List.replicate 786504 0)
    DMA_Busy_Flag := 0
    StartDMA_Call := some 1 }

/-- A pixel buffer of 32769 pixels, black except for the last two. -/
def bufRotate : List NP32_RGB := List.replicate 32767 ⟨0, 0, 0⟩ ++ [⟨1, 2, 3⟩, ⟨4, 5, 6⟩]

/-- An instance of 32769 LEDs over `bufRotate`. -/
def instRotate : NP32_Instance :=
  { LED_Count := 32769
    LED_Col_Buffer := .live bufRotate
    LED_Disable_Flag := 0
    _DMA_Buffer := .live (List.replicate 786504 0)
    DMA_Busy_Flag := 0
    StartDMA_Call := some 1 }

/-- A two-pixel instance whose busy flag is set. -/
def instBusy : NP32_Instance :=
  { LED_Count := 2
    LED_Col_Buffer := .live [⟨9, 8, 7⟩, ⟨1, 2, 3⟩]
    LED_Disable_Flag := 0
    _DMA_Buffer := .live (List.replicate 96 28)
    DMA_Busy_Flag := 1
    StartDMA_Call := some 1 }

/-- An instance that was never initialised: no buffers, busy flag set. -/
def instNull : NP32_Instance :=
  { LED_Count := 4
    LED_Col_Buffer := .null
    LED_Disable_Flag := 0
    _DMA_Buffer := .null
    DMA_Busy_Flag := 1
    StartDMA_Call := some 1 }

/-- A caller-prepared instance before `NP32_Init`: one LED, a delegate, no buffers yet,
and a busy flag that happens to be set. -/
def instRaw : NP32_Instance :=
  { LED_Count := 1
    LED_Col_Buffer := .null
    LED_Disable_Flag := 0
    _DMA_Buffer := .null
    DMA_Busy_Flag := 1
    StartDMA_Call := some 1 }

/-- An idle, enabled instance of 2729 LEDs, all black: its timing buffer has
`2729 * 24 + 48 = 65544` entries. -/
def instLarge : NP32_Instance :=
  { LED_Count := 2729
    LED_Col_Buffer := .live (List.replicate 2729 ⟨0, 0, 0⟩)
    LED_Disable_Flag := 0
    _DMA_Buffer := .live (List.replicate 65544 0)
    DMA_Busy_Flag := 0
    StartDMA_Call := some 1 }

/-- The instance `instLarge` with the disable flag set. -/
def instLargeDisabled : NP32_Instance :=
  { LED_Count := 2729
    LED_Col_Buffer := .live (List.replicate 2729 ⟨0, 0, 0⟩)
    LED_Disable_Flag := 1
    _DMA_Buffer := .live (List.replicate 65544 0)
    DMA_Busy_Flag := 0
    StartDMA_Call := some 1 }

/-! ## Auxiliary facts: machine integers, memory, loops -/

theorem u16_of_lt (n : Nat) (h : n < 65536) : u16 (n : Int) = n := by
  unfold u16; omega

theorem u16_succ (n : Nat) (h : n + 1 < 65536) : u16 ((n : Int) + 1) = n + 1 := by
  unfold u16; omega

theorem u16_add (a b : Nat) : u16 ((a : Int) + (b : Int)) = (a + b) % 65536 := by
  unfold u16; omega

theorem u16_pred (n : Nat) : u16 ((n : Int) - 1) = (n + 65535) % 65536 := by
  unfold u16; omega

theorem u8_of_lt (n : Nat) (h : n < 256) : u8 (n : Int) = n := by
  unfold u8; omega

theorem Ptr.load_live {α : Type} (cells : List α) (i : Nat) (hi : i < cells.length) :
    (Ptr.live cells).load (i : Int) = .ok cells[i] := by
  simp [Ptr.load, List.getElem?_eq_getElem hi]

theorem Ptr.store_live {α : Type} (cells : List α) (i : Nat) (v : α) (hi : i < cells.length) :
    (Ptr.live cells).store (i : Int) v = .ok (.live (cells.set i v)) := by
  simp [Ptr.store, hi]

theorem Ptr.store_live_oob {α : Type} (cells : List α) (i : Nat) (v : α)
    (hi : cells.length ≤ i) : (Ptr.live cells).store (i : Int) v = .error .outOfBounds := by
  simp [Ptr.store]; omega

theorem Ptr.load_live_oob {α : Type} (cells : List α) (i : Nat)
    (hi : cells.length ≤ i) : (Ptr.live cells).load (i : Int) = .error .outOfBounds := by
  simp [Ptr.load, List.getElem?_eq_none hi]

theorem loadCol_live (h : NP32_Instance) (col : List NP32_RGB) (i : Nat)
    (hb : h.LED_Col_Buffer = .live col) (hi : i < col.length) :
    h.loadCol (i : Int) = .ok col[i] := by
  simp [NP32_Instance.loadCol, hb, Ptr.load_live col i hi]

theorem storeCol_live (h : NP32_Instance) (col : List NP32_RGB) (i : Nat) (v : NP32_RGB)
    (hb : h.LED_Col_Buffer = .live col) (hi : i < col.length) :
    h.storeCol (i : Int) v = .ok { h with LED_Col_Buffer := .live (col.set i v) } := by
  simp [NP32_Instance.storeCol, hb, Ptr.store_live col i v hi]

theorem storeCol_oob (h : NP32_Instance) (col : List NP32_RGB) (i : Nat) (v : NP32_RGB)
    (hb : h.LED_Col_Buffer = .live col) (hi : col.length ≤ i) :
    h.storeCol (i : Int) v = .error .outOfBounds := by
  simp [NP32_Instance.storeCol, hb, Ptr.store_live_oob col i v hi]

theorem loadCol_oob (h : NP32_Instance) (col : List NP32_RGB) (i : Nat)
    (hb : h.LED_Col_Buffer = .live col) (hi : col.length ≤ i) :
    h.loadCol (i : Int) = .error .outOfBounds := by
  simp [NP32_Instance.loadCol, hb, Ptr.load_live_oob col i hi]

theorem storeDMA_live (h : NP32_Instance) (dma : List Nat) (i : Nat) (v : Nat)
    (hb : h._DMA_Buffer = .live dma) (hi : i < dma.length) :
    h.storeDMA (i : Int) v = .ok { h with _DMA_Buffer := .live (dma.set i v) } := by
  simp [NP32_Instance.storeDMA, hb, Ptr.store_live dma i v hi]

/-- Total correctness of a `while` loop from an invariant and a variant: with a budget
at least the variant, the loop returns in a state that satisfies the invariant and
fails the loop test. -/
theorem whileLoop_inv {σ : Type} (cond : σ → Bool) (body : σ → Except Fault σ)
    (Inv : σ → Prop) (m : σ → Nat)
    (hstep : ∀ s, Inv s → cond s = true → ∃ s', body s = .ok s' ∧ Inv s' ∧ m s' < m s) :
    ∀ (fuel : Nat) (s : σ), Inv s → m s ≤ fuel →
      ∃ s', whileLoop cond body fuel s = .ok s' ∧ Inv s' ∧ cond s' = false := by
  intro fuel
  induction fuel with
  | zero =>
    intro s hs hm
    cases hc : cond s with
    | false => exact ⟨s, by simp [whileLoop, hc], hs, hc⟩
    | true =>
      obtain ⟨s', _, _, hlt⟩ := hstep s hs hc
      omega
  | succ fuel ih =>
    intro s hs hm
    cases hc : cond s with
    | false => exact ⟨s, by simp [whileLoop, hc], hs, hc⟩
    | true =>
      obtain ⟨s', hb, hs', hlt⟩ := hstep s hs hc
      obtain ⟨s'', hr, hi, hc'⟩ := ih s' hs' (by omega)
      exact ⟨s'', by simp [whileLoop, hc, hb, hr], hi, hc'⟩

/-- A `while` loop whose test never fails under an invariant does not return, whatever
the budget: it ends in a fault. -/
theorem whileLoop_never {σ : Type} (cond : σ → Bool) (body : σ → Except Fault σ)
    (Inv : σ → Prop)
    (hstep : ∀ s, Inv s → cond s = true ∧
      ((∃ e, body s = .error e) ∨ ∃ s', body s = .ok s' ∧ Inv s')) :
    ∀ (fuel : Nat) (s : σ), Inv s → ∃ e, whileLoop cond body fuel s = .error e := by
  intro fuel
  induction fuel with
  | zero =>
    intro s hs
    exact ⟨.outOfFuel, by simp [whileLoop, (hstep s hs).1]⟩
  | succ fuel ih =>
    intro s hs
    obtain ⟨hc, hb⟩ := hstep s hs
    rcases hb with ⟨e, he⟩ | ⟨s', hb, hs'⟩
    · exact ⟨e, by simp [whileLoop, hc, he]⟩
    · obtain ⟨e, he⟩ := ih s' hs'
      exact ⟨e, by simp [whileLoop, hc, hb, he]⟩

/-! ## `NP32_SetLED_RGB` and `NP32_SetLEDSpan_RGB` -/


theorem SetLEDSpan_loop (handle : NP32_Instance) (col : List NP32_RGB)
    (lower_bound higher_bound fuel : Nat) (rgb : NP32_RGB)
    (hbuf : handle.LED_Col_Buffer = .live col) (hlen : col.length = handle.LED_Count)
    (hL : handle.LED_Count < 65536) (hlo : lower_bound ≤ higher_bound)
    (hhi : higher_bound < handle.LED_Count) (hfuel : handle.LED_Count ≤ fuel) :
    ∃ i col', whileLoop (fun s => decide (s.1 ≤ higher_bound)) (NP32_SetLEDSpan_RGB.body rgb)
        fuel (lower_bound, handle) = .ok (i, { handle with LED_Col_Buffer := .live col' })
      ∧ col'.length = col.length
      ∧ ∀ j, col'[j]? = if lower_bound ≤ j ∧ j ≤ higher_bound then some rgb
          else col[j]? := by
  obtain ⟨⟨i', h'⟩, hr, ⟨hi1, hi2, col', hs2, hl', hcol'⟩, hc⟩ :=
    whileLoop_inv (fun s => decide (s.1 ≤ higher_bound)) (NP32_SetLEDSpan_RGB.body rgb)
      (fun s => lower_bound ≤ s.1 ∧ s.1 ≤ higher_bound + 1 ∧
        ∃ col', s.2 = { handle with LED_Col_Buffer := .live col' } ∧ col'.length = col.length ∧
          ∀ j, col'[j]? = if lower_bound ≤ j ∧ j < s.1 then some rgb
            else col[j]?)
      (fun s => higher_bound + 1 - s.1)
      (by
        rintro ⟨i, h⟩ ⟨h1, h2, col', hh, hl', hcol'⟩ hc
        dsimp only at h1 h2 hh hcol'
        subst hh
        simp only [decide_eq_true_eq] at hc
        have hi : i < col'.length := by omega
        refine ⟨(i + 1, { handle with LED_Col_Buffer := .live (col'.set i rgb) }), ?_,
          ⟨by dsimp only; omega, by dsimp only; omega, col'.set i rgb, rfl, by simpa using hl', ?_⟩,
          by dsimp only; omega⟩
        · simp only [NP32_SetLEDSpan_RGB.body]
          rw [storeCol_live _ col' i rgb rfl hi]
          simp only [Nat.cast_add, Nat.cast_one, u16_succ i (by omega)]
        · intro j
          dsimp only
          rw [List.getElem?_set, hcol' j]
          by_cases hij : i = j
          · subst hij
            simp [hi, h1]
          · simp only [hij, if_false]
            have : (j < i + 1) ↔ (j < i) := by omega
            simp only [this])
      fuel (lower_bound, handle)
      ⟨le_refl _, by dsimp only; omega, col, by cases handle; simp_all, rfl, by
        intro j; dsimp only; rw [if_neg (by omega)]⟩
      (by dsimp only; omega)
  dsimp only at hi1 hi2 hs2 hcol' hc
  simp only [decide_eq_false_iff_not, not_le] at hc
  subst hs2
  refine ⟨i', col', hr, hl', ?_⟩
  intro j
  rw [hcol' j]
  have : (j < i') ↔ (j ≤ higher_bound) := by omega
  simp only [this]

/-- C9: on an instance whose pixel buffer has `LED_Count` cells, `NP32_SetLED_RGB`
returns -1 exactly when `led_index >= LED_Count`; in that case the whole instance is
unchanged; otherwise it returns 0, the pixel at `led_index` is `rgb`, every other pixel
is the old one, and no other field of the instance changes. -/
theorem NP32_SetLED_RGB_spec (handle : NP32_Instance) (col : List NP32_RGB)
    (led_index : Nat) (rgb : NP32_RGB)
    (hbuf : handle.LED_Col_Buffer = .live col) (hlen : col.length = handle.LED_Count) :
    ((∃ h', NP32_SetLED_RGB handle led_index rgb = .ok (-1, h'))
        ↔ led_index ≥ handle.LED_Count)
    ∧ (led_index ≥ handle.LED_Count →
        NP32_SetLED_RGB handle led_index rgb = .ok (-1, handle))
    ∧ (led_index < handle.LED_Count →
        ∃ col', NP32_SetLED_RGB handle led_index rgb
            = .ok (0, { handle with LED_Col_Buffer := .live col' })
          ∧ col'.length = col.length
          ∧ col'[led_index]? = some rgb
          ∧ ∀ j, j ≠ led_index → col'[j]? = col[j]?) := by
  have hfail : led_index ≥ handle.LED_Count →
      NP32_SetLED_RGB handle led_index rgb = .ok (-1, handle) := by
    intro h
    simp [NP32_SetLED_RGB, h]
  have hok : led_index < handle.LED_Count →
      NP32_SetLED_RGB handle led_index rgb
        = .ok (0, { handle with LED_Col_Buffer := .live (col.set led_index rgb) }) := by
    intro h
    have hi : led_index < col.length := by omega
    simp [NP32_SetLED_RGB, Nat.not_le.mpr h, storeCol_live handle col led_index rgb hbuf hi]
  refine ⟨⟨?_, fun h => ⟨handle, hfail h⟩⟩, hfail, ?_⟩
  · rintro ⟨h', hr⟩
    by_contra hlt
    rw [hok (by omega)] at hr
    simp at hr
  · intro h
    refine ⟨col.set led_index rgb, hok h, by simp, ?_, ?_⟩
    · simp [List.getElem?_set]; omega
    · intro j hj
      simp [List.getElem?_set, Ne.symm hj]

/-- Witness for C9 on the three-pixel instance: index 1 is written, index 3 is refused. -/
theorem NP32_SetLED_RGB_spec_witness :
    inst3.LED_Col_Buffer = .live [⟨0, 0, 0⟩, ⟨0, 0, 0⟩, ⟨0, 0, 0⟩]
    ∧ [(⟨0, 0, 0⟩ : NP32_RGB), ⟨0, 0, 0⟩, ⟨0, 0, 0⟩].length = inst3.LED_Count
    ∧ NP32_SetLED_RGB inst3 3 ⟨10, 20, 30⟩ = .ok (-1, inst3)
    ∧ ∃ col', NP32_SetLED_RGB inst3 1 ⟨10, 20, 30⟩
            = .ok (0, { inst3 with LED_Col_Buffer := .live col' })
          ∧ col'.length = 3
          ∧ col'[1]? = some ⟨10, 20, 30⟩
          ∧ ∀ j, j ≠ 1 → col'[j]? = [(⟨0, 0, 0⟩ : NP32_RGB), ⟨0, 0, 0⟩, ⟨0, 0, 0⟩][j]? :=
  ⟨rfl, rfl,
    (NP32_SetLED_RGB_spec inst3 _ 3 ⟨10, 20, 30⟩ rfl rfl).2.1 (by decide),
    (NP32_SetLED_RGB_spec inst3 _ 1 ⟨10, 20, 30⟩ rfl rfl).2.2 (by decide)⟩

/-- C10: on an instance whose pixel buffer has `LED_Count` cells, `NP32_SetLEDSpan_RGB`
returns -1 exactly when `lower_bound >= LED_Count`, `higher_bound >= LED_Count` or
`lower_bound > higher_bound`; in each of these cases the instance, and so the pixel
buffer, is left as it was; in every other case the call returns 0. -/
theorem NP32_SetLEDSpan_RGB_failure (handle : NP32_Instance) (col : List NP32_RGB)
    (lower_bound higher_bound fuel : Nat) (rgb : NP32_RGB)
    (hbuf : handle.LED_Col_Buffer = .live col) (hlen : col.length = handle.LED_Count)
    (hL : handle.LED_Count < 65536) (hfuel : handle.LED_Count ≤ fuel) :
    ((∃ h', NP32_SetLEDSpan_RGB fuel handle lower_bound higher_bound rgb = .ok (-1, h'))
        ↔ (lower_bound ≥ handle.LED_Count ∨ higher_bound ≥ handle.LED_Count
            ∨ lower_bound > higher_bound))
    ∧ ((lower_bound ≥ handle.LED_Count ∨ higher_bound ≥ handle.LED_Count
            ∨ lower_bound > higher_bound) →
        NP32_SetLEDSpan_RGB fuel handle lower_bound higher_bound rgb = .ok (-1, handle))
    ∧ (¬ (lower_bound ≥ handle.LED_Count ∨ higher_bound ≥ handle.LED_Count
            ∨ lower_bound > higher_bound) →
        ∃ h', NP32_SetLEDSpan_RGB fuel handle lower_bound higher_bound rgb = .ok (0, h')) := by
  have hfail : (lower_bound ≥ handle.LED_Count ∨ higher_bound ≥ handle.LED_Count
      ∨ lower_bound > higher_bound) →
      NP32_SetLEDSpan_RGB fuel handle lower_bound higher_bound rgb = .ok (-1, handle) := by
    intro h
    simp only [NP32_SetLEDSpan_RGB, if_pos h]
  have hok : ¬ (lower_bound ≥ handle.LED_Count ∨ higher_bound ≥ handle.LED_Count
      ∨ lower_bound > higher_bound) →
      ∃ h', NP32_SetLEDSpan_RGB fuel handle lower_bound higher_bound rgb = .ok (0, h') := by
    intro h
    obtain ⟨i, col', hr, -, -⟩ := SetLEDSpan_loop handle col lower_bound higher_bound fuel rgb
      hbuf hlen hL (by omega) (by omega) hfuel
    exact ⟨{ handle with LED_Col_Buffer := .live col' },
      by simp only [NP32_SetLEDSpan_RGB, if_neg h, hr]⟩
  refine ⟨⟨?_, fun h => ⟨handle, hfail h⟩⟩, hfail, hok⟩
  rintro ⟨h', hr⟩
  by_contra hn
  obtain ⟨h'', hr'⟩ := hok hn
  rw [hr'] at hr
  simp at hr

/-- Witness for C10 on the three-pixel instance: the reversed span `(2, 1)` is refused
and leaves the instance unchanged. -/
theorem NP32_SetLEDSpan_RGB_failure_witness :
    inst3.LED_Col_Buffer = .live [⟨0, 0, 0⟩, ⟨0, 0, 0⟩, ⟨0, 0, 0⟩]
    ∧ [(⟨0, 0, 0⟩ : NP32_RGB), ⟨0, 0, 0⟩, ⟨0, 0, 0⟩].length = inst3.LED_Count
    ∧ inst3.LED_Count < 65536 ∧ inst3.LED_Count ≤ 3
    ∧ NP32_SetLEDSpan_RGB 3 inst3 2 1 ⟨10, 20, 30⟩ = .ok (-1, inst3) :=
  ⟨rfl, rfl, by decide, by decide,
    (NP32_SetLEDSpan_RGB_failure inst3 _ 2 1 3 ⟨10, 20, 30⟩ rfl rfl (by decide) (by decide)).2.1
      (by decide)⟩

/-! ## The encoder -/

theorem RESOLVE_eq (val bit : Nat) :
    NP32_RESOLVE_BIT_TIME val bit = refSymbol (val.testBit bit) := by
  simp only [NP32_RESOLVE_BIT_TIME, refSymbol, Nat.testBit, NP32_WS2812_1_TIME,
    NP32_WS2812_0_TIME, Nat.and_comm (val >>> bit) 1]
  by_cases h : 1 &&& val >>> bit = 0 <;> simp [h]

theorem u8_pred (b : Nat) (h0 : 0 < b) (h : b ≤ 256) : u8 ((b : Int) - 1) = b - 1 := by
  unfold u8; omega

/-- One `do ... while (b > 0)` loop of the encoder started with counter `b`: it writes
the `b` low bits of `val`, most significant first, at `i_dma ..`, and leaves `b = 0`. -/
theorem bitLoop_spec (val : Nat) (h : NP32_Instance) :
    ∀ (b fuel i_dma : Nat) (dma : List Nat), 0 < b → b ≤ 256 → b ≤ fuel →
      i_dma + b ≤ dma.length → i_dma + b < 65536 →
      ∃ dma', doWhile (bitBody val) (fun t => decide (t.1 > 0)) fuel
          (b, i_dma, { h with _DMA_Buffer := .live dma })
          = .ok (0, i_dma + b, { h with _DMA_Buffer := .live dma' })
        ∧ dma'.length = dma.length
        ∧ ∀ j, dma'[j]? = if i_dma ≤ j ∧ j < i_dma + b
            then some (refSymbol (val.testBit (b - 1 - (j - i_dma)))) else dma[j]? := by
  intro b
  induction b with
  | zero => intro _ _ _ h0; omega
  | succ b ih =>
    intro fuel i_dma dma _ hb hfuel hlen h16
    obtain ⟨fuel, rfl⟩ : ∃ f, fuel = f + 1 := ⟨fuel - 1, by omega⟩
    have hi : i_dma < dma.length := by omega
    have hbody : bitBody val (b + 1, i_dma, { h with _DMA_Buffer := .live dma })
        = .ok (b, i_dma + 1,
            { h with _DMA_Buffer := .live (dma.set i_dma (refSymbol (val.testBit b))) }) := by
      simp only [bitBody, bind, Except.bind, pure, Except.pure]
      rw [storeDMA_live _ dma i_dma _ rfl hi]
      have e1 : u8 (((b + 1 : Nat) : Int) - 1) = b := by
        have := u8_pred (b + 1) (by omega) hb
        simpa using this
      simp only [e1, RESOLVE_eq, u16_succ i_dma (by omega)]
    by_cases hb0 : b = 0
    · subst hb0
      refine ⟨dma.set i_dma (refSymbol (val.testBit 0)), ?_, by simp, ?_⟩
      · simp [doWhile, hbody]
      · intro j
        rw [List.getElem?_set]
        by_cases hij : i_dma = j
        · subst hij; simp [hi]
        · have : ¬ (i_dma ≤ j ∧ j < i_dma + (0 + 1)) := by omega
          simp only [hij, if_false, this]
    · obtain ⟨dma', hr, hl, hget⟩ := ih fuel (i_dma + 1)
        (dma.set i_dma (refSymbol (val.testBit b))) (by omega) (by omega) (by omega)
        (by simp; omega) (by omega)
      refine ⟨dma', ?_, by simpa using hl, ?_⟩
      · have hpos : 0 < b := by omega
        simp only [doWhile, hbody, gt_iff_lt, hpos, decide_True, if_true]
        rw [show i_dma + (b + 1) = i_dma + 1 + b by omega]
        exact hr
      · intro j
        rw [hget j, List.getElem?_set]
        by_cases hij : i_dma = j
        · subst hij
          have h1 : ¬ (i_dma + 1 ≤ i_dma ∧ i_dma < i_dma + 1 + b) := by omega
          have h2 : (i_dma ≤ i_dma ∧ i_dma < i_dma + (b + 1)) := by omega
          simp [h1, h2, hi]
        · by_cases hr : i_dma + 1 ≤ j ∧ j < i_dma + 1 + b
          · have h2 : (i_dma ≤ j ∧ j < i_dma + (b + 1)) := by omega
            rw [if_pos hr, if_pos h2]
            congr 3
            omega
          · have h2 : ¬ (i_dma ≤ j ∧ j < i_dma + (b + 1)) := by omega
            rw [if_neg hr, if_neg h2]
            simp [hij]

theorem u16_mul24 (i : Nat) (h : 24 * i < 65536) : u16 ((i : Int) * 24) = 24 * i := by
  unfold u16; omega

/-- One iteration of the pixel loop of the encoder: the 24 symbols of pixel `i` are
written at `24*i .. 24*i+23`, nothing else changes, and `i_dma` is left at `24*(i+1)`. -/
theorem pixelBody_spec (h : NP32_Instance) (col : List NP32_RGB) (dma : List Nat)
    (i i_dma0 fuel : Nat) (hcol : h.LED_Col_Buffer = .live col) (hi : i < col.length)
    (hfuel : 8 ≤ fuel) (hlen : 24 * i + 24 ≤ dma.length) (h16 : 24 * i + 24 < 65536) :
    ∃ dma', pixelBody fuel (i, i_dma0, { h with _DMA_Buffer := .live dma })
        = .ok (i + 1, 24 * i + 24, { h with _DMA_Buffer := .live dma' })
      ∧ dma'.length = dma.length
      ∧ ∀ j, dma'[j]? = if 24 * i ≤ j ∧ j < 24 * i + 24
          then some (refWave col[i] (j - 24 * i)) else dma[j]? := by
  obtain ⟨d1, hr1, hl1, hg1⟩ := bitLoop_spec col[i].G h 8 fuel (24 * i) dma
    (by omega) (by omega) hfuel (by omega) (by omega)
  obtain ⟨d2, hr2, hl2, hg2⟩ := bitLoop_spec col[i].R h 8 fuel (24 * i + 8) d1
    (by omega) (by omega) hfuel (by omega) (by omega)
  obtain ⟨d3, hr3, hl3, hg3⟩ := bitLoop_spec col[i].B h 8 fuel (24 * i + 8 + 8) d2
    (by omega) (by omega) hfuel (by omega) (by omega)
  refine ⟨d3, ?_, by omega, ?_⟩
  · have hload : ({ h with _DMA_Buffer := .live dma } : NP32_Instance).loadCol (i : Int)
        = .ok col[i] := loadCol_live _ col i hcol hi
    simp only [pixelBody, bind, Except.bind, pure, Except.pure, hload,
      u16_mul24 i (by omega), hr1, hr2, hr3, u16_succ i (by omega)]
  · intro j
    rw [hg3 j, hg2 j, hg1 j]
    simp only [refWave]
    by_cases c3 : 24 * i + 8 + 8 ≤ j ∧ j < 24 * i + 8 + 8 + 8
    · have a : 24 * i ≤ j ∧ j < 24 * i + 24 := by omega
      have b1 : ¬ (j - 24 * i < 8) := by omega
      have b2 : ¬ (j - 24 * i < 16) := by omega
      rw [if_pos c3, if_pos a, if_neg b1, if_neg b2]
      congr 3; omega
    · rw [if_neg c3]
      by_cases c2 : 24 * i + 8 ≤ j ∧ j < 24 * i + 8 + 8
      · have a : 24 * i ≤ j ∧ j < 24 * i + 24 := by omega
        have b1 : ¬ (j - 24 * i < 8) := by omega
        have b2 : j - 24 * i < 16 := by omega
        rw [if_pos c2, if_pos a, if_neg b1, if_pos b2]
        congr 3; omega
      · rw [if_neg c2]
        by_cases c1 : 24 * i ≤ j ∧ j < 24 * i + 8
        · have a : 24 * i ≤ j ∧ j < 24 * i + 24 := by omega
          have b1 : j - 24 * i < 8 := by omega
          rw [if_pos c1, if_pos a, if_pos b1]
        · have a : ¬ (24 * i ≤ j ∧ j < 24 * i + 24) := by omega
          rw [if_neg c1, if_neg a]

/-- The reset-gap loop of the encoder started at `i_dma`: 48 zero entries are written
at `i_dma .. i_dma+47`, nothing else changes. -/
theorem resetLoop_spec (h : NP32_Instance) (dma : List Nat) (i_dma fuel : Nat)
    (hfuel : 48 ≤ fuel) (hlen : i_dma + 48 ≤ dma.length) (h16 : i_dma + 48 < 65536) :
    ∃ (i' id' : Nat) (dma' : List Nat),
      whileLoop (fun s => decide (s.1 < NP32_WS2812_ZERO_PERIODS)) resetBody fuel
        (0, i_dma, { h with _DMA_Buffer := .live dma })
        = .ok (i', id', { h with _DMA_Buffer := .live dma' })
      ∧ dma'.length = dma.length
      ∧ ∀ j, dma'[j]? = if i_dma ≤ j ∧ j < i_dma + 48 then some 0 else dma[j]? := by
  obtain ⟨⟨i', id', h'⟩, hr, ⟨hi1, hi2, dma', hs2, hl', hget⟩, hc⟩ :=
    whileLoop_inv (fun s => decide (s.1 < NP32_WS2812_ZERO_PERIODS)) resetBody
      (fun s => s.1 ≤ 48 ∧ s.2.1 = i_dma + s.1 ∧
        ∃ dma', s.2.2 = { h with _DMA_Buffer := .live dma' } ∧ dma'.length = dma.length ∧
          ∀ j, dma'[j]? = if i_dma ≤ j ∧ j < i_dma + s.1 then some 0 else dma[j]?)
      (fun s => 48 - s.1)
      (by
        rintro ⟨i, id, hh⟩ ⟨h1, h2, dma', e, hl', hget⟩ hc
        dsimp only at h1 h2 e hget
        subst e h2
        simp only [decide_eq_true_eq, NP32_WS2812_ZERO_PERIODS] at hc
        have hi : i_dma + i < dma'.length := by omega
        refine ⟨(i + 1, i_dma + i + 1, { h with _DMA_Buffer := .live (dma'.set (i_dma + i) 0) }),
          ?_, ⟨by dsimp only; omega, by dsimp only; omega, dma'.set (i_dma + i) 0, rfl,
            by simpa using hl', ?_⟩, by dsimp only; omega⟩
        · simp only [resetBody, bind, Except.bind, pure, Except.pure]
          rw [storeDMA_live _ dma' (i_dma + i) 0 rfl hi]
          simp only [u16_succ i (by omega), u16_succ (i_dma + i) (by omega)]
        · intro j
          dsimp only
          rw [List.getElem?_set, hget j]
          by_cases hij : i_dma + i = j
          · subst hij
            have a : (i_dma ≤ i_dma + i ∧ i_dma + i < i_dma + (i + 1)) := by omega
            simp [hi, a]
          · simp only [hij, if_false]
            have : (i_dma ≤ j ∧ j < i_dma + (i + 1)) ↔ (i_dma ≤ j ∧ j < i_dma + i) := by omega
            simp only [this])
      fuel (0, i_dma, { h with _DMA_Buffer := .live dma })
      ⟨by dsimp only; omega, by dsimp only; omega, dma, rfl, rfl, by
        intro j; dsimp only; rw [if_neg (by omega)]⟩
      (by dsimp only; omega)
  dsimp only at hi1 hi2 hs2 hget hc
  simp only [decide_eq_false_iff_not, not_lt, NP32_WS2812_ZERO_PERIODS] at hc
  subst hs2
  refine ⟨i', id', dma', hr, hl', ?_⟩
  intro j
  rw [hget j]
  have : i' = 48 := by omega
  subst this
  rfl

theorem inst_eta_dma (handle : NP32_Instance) (dma : List Nat)
    (hdma : handle._DMA_Buffer = .live dma) :
    handle = { handle with _DMA_Buffer := .live dma } := by
  cases handle; simp_all

/-- The encoder with the disable flag not set: it returns, the buffer it leaves holds
the reference waveform of every pixel followed by 48 zero entries, and no other field
of the instance changes. -/
theorem Recalc_enabled (handle : NP32_Instance) (col : List NP32_RGB) (dma : List Nat)
    (fuel : Nat) (hcol : handle.LED_Col_Buffer = .live col)
    (hclen : col.length = handle.LED_Count) (hdma : handle._DMA_Buffer = .live dma)
    (hdlen : dma.length = handle.LED_Count * 24 + 48)
    (hN : handle.LED_Count * 24 + 48 ≤ 65535) (hflag : handle.LED_Disable_Flag ≠ 1)
    (hfuel : handle.LED_Count + 48 ≤ fuel) :
    ∃ dma', _NP32_Recalc_DMA_Buf fuel handle = .ok { handle with _DMA_Buffer := .live dma' }
      ∧ dma'.length = dma.length
      ∧ (∀ j, j < 24 * handle.LED_Count →
          dma'[j]? = (col[j / 24]?).map (fun px => refWave px (j % 24)))
      ∧ (∀ j, 24 * handle.LED_Count ≤ j → j < 24 * handle.LED_Count + 48 →
          dma'[j]? = some 0) := by
  obtain ⟨⟨i', id', h'⟩, hr, ⟨hi1, hi2, d1, hs2, hl1, hg1⟩, hc⟩ :=
    whileLoop_inv (fun s => decide (s.1 < s.2.2.LED_Count)) (pixelBody fuel)
      (fun s => s.1 ≤ handle.LED_Count ∧ s.2.1 = 24 * s.1 ∧
        ∃ d, s.2.2 = { handle with _DMA_Buffer := .live d } ∧ d.length = dma.length ∧
          ∀ j, j < 24 * s.1 → d[j]? = (col[j / 24]?).map (fun px => refWave px (j % 24)))
      (fun s => handle.LED_Count - s.1)
      (by
        rintro ⟨i, id, hh⟩ ⟨h1, h2, d, e, hl, hg⟩ hc
        dsimp only at h1 h2 e hg
        subst e h2
        simp only [decide_eq_true_eq] at hc
        have hi : i < col.length := by omega
        obtain ⟨d', hb, hl', hg'⟩ := pixelBody_spec handle col d i (24 * i) fuel hcol hi
          (by omega) (by omega) (by omega)
        refine ⟨(i + 1, 24 * i + 24, { handle with _DMA_Buffer := .live d' }), hb,
          ⟨by dsimp only; omega, by dsimp only; omega, d', rfl, by omega, ?_⟩,
          by dsimp only; omega⟩
        intro j hj
        dsimp only at hj
        rw [hg' j]
        by_cases c : 24 * i ≤ j ∧ j < 24 * i + 24
        · have e1 : j / 24 = i := by omega
          have e2 : j % 24 = j - 24 * i := by omega
          rw [if_pos c, e1, e2, List.getElem?_eq_getElem hi]
          rfl
        · rw [if_neg c]
          exact hg j (by omega))
      fuel (0, 0, handle)
      ⟨by dsimp only; omega, by dsimp only, dma, inst_eta_dma handle dma hdma, rfl, by
        intro j hj; dsimp only at hj; omega⟩
      (by dsimp only; omega)
  dsimp only at hi1 hi2 hs2 hg1 hc
  simp only [decide_eq_false_iff_not, not_lt] at hc
  subst hs2 hi2
  dsimp only at hc
  have hiL : i' = handle.LED_Count := by omega
  subst hiL
  obtain ⟨i2, id2, d2, hr2, hl2, hg2⟩ := resetLoop_spec handle d1 (24 * handle.LED_Count) fuel
    (by omega) (by omega) (by omega)
  refine ⟨d2, ?_, by omega, ?_, ?_⟩
  · simp only [_NP32_Recalc_DMA_Buf, if_neg hflag, bind, Except.bind, pure, Except.pure, hr, hr2]
  · intro j hj
    rw [hg2 j, if_neg (by omega)]
    exact hg1 j hj
  · intro j h1 h2
    rw [hg2 j, if_pos ⟨h1, h2⟩]

/-- The encoder with the disable flag set: it returns, every entry of the buffer it
leaves is 0, and no other field of the instance changes. -/
theorem Recalc_disabled (handle : NP32_Instance) (dma : List Nat) (fuel : Nat)
    (hdma : handle._DMA_Buffer = .live dma)
    (hdlen : dma.length = handle.LED_Count * 24 + 48)
    (hN : handle.LED_Count * 24 + 48 ≤ 65535) (hflag : handle.LED_Disable_Flag = 1)
    (hfuel : handle.LED_Count * 24 + 48 ≤ fuel) :
    ∃ dma', _NP32_Recalc_DMA_Buf fuel handle = .ok { handle with _DMA_Buffer := .live dma' }
      ∧ dma'.length = dma.length
      ∧ ∀ j, j < handle.LED_Count * 24 + 48 → dma'[j]? = some 0 := by
  obtain ⟨⟨i', h'⟩, hr, ⟨hi1, d1, hs2, hl1, hg1⟩, hc⟩ :=
    whileLoop_inv
      (fun s : Nat × NP32_Instance =>
        decide (s.1 < s.2.LED_Count * 24 + NP32_WS2812_ZERO_PERIODS)) zeroBody
      (fun s => s.1 ≤ handle.LED_Count * 24 + 48 ∧
        ∃ d, s.2 = { handle with _DMA_Buffer := .live d } ∧ d.length = dma.length ∧
          ∀ j, j < s.1 → d[j]? = some 0)
      (fun s => handle.LED_Count * 24 + 48 - s.1)
      (by
        rintro ⟨i, hh⟩ ⟨h1, d, e, hl, hg⟩ hc
        dsimp only at h1 e hg
        subst e
        simp only [decide_eq_true_eq, NP32_WS2812_ZERO_PERIODS] at hc
        have hi : i < d.length := by omega
        refine ⟨(i + 1, { handle with _DMA_Buffer := .live (d.set i 0) }), ?_,
          ⟨by dsimp only; omega, d.set i 0, rfl, by simpa using hl, ?_⟩,
          by dsimp only; omega⟩
        · simp only [zeroBody, bind, Except.bind, pure, Except.pure]
          rw [storeDMA_live _ d i 0 rfl hi]
          simp only [u16_succ i (by omega)]
        · intro j hj
          dsimp only at hj
          rw [List.getElem?_set]
          by_cases hij : i = j
          · subst hij; simp [hi]
          · simp only [hij, if_false]
            exact hg j (by omega))
      fuel (0, handle)
      ⟨by dsimp only; omega, dma, inst_eta_dma handle dma hdma, rfl, by
        intro j hj; dsimp only at hj; omega⟩
      (by dsimp only; omega)
  dsimp only at hi1 hs2 hg1 hc
  simp only [decide_eq_false_iff_not, not_lt, NP32_WS2812_ZERO_PERIODS] at hc
  subst hs2
  dsimp only at hc
  refine ⟨d1, ?_, hl1, ?_⟩
  · simp only [_NP32_Recalc_DMA_Buf, if_pos hflag, bind, Except.bind, pure, Except.pure, hr]
  · intro j hj
    exact hg1 j (by omega)

/-! ## Decoding -/

theorem decodeSymbol_refSymbol (g k : Nat) :
    decodeSymbol (refSymbol (g.testBit k)) = some (g / 2 ^ k % 2) := by
  rw [Nat.testBit_to_div_mod]
  by_cases h : g / 2 ^ k % 2 = 1
  · simp [refSymbol, decodeSymbol, h]
  · have h0 : g / 2 ^ k % 2 = 0 := by omega
    simp [refSymbol, decodeSymbol, h0]

theorem decodeByte_refSymbol (g : Nat) (hg : g < 256) :
    decodeByte [refSymbol (g.testBit 7), refSymbol (g.testBit 6), refSymbol (g.testBit 5),
      refSymbol (g.testBit 4), refSymbol (g.testBit 3), refSymbol (g.testBit 2),
      refSymbol (g.testBit 1), refSymbol (g.testBit 0)] = some g := by
  simp only [decodeByte, List.foldl, decodeSymbol_refSymbol]
  norm_num
  omega

theorem decodePixel_refWave (px : NP32_RGB) (hR : px.R < 256) (hG : px.G < 256)
    (hB : px.B < 256) : decodePixel ((List.range 24).map (refWave px)) = some px := by
  have e : (List.range 24).map (refWave px) =
      [refSymbol (px.G.testBit 7), refSymbol (px.G.testBit 6), refSymbol (px.G.testBit 5),
       refSymbol (px.G.testBit 4), refSymbol (px.G.testBit 3), refSymbol (px.G.testBit 2),
       refSymbol (px.G.testBit 1), refSymbol (px.G.testBit 0),
       refSymbol (px.R.testBit 7), refSymbol (px.R.testBit 6), refSymbol (px.R.testBit 5),
       refSymbol (px.R.testBit 4), refSymbol (px.R.testBit 3), refSymbol (px.R.testBit 2),
       refSymbol (px.R.testBit 1), refSymbol (px.R.testBit 0),
       refSymbol (px.B.testBit 7), refSymbol (px.B.testBit 6), refSymbol (px.B.testBit 5),
       refSymbol (px.B.testBit 4), refSymbol (px.B.testBit 3), refSymbol (px.B.testBit 2),
       refSymbol (px.B.testBit 1), refSymbol (px.B.testBit 0)] := by
    simp [List.range_succ, refWave]
  rw [e]
  simp only [decodePixel, List.take, List.drop, decodeByte_refSymbol _ hR,
    decodeByte_refSymbol _ hG, decodeByte_refSymbol _ hB]

/-! ## The encoder: waveform, blackout and decoding -/

/-- The 24 symbols of pixel `i` in a timing buffer read as the reference waveform of
that pixel. -/
theorem segment_eq (col : List NP32_RGB) (dma' : List Nat) (L : Nat)
    (hw : ∀ j, j < 24 * L → dma'[j]? = (col[j / 24]?).map (fun px => refWave px (j % 24)))
    (i : Nat) (hi : i < col.length) (hiL : i < L) :
    (dma'.drop (24 * i)).take 24 = (List.range 24).map (refWave col[i]) := by
  apply List.ext_getElem?
  intro k
  by_cases hk : k < 24
  · have e1 : (24 * i + k) / 24 = i := by omega
    have e2 : (24 * i + k) % 24 = k := by omega
    rw [List.getElem?_take_of_lt hk, List.getElem?_drop, hw (24 * i + k) (by omega), e1, e2,
      List.getElem?_eq_getElem hi]
    simp [List.getElem?_range hk]
  · rw [List.getElem?_eq_none (by simp; omega), List.getElem?_eq_none (by simp; omega)]

/-- C1: with `LED_Count * 24 + 48 <= 65535` and the disable flag not set (in particular
clear), `_NP32_Recalc_DMA_Buf` returns and the timing buffer it leaves is the reference
waveform: for every pixel `i` and `k` in `0..7`, entry `24*i+k` is the symbol of bit `7-k`
of G, entry `24*i+8+k` that of bit `7-k` of R, entry `24*i+16+k` that of bit `7-k` of B
(50 for a set bit, 28 for a clear one), and entries `24*L .. 24*L+47` are 0. -/
theorem Recalc_DMA_Buf_waveform (handle : NP32_Instance) (col : List NP32_RGB)
    (dma : List Nat) (fuel : Nat) (hcol : handle.LED_Col_Buffer = .live col)
    (hclen : col.length = handle.LED_Count) (hdma : handle._DMA_Buffer = .live dma)
    (hdlen : dma.length = handle.LED_Count * 24 + 48)
    (hN : handle.LED_Count * 24 + 48 ≤ 65535) (hflag : handle.LED_Disable_Flag ≠ 1)
    (hfuel : handle.LED_Count + 48 ≤ fuel) :
    ∃ dma', _NP32_Recalc_DMA_Buf fuel handle = .ok { handle with _DMA_Buffer := .live dma' }
      ∧ dma'.length = handle.LED_Count * 24 + 48
      ∧ (∀ (i : Nat) (hi : i < col.length) (k : Nat), k < 8 →
          dma'[24 * i + k]? = some (refSymbol (col[i].G.testBit (7 - k)))
          ∧ dma'[24 * i + 8 + k]? = some (refSymbol (col[i].R.testBit (7 - k)))
          ∧ dma'[24 * i + 16 + k]? = some (refSymbol (col[i].B.testBit (7 - k))))
      ∧ (∀ j, j < 48 → dma'[24 * handle.LED_Count + j]? = some 0) := by
  obtain ⟨dma', hr, hl, hw, hz⟩ :=
    Recalc_enabled handle col dma fuel hcol hclen hdma hdlen hN hflag hfuel
  refine ⟨dma', hr, by omega, ?_, fun j hj => hz _ (by omega) (by omega)⟩
  intro i hi k hk
  have eG : (24 * i + k) / 24 = i ∧ (24 * i + k) % 24 = k := by omega
  have eR : (24 * i + 8 + k) / 24 = i ∧ (24 * i + 8 + k) % 24 = 8 + k := by omega
  have eB : (24 * i + 16 + k) / 24 = i ∧ (24 * i + 16 + k) % 24 = 16 + k := by omega
  refine ⟨?_, ?_, ?_⟩
  · rw [hw _ (by omega), eG.1, eG.2, List.getElem?_eq_getElem hi]
    simp only [Option.map_some', refWave, if_pos hk]
  · rw [hw _ (by omega), eR.1, eR.2, List.getElem?_eq_getElem hi]
    have : 15 - (8 + k) = 7 - k := by omega
    simp only [Option.map_some', refWave]
    rw [if_neg (by omega), if_pos (by omega), this]
  · rw [hw _ (by omega), eB.1, eB.2, List.getElem?_eq_getElem hi]
    have : 23 - (16 + k) = 7 - k := by omega
    simp only [Option.map_some', refWave]
    rw [if_neg (by omega), if_neg (by omega), this]

/-- Witness for C1: the one-pixel pure-green instance. -/
theorem Recalc_DMA_Buf_waveform_witness :
    instGreen.LED_Col_Buffer = .live [⟨0, 255, 0⟩]
    ∧ [(⟨0, 255, 0⟩ : NP32_RGB)].length = instGreen.LED_Count
    ∧ instGreen._DMA_Buffer = .live (List.replicate 72 0)
    ∧ (List.replicate 72 0).length = instGreen.LED_Count * 24 + 48
    ∧ instGreen.LED_Count * 24 + 48 ≤ 65535 ∧ instGreen.LED_Disable_Flag ≠ 1
    ∧ instGreen.LED_Count + 48 ≤ 49
    ∧ ∃ dma', _NP32_Recalc_DMA_Buf 49 instGreen
          = .ok { instGreen with _DMA_Buffer := .live dma' }
      ∧ dma'.length = instGreen.LED_Count * 24 + 48
      ∧ (∀ (i : Nat) (hi : i < [(⟨0, 255, 0⟩ : NP32_RGB)].length) (k : Nat), k < 8 →
          dma'[24 * i + k]?
            = some (refSymbol ([(⟨0, 255, 0⟩ : NP32_RGB)][i].G.testBit (7 - k)))
          ∧ dma'[24 * i + 8 + k]?
            = some (refSymbol ([(⟨0, 255, 0⟩ : NP32_RGB)][i].R.testBit (7 - k)))
          ∧ dma'[24 * i + 16 + k]?
            = some (refSymbol ([(⟨0, 255, 0⟩ : NP32_RGB)][i].B.testBit (7 - k))))
      ∧ (∀ j, j < 48 → dma'[24 * instGreen.LED_Count + j]? = some 0) :=
  ⟨rfl, rfl, rfl, by decide, by decide, by decide, by decide,
    Recalc_DMA_Buf_waveform instGreen [⟨0, 255, 0⟩] (List.replicate 72 0) 49 rfl rfl rfl
      (by decide) (by decide) (by decide) (by decide)⟩

/-- C3: with `LED_Count * 24 + 48 <= 65535` and the disable flag set, whatever the pixel
buffer holds, `_NP32_Recalc_DMA_Buf` returns, every one of the `LED_Count * 24 + 48`
entries of the timing buffer it leaves is 0, and the pixel buffer (with every other
field) is unchanged. -/
theorem Recalc_DMA_Buf_disabled (handle : NP32_Instance) (dma : List Nat) (fuel : Nat)
    (hdma : handle._DMA_Buffer = .live dma)
    (hdlen : dma.length = handle.LED_Count * 24 + 48)
    (hN : handle.LED_Count * 24 + 48 ≤ 65535) (hflag : handle.LED_Disable_Flag = 1)
    (hfuel : handle.LED_Count * 24 + 48 ≤ fuel) :
    ∃ h' dma', _NP32_Recalc_DMA_Buf fuel handle = .ok h'
      ∧ h' = { handle with _DMA_Buffer := .live dma' }
      ∧ h'.LED_Col_Buffer = handle.LED_Col_Buffer
      ∧ dma'.length = handle.LED_Count * 24 + 48
      ∧ ∀ j, j < handle.LED_Count * 24 + 48 → dma'[j]? = some 0 := by
  obtain ⟨dma', hr, hl, hz⟩ := Recalc_disabled handle dma fuel hdma hdlen hN hflag hfuel
  exact ⟨_, dma', hr, rfl, rfl, by omega, hz⟩

/-- Witness for C3: a two-pixel instance with coloured pixels and a stale timing buffer. -/
theorem Recalc_DMA_Buf_disabled_witness :
    instDisabled._DMA_Buffer = .live (List.replicate 96 50)
    ∧ (List.replicate 96 50).length = instDisabled.LED_Count * 24 + 48
    ∧ instDisabled.LED_Count * 24 + 48 ≤ 65535 ∧ instDisabled.LED_Disable_Flag = 1
    ∧ instDisabled.LED_Count * 24 + 48 ≤ 96
    ∧ ∃ h' dma', _NP32_Recalc_DMA_Buf 96 instDisabled = .ok h'
      ∧ h' = { instDisabled with _DMA_Buffer := .live dma' }
      ∧ h'.LED_Col_Buffer = instDisabled.LED_Col_Buffer
      ∧ dma'.length = instDisabled.LED_Count * 24 + 48
      ∧ ∀ j, j < instDisabled.LED_Count * 24 + 48 → dma'[j]? = some 0 :=
  ⟨rfl, by decide, by decide, rfl, by decide,
    Recalc_DMA_Buf_disabled instDisabled (List.replicate 96 50) 96 rfl (by decide) (by decide)
      rfl (by decide)⟩

/-- C2: with `LED_Count * 24 + 48 <= 65535`, the disable flag not set and every channel
an 8-bit value, decoding the 24 entries `24*i .. 24*i+23` of the timing buffer left by
`_NP32_Recalc_DMA_Buf` (50 to 1, 28 to 0, bytes reassembled most significant bit first
in the order G, R, B) gives back pixel `i`; hence a second pixel buffer that encodes to
the same timing buffer is the same pixel buffer. -/
theorem Recalc_DMA_Buf_decode (handle : NP32_Instance) (col : List NP32_RGB)
    (dma : List Nat) (fuel : Nat) (hcol : handle.LED_Col_Buffer = .live col)
    (hclen : col.length = handle.LED_Count) (hdma : handle._DMA_Buffer = .live dma)
    (hdlen : dma.length = handle.LED_Count * 24 + 48)
    (hN : handle.LED_Count * 24 + 48 ≤ 65535) (hflag : handle.LED_Disable_Flag ≠ 1)
    (hfuel : handle.LED_Count + 48 ≤ fuel)
    (hvalid : ∀ px ∈ col, px.R < 256 ∧ px.G < 256 ∧ px.B < 256) :
    ∃ dma', _NP32_Recalc_DMA_Buf fuel handle = .ok { handle with _DMA_Buffer := .live dma' }
      ∧ (∀ (i : Nat) (hi : i < col.length),
          decodePixel ((dma'.drop (24 * i)).take 24) = some col[i])
      ∧ (∀ (handle2 : NP32_Instance) (col2 : List NP32_RGB) (dma2 : List Nat) (fuel2 : Nat),
          handle2.LED_Col_Buffer = .live col2 → col2.length = handle2.LED_Count →
          handle2._DMA_Buffer = .live dma2 → dma2.length = handle2.LED_Count * 24 + 48 →
          handle2.LED_Count * 24 + 48 ≤ 65535 → handle2.LED_Disable_Flag ≠ 1 →
          handle2.LED_Count + 48 ≤ fuel2 →
          (∀ px ∈ col2, px.R < 256 ∧ px.G < 256 ∧ px.B < 256) →
          _NP32_Recalc_DMA_Buf fuel2 handle2
            = .ok { handle2 with _DMA_Buffer := .live dma' } →
          col2 = col) := by
  obtain ⟨dma', hr, hl, hw, -⟩ :=
    Recalc_enabled handle col dma fuel hcol hclen hdma hdlen hN hflag hfuel
  have hdec : ∀ (i : Nat) (hi : i < col.length),
      decodePixel ((dma'.drop (24 * i)).take 24) = some col[i] := by
    intro i hi
    rw [segment_eq col dma' handle.LED_Count hw i hi (by omega)]
    obtain ⟨h1, h2, h3⟩ := hvalid col[i] (List.getElem_mem hi)
    exact decodePixel_refWave col[i] h1 h2 h3
  refine ⟨dma', hr, hdec, ?_⟩
  intro handle2 col2 dma2 fuel2 hcol2 hclen2 hdma2 hdlen2 hN2 hflag2 hfuel2 hvalid2 hr2
  obtain ⟨dma2', hr2', hl2, hw2, -⟩ :=
    Recalc_enabled handle2 col2 dma2 fuel2 hcol2 hclen2 hdma2 hdlen2 hN2 hflag2 hfuel2
  rw [hr2] at hr2'
  have e : dma' = dma2' := by
    have := congrArg NP32_Instance._DMA_Buffer (Except.ok.inj hr2')
    simpa using this
  subst e
  have hlen : col2.length = col.length := by omega
  apply List.ext_getElem hlen
  intro i h2 h1
  have a := hdec i h1
  rw [segment_eq col2 dma' handle2.LED_Count hw2 i h2 (by omega)] at a
  obtain ⟨v1, v2, v3⟩ := hvalid2 col2[i] (List.getElem_mem h2)
  rw [decodePixel_refWave col2[i] v1 v2 v3] at a
  exact Option.some.inj a

/-- Witness for C2, the example of the specification: in a three-pixel black buffer
with pixel 1 set to R=10, G=20, B=30, entries 24..47 decode to that pixel. -/
theorem Recalc_DMA_Buf_decode_witness :
    instExample.LED_Col_Buffer = .live [⟨0, 0, 0⟩, ⟨10, 20, 30⟩, ⟨0, 0, 0⟩]
    ∧ [(⟨0, 0, 0⟩ : NP32_RGB), ⟨10, 20, 30⟩, ⟨0, 0, 0⟩].length = instExample.LED_Count
    ∧ instExample._DMA_Buffer = .live (List.replicate 120 0)
    ∧ (List.replicate 120 0).length = instExample.LED_Count * 24 + 48
    ∧ instExample.LED_Count * 24 + 48 ≤ 65535 ∧ instExample.LED_Disable_Flag ≠ 1
    ∧ instExample.LED_Count + 48 ≤ 51
    ∧ (∀ px ∈ [(⟨0, 0, 0⟩ : NP32_RGB), ⟨10, 20, 30⟩, ⟨0, 0, 0⟩],
        px.R < 256 ∧ px.G < 256 ∧ px.B < 256)
    ∧ ∃ dma', _NP32_Recalc_DMA_Buf 51 instExample
          = .ok { instExample with _DMA_Buffer := .live dma' }
      ∧ decodePixel ((dma'.drop 24).take 24) = some ⟨10, 20, 30⟩ :=
  ⟨rfl, rfl, rfl, by decide, by decide, by decide, by decide, by decide,
    (Recalc_DMA_Buf_decode instExample [⟨0, 0, 0⟩, ⟨10, 20, 30⟩, ⟨0, 0, 0⟩]
      (List.replicate 120 0) 51 rfl rfl rfl (by decide) (by decide) (by decide) (by decide)
      (by decide)).elim fun dma' h => ⟨dma', h.1, h.2.1 1 (by decide)⟩⟩

/-! ## Colour conversion -/

theorem tdiv_scale_bounds (a t : Int) (ha : 0 ≤ a) (ht0 : 0 ≤ t) (ht : t ≤ 100) :
    0 ≤ Int.tdiv (a * t) 100 ∧ Int.tdiv (a * t) 100 ≤ a := by
  have hp : 0 ≤ a * t := mul_nonneg ha ht0
  have hq : a * t ≤ a * 100 := by nlinarith
  rw [Int.tdiv_eq_ediv hp (by norm_num)]
  generalize a * t = p at hp hq
  omega

theorem u8_of_bounds (x : Int) (h0 : 0 ≤ x) (h1 : x ≤ 255) : ((u8 x : Nat) : Int) = x := by
  unfold u8; omega

/-- One channel of `NP32_HSV_To_RGB` after the hue stage: with 8-bit stores, the blend
and scale steps compute the reference channel, and no store wraps. -/
theorem channel_no_wrap (c : Int) (S V : Nat) (hc0 : 0 ≤ c) (hc : c ≤ 255)
    (hS : S ≤ 100) (hV : V ≤ 100) :
    let S' : Nat := u8 (100 - (S : Int))
    let c8 : Nat := u8 c
    let d : Nat := u8 (Int.tdiv ((255 - (c8 : Int)) * (S' : Int)) 100)
    let c1 : Nat := u8 ((c8 : Int) + (d : Int))
    ((u8 (Int.tdiv ((c1 : Int) * (V : Int)) 100) : Nat) : Int) = hsvChannel c (S : Int) (V : Int)
    ∧ (S' : Int) = 100 - S
    ∧ (d : Int) = Int.tdiv ((255 - c) * (100 - (S : Int))) 100
    ∧ (c1 : Int) = hsvBlend c S
    ∧ 0 ≤ hsvBlend c S ∧ hsvBlend c S ≤ 255
    ∧ 0 ≤ hsvChannel c S V ∧ hsvChannel c S V ≤ 255 := by
  intro S' c8 d c1
  have eS : (S' : Int) = 100 - S := u8_of_bounds _ (by omega) (by omega)
  have ec : (c8 : Int) = c := u8_of_bounds _ hc0 hc
  obtain ⟨b1, b2⟩ := tdiv_scale_bounds (255 - c) (100 - (S : Int)) (by omega) (by omega)
    (by omega)
  have ed : (d : Int) = Int.tdiv ((255 - c) * (100 - (S : Int))) 100 := by
    show ((u8 _ : Nat) : Int) = _
    rw [ec, eS]
    exact u8_of_bounds _ b1 (by omega)
  have e1 : (c1 : Int) = hsvBlend c S := by
    show ((u8 _ : Nat) : Int) = _
    rw [ec, ed]
    exact u8_of_bounds _ (by omega) (by omega)
  have hb0 : 0 ≤ hsvBlend c S := by unfold hsvBlend; omega
  have hb1 : hsvBlend c S ≤ 255 := by unfold hsvBlend; omega
  obtain ⟨f1, f2⟩ := tdiv_scale_bounds (hsvBlend c S) (V : Int) hb0 (by omega) (by omega)
  refine ⟨?_, eS, ed, e1, hb0, hb1, f1, by unfold hsvChannel; omega⟩
  rw [e1]
  exact u8_of_bounds _ f1 (by omega)

theorem tdiv425 (x : Int) (h0 : 0 ≤ x) (h1 : x ≤ 60) :
    0 ≤ Int.tdiv (425 * x) 100 ∧ Int.tdiv (425 * x) 100 ≤ 255 := by
  rw [Int.tdiv_eq_ediv (by omega) (by norm_num)]
  omega

/-- The hue stage of `NP32_HSV_To_RGB` for a clamped hue: the three 8-bit stores hold
the reference base colour, whose channels lie in `[0,255]`. -/
theorem hue_stage (H : Nat) (hH : H ≤ 359) :
    ∃ r g b : Int, hsvBase (H : Int) = (r, g, b)
      ∧ 0 ≤ r ∧ r ≤ 255 ∧ 0 ≤ g ∧ g ≤ 255 ∧ 0 ≤ b ∧ b ≤ 255
      ∧ (if H < 61 then
          (⟨u8 255, u8 (Int.tdiv (425 * (H : Int)) 100), u8 0⟩ : NP32_RGB)
        else if H < 121 then
          ⟨u8 (255 - Int.tdiv (425 * ((H : Int) - 60)) 100), u8 255, u8 0⟩
        else if H < 181 then
          ⟨u8 0, u8 255, u8 (Int.tdiv (425 * ((H : Int) - 120)) 100)⟩
        else if H < 241 then
          ⟨u8 0, u8 (255 - Int.tdiv (425 * ((H : Int) - 180)) 100), u8 255⟩
        else if H < 301 then
          ⟨u8 (Int.tdiv (425 * ((H : Int) - 240)) 100), u8 0, u8 255⟩
        else
          ⟨u8 255, u8 0, u8 (255 - Int.tdiv (425 * ((H : Int) - 300)) 100)⟩)
        = ⟨u8 r, u8 g, u8 b⟩ := by
  by_cases c1 : H < 61
  · obtain ⟨a, b⟩ := tdiv425 (H : Int) (by omega) (by omega)
    exact ⟨_, _, _, by rw [hsvBase, if_pos (by omega)], by omega, by omega, a, b, by omega,
      by omega, by rw [if_pos c1]⟩
  by_cases c2 : H < 121
  · obtain ⟨a, b⟩ := tdiv425 ((H : Int) - 60) (by omega) (by omega)
    exact ⟨_, _, _, by rw [hsvBase, if_neg (by omega), if_pos (by omega)], by omega, by omega,
      by omega, by omega, by omega, by omega, by rw [if_neg c1, if_pos c2]⟩
  by_cases c3 : H < 181
  · obtain ⟨a, b⟩ := tdiv425 ((H : Int) - 120) (by omega) (by omega)
    exact ⟨_, _, _, by rw [hsvBase, if_neg (by omega), if_neg (by omega), if_pos (by omega)],
      by omega, by omega, by omega, by omega, a, b, by rw [if_neg c1, if_neg c2, if_pos c3]⟩
  by_cases c4 : H < 241
  · obtain ⟨a, b⟩ := tdiv425 ((H : Int) - 180) (by omega) (by omega)
    exact ⟨_, _, _, by rw [hsvBase, if_neg (by omega), if_neg (by omega), if_neg (by omega),
        if_pos (by omega)],
      by omega, by omega, by omega, by omega, by omega, by omega,
      by rw [if_neg c1, if_neg c2, if_neg c3, if_pos c4]⟩
  by_cases c5 : H < 301
  · obtain ⟨a, b⟩ := tdiv425 ((H : Int) - 240) (by omega) (by omega)
    exact ⟨_, _, _, by rw [hsvBase, if_neg (by omega), if_neg (by omega), if_neg (by omega),
        if_neg (by omega), if_pos (by omega)],
      a, b, by omega, by omega, by omega, by omega,
      by rw [if_neg c1, if_neg c2, if_neg c3, if_neg c4, if_pos c5]⟩
  · obtain ⟨a, b⟩ := tdiv425 ((H : Int) - 300) (by omega) (by omega)
    exact ⟨_, _, _, by rw [hsvBase, if_neg (by omega), if_neg (by omega), if_neg (by omega),
        if_neg (by omega), if_neg (by omega)],
      by omega, by omega, by omega, by omega, by omega, by omega,
      by rw [if_neg c1, if_neg c2, if_neg c3, if_neg c4, if_neg c5]⟩

/-- C4: for every input, `NP32_HSV_To_RGB` with its 8-bit stores computes the
exact-integer reference of the specification (clamp to 359/100/100, base colour by hue
sector, each channel blended from its own base value, then scaled, with truncating
division); every value stored on the way (base channel, `100 - s`, `d`, blended channel,
output channel) lies in `[0,255]`, so no store wraps. -/
theorem NP32_HSV_To_RGB_reference (hsv : NP32_HSV) :
    (((NP32_HSV_To_RGB hsv).R : Int), ((NP32_HSV_To_RGB hsv).G : Int),
        ((NP32_HSV_To_RGB hsv).B : Int)) = hsvReference hsv
    ∧ (NP32_HSV_To_RGB hsv).R ≤ 255 ∧ (NP32_HSV_To_RGB hsv).G ≤ 255
    ∧ (NP32_HSV_To_RGB hsv).B ≤ 255
    ∧ (0 ≤ 100 - min (hsv.S : Int) 100 ∧ 100 - min (hsv.S : Int) 100 ≤ 255)
    ∧ ∀ c0 ∈ [(hsvBase (min (hsv.H : Int) 359)).1, (hsvBase (min (hsv.H : Int) 359)).2.1,
          (hsvBase (min (hsv.H : Int) 359)).2.2],
        0 ≤ c0 ∧ c0 ≤ 255
        ∧ 0 ≤ Int.tdiv ((255 - c0) * (100 - min (hsv.S : Int) 100)) 100
        ∧ Int.tdiv ((255 - c0) * (100 - min (hsv.S : Int) 100)) 100 ≤ 255
        ∧ 0 ≤ hsvBlend c0 (min (hsv.S : Int) 100)
        ∧ hsvBlend c0 (min (hsv.S : Int) 100) ≤ 255
        ∧ 0 ≤ hsvChannel c0 (min (hsv.S : Int) 100) (min (hsv.V : Int) 100)
        ∧ hsvChannel c0 (min (hsv.S : Int) 100) (min (hsv.V : Int) 100) ≤ 255 := by
  obtain ⟨H, hH, eH, eH'⟩ : ∃ H : Nat, H ≤ 359 ∧ (if hsv.H > 359 then 359 else hsv.H) = H
      ∧ min (hsv.H : Int) 359 = (H : Int) := by
    by_cases c : hsv.H > 359
    · exact ⟨359, le_refl _, by rw [if_pos c], by omega⟩
    · exact ⟨hsv.H, by omega, by rw [if_neg c], by omega⟩
  obtain ⟨S, hS, eS, eS'⟩ : ∃ S : Nat, S ≤ 100 ∧ (if hsv.S > 100 then 100 else hsv.S) = S
      ∧ min (hsv.S : Int) 100 = (S : Int) := by
    by_cases c : hsv.S > 100
    · exact ⟨100, le_refl _, by rw [if_pos c], by omega⟩
    · exact ⟨hsv.S, by omega, by rw [if_neg c], by omega⟩
  obtain ⟨V, hV, eV, eV'⟩ : ∃ V : Nat, V ≤ 100 ∧ (if hsv.V > 100 then 100 else hsv.V) = V
      ∧ min (hsv.V : Int) 100 = (V : Int) := by
    by_cases c : hsv.V > 100
    · exact ⟨100, le_refl _, by rw [if_pos c], by omega⟩
    · exact ⟨hsv.V, by omega, by rw [if_neg c], by omega⟩
  obtain ⟨r, g, b, hbase, r0, r1, g0, g1, b0, b1, hcode⟩ := hue_stage H hH
  obtain ⟨cr, -, dr, -, br0, br1, fr0, fr1⟩ := channel_no_wrap r S V r0 r1 hS hV
  obtain ⟨cg, -, dg, -, bg0, bg1, fg0, fg1⟩ := channel_no_wrap g S V g0 g1 hS hV
  obtain ⟨cb, -, db, -, bb0, bb1, fb0, fb1⟩ := channel_no_wrap b S V b0 b1 hS hV
  obtain ⟨tr0, tr1⟩ := tdiv_scale_bounds (255 - r) (100 - (S : Int)) (by omega) (by omega)
    (by omega)
  obtain ⟨tg0, tg1⟩ := tdiv_scale_bounds (255 - g) (100 - (S : Int)) (by omega) (by omega)
    (by omega)
  obtain ⟨tb0, tb1⟩ := tdiv_scale_bounds (255 - b) (100 - (S : Int)) (by omega) (by omega)
    (by omega)
  have eR : ((NP32_HSV_To_RGB hsv).R : Int) = hsvChannel r S V := by
    unfold NP32_HSV_To_RGB
    dsimp only
    rw [eH, eS, eV, hcode]
    exact cr
  have eG : ((NP32_HSV_To_RGB hsv).G : Int) = hsvChannel g S V := by
    unfold NP32_HSV_To_RGB
    dsimp only
    rw [eH, eS, eV, hcode]
    exact cg
  have eB : ((NP32_HSV_To_RGB hsv).B : Int) = hsvChannel b S V := by
    unfold NP32_HSV_To_RGB
    dsimp only
    rw [eH, eS, eV, hcode]
    exact cb
  refine ⟨?_, by omega, by omega, by omega, by omega, ?_⟩
  · rw [eR, eG, eB]
    simp only [hsvReference, eH', eS', eV', hbase]
  · rw [eH', eS', eV', hbase]
    intro c0 hc0
    simp only [List.mem_cons, List.mem_singleton, List.not_mem_nil, or_false] at hc0
    rcases hc0 with rfl | rfl | rfl
    · exact ⟨r0, r1, tr0, by omega, br0, br1, fr0, fr1⟩
    · exact ⟨g0, g1, tg0, by omega, bg0, bg1, fg0, fg1⟩
    · exact ⟨b0, b1, tb0, by omega, bb0, bb1, fb0, fb1⟩

/-! ## The descending loops of `NP32_ShiftRight` and `NP32_RotateRight` -/

/-- A `while` loop whose test holds in every state never returns. -/
theorem whileLoop_test_always {σ : Type} (cond : σ → Bool) (body : σ → Except Fault σ)
    (hc : ∀ s, cond s = true) (fuel : Nat) (s : σ) :
    ∃ e, whileLoop cond body fuel s = .error e := by
  refine whileLoop_never cond body (fun _ => True) ?_ fuel s trivial
  intro s _
  refine ⟨hc s, ?_⟩
  cases hb : body s with
  | error e => exact Or.inl ⟨e, rfl⟩
  | ok s' => exact Or.inr ⟨s', rfl, trivial⟩

/-- C8 (the code departs from the claim): the loop test `i >= 0` of `NP32_ShiftRight` is
on an unsigned counter, so it holds in every state and the function never returns,
whatever the instance, the shift amount and the budget; on a one-pixel buffer shifted
by 0 the second iteration already addresses index 65535, outside the buffer. -/
theorem NP32_ShiftRight_never_returns :
    (∀ (fuel : Nat) (handle : NP32_Instance) (shift_amount : Nat),
        ∃ e, NP32_ShiftRight fuel handle shift_amount = .error e)
    ∧ NP32_ShiftRight 2 instOne 0 = .error .outOfBounds := by
  refine ⟨?_, rfl⟩
  intro fuel handle n
  obtain ⟨e, he⟩ := whileLoop_test_always (fun s : Nat × NP32_Instance => geZero s.1)
    (NP32_ShiftRight.body n) (fun s => by simp [geZero]) fuel
    (u16 ((handle.LED_Count : Int) - 1), handle)
  exact ⟨e, by simp only [NP32_ShiftRight, bind, Except.bind, he]⟩

/-- The descending loop of `NP32_RotateRight` never returns when the allocation
succeeds: its test `i >= 0` on the unsigned counter holds in every state. -/
theorem RotateRight_never (fuel : Nat) (handle : NP32_Instance) (n : Nat) :
    ∃ e, NP32_RotateRight true fuel handle n = .error e := by
  obtain ⟨e, he⟩ := whileLoop_test_always
    (fun s : Nat × Ptr NP32_RGB × NP32_Instance => geZero s.1)
    (NP32_RotateRight.body n) (fun s => by simp [geZero]) fuel
    (u16 ((handle.LED_Count : Int) - 1), Ptr.live (List.replicate n ⟨0, 0, 0⟩), handle)
  refine ⟨e, ?_⟩
  simp only [NP32_RotateRight, callocRGB, if_true, bind, Except.bind, he]

/-- C7 (the code departs from the claim): on a three-pixel buffer `NP32_RotateLeft(1)`
returns 0 with the buffer rotated, but the following `NP32_RotateRight(1)` never returns,
whatever the budget: its loop test `i >= 0` is on an unsigned counter, and after the
counter has wrapped from 0 to 65535 the body reads outside the pixel buffer. -/
theorem NP32_RotateLeft_RotateRight_diverges :
    NP32_RotateLeft true 3 instThree 1
      = .ok (0, { instThree with
          LED_Col_Buffer := .live [⟨2, 2, 2⟩, ⟨3, 3, 3⟩, ⟨1, 1, 1⟩] })
    ∧ (∀ fuel : Nat, ∃ e, NP32_RotateRight true fuel { instThree with
          LED_Col_Buffer := .live [⟨2, 2, 2⟩, ⟨3, 3, 3⟩, ⟨1, 1, 1⟩] } 1 = .error e)
    ∧ NP32_RotateRight true 4 { instThree with
          LED_Col_Buffer := .live [⟨2, 2, 2⟩, ⟨3, 3, 3⟩, ⟨1, 1, 1⟩] } 1
        = .error .outOfBounds := by
  refine ⟨rfl, ?_, rfl⟩
  intro fuel
  exact RotateRight_never fuel _ 1

/-! ## `NP32_ShiftLeft` -/

/-- One iteration of the loop of `NP32_ShiftLeft` at an index inside the buffer. -/
theorem ShiftLeft_body_eq (h : NP32_Instance) (cs : List NP32_RGB) (n i : Nat)
    (hc : h.LED_Col_Buffer = .live cs) (hlen : cs.length = h.LED_Count)
    (hi : i < cs.length) (h16 : i + 1 < 65536) :
    NP32_ShiftLeft.body n (i, h) = .ok (i + 1,
      { h with LED_Col_Buffer := Ptr.live (cs.set i
          (if hs : (n + i) % 65536 < cs.length then cs[(n + i) % 65536]
            else NP32_COL_BLACK)) }) := by
  simp only [NP32_ShiftLeft.body, bind, Except.bind, pure, Except.pure, u16_add,
    u16_succ i h16]
  by_cases hs : (n + i) % 65536 < cs.length
  · rw [if_neg (by omega), loadCol_live h cs _ hc hs]
    dsimp only
    rw [storeCol_live h cs i _ hc hi, dif_pos hs]
  · rw [if_pos (by omega), storeCol_live h cs i _ hc hi, dif_neg hs]

/-- When the 16-bit sum `shift_amount + i` wraps to 0 at the last index, `NP32_ShiftLeft`
returns with the last pixel holding the old pixel at index `shift_amount` (copied
through pixel 0) instead of black. -/
theorem ShiftLeft_wrap (handle : NP32_Instance) (col : List NP32_RGB) (n fuel : Nat)
    (hcol : handle.LED_Col_Buffer = .live col) (hclen : col.length = handle.LED_Count)
    (hL : handle.LED_Count < 65536) (hn : n < handle.LED_Count)
    (hw : n + (handle.LED_Count - 1) = 65536) (hfuel : handle.LED_Count ≤ fuel) :
    ∃ col', NP32_ShiftLeft fuel handle n
        = .ok (0, { handle with LED_Col_Buffer := .live col' })
      ∧ col'.length = col.length
      ∧ col'[handle.LED_Count - 1]? = col[n]? := by
  obtain ⟨⟨i', h'⟩, hr, ⟨hi1, c', hs2, hl', h0, hz, hlast⟩, hc⟩ :=
    whileLoop_inv ltCount (NP32_ShiftLeft.body n)
      (fun s => s.1 ≤ handle.LED_Count ∧
        ∃ cs, s.2 = { handle with LED_Col_Buffer := .live cs } ∧ cs.length = col.length ∧
          (1 ≤ s.1 → cs[0]? = col[n]?) ∧ (s.1 = 0 → cs = col) ∧
          (s.1 = handle.LED_Count → cs[handle.LED_Count - 1]? = col[n]?))
      (fun s => handle.LED_Count - s.1)
      (by
        rintro ⟨i, h⟩ ⟨h1, cs, e, hl, h0, hz, -⟩ hc
        dsimp only at h1 e h0 hz
        subst e
        simp only [ltCount, decide_eq_true_eq] at hc
        have hi : i < cs.length := by omega
        refine ⟨_, ShiftLeft_body_eq _ cs n i rfl (by simpa using (by omega)) hi (by omega),
          ⟨by dsimp only; omega, _, rfl, by simpa using hl, ?_, ?_, ?_⟩,
          by dsimp only; omega⟩
        · intro _
          rw [List.getElem?_set]
          by_cases hi0 : i = 0
          · subst hi0
            have hs : (n + 0) % 65536 < cs.length := by omega
            have e0 : (n + 0) % 65536 = n := by omega
            rw [if_pos rfl, if_pos hi, dif_pos hs, ← List.getElem?_eq_getElem hs, e0, hz rfl]
          · rw [if_neg hi0]
            exact h0 (by omega)
        · intro hcontra
          dsimp only at hcontra
          omega
        · intro hlastidx
          dsimp only at hlastidx
          have hiL : i = handle.LED_Count - 1 := by omega
          have hs : (n + i) % 65536 < cs.length := by omega
          have e0 : (n + i) % 65536 = 0 := by omega
          rw [List.getElem?_set, if_pos hiL, if_pos hi, dif_pos hs,
            ← List.getElem?_eq_getElem hs, e0, h0 (by omega)])
      fuel (0, handle)
      ⟨by dsimp only; omega, col, by cases handle; simp_all, rfl, by dsimp only; omega,
        fun _ => rfl, by dsimp only; omega⟩
      (by dsimp only; omega)
  dsimp only at hi1 hs2 h0 hz hlast hc
  simp only [ltCount, decide_eq_false_iff_not, not_lt] at hc
  subst hs2
  dsimp only at hc
  refine ⟨c', ?_, hl', hlast (by omega)⟩
  simp only [NP32_ShiftLeft, bind, Except.bind, pure, Except.pure, hr]

/-- When no 16-bit sum `shift_amount + i` wraps, `NP32_ShiftLeft` returns 0 and leaves
`new[j] = old[j + shift_amount]` where `j + shift_amount` is below the length, and
black elsewhere. -/
theorem ShiftLeft_nowrap (handle : NP32_Instance) (col : List NP32_RGB) (n fuel : Nat)
    (hcol : handle.LED_Col_Buffer = .live col) (hclen : col.length = handle.LED_Count)
    (hL : handle.LED_Count < 65536) (hnw : n + handle.LED_Count ≤ 65536)
    (hfuel : handle.LED_Count ≤ fuel) :
    ∃ col', NP32_ShiftLeft fuel handle n
        = .ok (0, { handle with LED_Col_Buffer := .live col' })
      ∧ col'.length = col.length
      ∧ ∀ j, j < handle.LED_Count →
          col'[j]? = if j + n < handle.LED_Count then col[j + n]? else some NP32_COL_BLACK := by
  obtain ⟨⟨i', h'⟩, hr, ⟨hi1, cs', hs2, hl', hlo, hhi⟩, hc⟩ :=
    whileLoop_inv ltCount (NP32_ShiftLeft.body n)
      (fun s => s.1 ≤ handle.LED_Count ∧
        ∃ cs, s.2 = { handle with LED_Col_Buffer := .live cs } ∧ cs.length = col.length ∧
          (∀ j, j < s.1 → cs[j]? = if j + n < handle.LED_Count then col[j + n]?
            else some NP32_COL_BLACK) ∧
          (∀ j, s.1 ≤ j → cs[j]? = col[j]?))
      (fun s => handle.LED_Count - s.1)
      (by
        rintro ⟨i, h⟩ ⟨h1, cs, e, hl, hlo, hhi⟩ hc
        dsimp only at h1 e hlo hhi
        subst e
        simp only [ltCount, decide_eq_true_eq] at hc
        have hi : i < cs.length := by omega
        have esv : (n + i) % 65536 = n + i := Nat.mod_eq_of_lt (by omega)
        refine ⟨_, ShiftLeft_body_eq _ cs n i rfl (by simpa using (by omega)) hi (by omega),
          ⟨by dsimp only; omega, _, rfl, by simpa using hl, ?_, ?_⟩,
          by dsimp only; omega⟩
        · intro j hj
          dsimp only at hj
          rw [List.getElem?_set]
          by_cases hij : i = j
          · subst hij
            rw [if_pos rfl, if_pos hi]
            by_cases hs : (n + i) % 65536 < cs.length
            · rw [dif_pos hs, if_pos (by omega), ← List.getElem?_eq_getElem hs, esv,
                hhi (n + i) (by omega), Nat.add_comm]
            · rw [dif_neg hs, if_neg (by omega)]
          · rw [if_neg hij]
            exact hlo j (by omega)
        · intro j hj
          dsimp only at hj
          rw [List.getElem?_set, if_neg (by omega)]
          exact hhi j (by omega))
      fuel (0, handle)
      ⟨by dsimp only; omega, col, by cases handle; simp_all, rfl,
        by intro j hj; dsimp only at hj; omega, fun _ _ => rfl⟩
      (by dsimp only; omega)
  dsimp only at hi1 hs2 hlo hhi hc
  simp only [ltCount, decide_eq_false_iff_not, not_lt] at hc
  subst hs2
  dsimp only at hc
  refine ⟨cs', ?_, hl', fun j hj => hlo j (by omega)⟩
  simp only [NP32_ShiftLeft, bind, Except.bind, pure, Except.pure, hr]

theorem bufShift_length : bufShift.length = 32769 := by
  rw [bufShift, List.length_append, List.length_replicate]
  rfl

theorem bufShift_last : bufShift[32768]? = some ⟨1, 2, 3⟩ := by
  rw [bufShift, List.getElem?_append_right (by rw [List.length_replicate]),
    List.length_replicate]
  rfl

/-- C5 (the code departs from the claim): on a buffer of 32769 pixels, black except for
the last one, `NP32_ShiftLeft(32768)` returns 0 and leaves the last pixel (index 32768)
holding the old last pixel (1,2,3): at that index the 16-bit sum 32768 + 32768 wraps
to 0, so the pixel is copied from index 0 instead of being made black, although
32768 + 32768 is not below the length. -/
theorem NP32_ShiftLeft_wraps :
    ∃ col', NP32_ShiftLeft 32769 instShift 32768
        = .ok (0, { instShift with LED_Col_Buffer := .live col' })
      ∧ col'.length = 32769
      ∧ col'[32768]? = some ⟨1, 2, 3⟩
      ∧ (⟨1, 2, 3⟩ : NP32_RGB) ≠ NP32_COL_BLACK := by
  obtain ⟨col', hr, hl, hlast⟩ := ShiftLeft_wrap instShift bufShift 32768 32769 rfl
    bufShift_length (by decide) (by decide) (by decide) (by decide)
  refine ⟨col', hr, by rw [hl, bufShift_length], ?_, by decide⟩
  have : instShift.LED_Count - 1 = 32768 := by decide
  rw [this, bufShift_last] at hlast
  exact hlast

/-! ## `NP32_RotateLeft` -/

/-- One iteration of the loop of `NP32_RotateLeft` at an index inside the buffer, with a
scratch buffer of `rotate_amount` cells: it succeeds, writes pixel `i` only, and when the
16-bit sum `s` is below the length the value written is the current pixel `s`. -/
theorem RotateLeft_body_eq (h : NP32_Instance) (cs b : List NP32_RGB) (n i : Nat)
    (hc : h.LED_Col_Buffer = .live cs) (hlen : cs.length = h.LED_Count)
    (hb : b.length = n) (hi : i < cs.length) (h16 : i + 1 < 65536) :
    ∃ b' v, NP32_RotateLeft.body n (i, Ptr.live b, h)
        = .ok (i + 1, Ptr.live b', { h with LED_Col_Buffer := Ptr.live (cs.set i v) })
      ∧ b'.length = n
      ∧ (∀ hs : (n + i) % 65536 < cs.length, v = cs[(n + i) % 65536])
      ∧ (∀ k, b'[k]? = if k = i ∧ i < n then some cs[i] else b[k]?)
      ∧ (cs.length ≤ (n + i) % 65536 → b'[(n + i) % 65536 - h.LED_Count]? = some v) := by
  have key : ∀ (b' : List NP32_RGB), b'.length = n →
      (if i < n then
        (match h.loadCol (i : Int) with
          | .ok v => (Ptr.live b).store (i : Int) v
          | .error e => .error e)
      else .ok (Ptr.live b)) = .ok (Ptr.live b') →
      ∃ v, NP32_RotateLeft.body n (i, Ptr.live b, h)
        = .ok (i + 1, Ptr.live b', { h with LED_Col_Buffer := Ptr.live (cs.set i v) })
      ∧ (∀ hs : (n + i) % 65536 < cs.length, v = cs[(n + i) % 65536])
      ∧ (cs.length ≤ (n + i) % 65536 → b'[(n + i) % 65536 - h.LED_Count]? = some v) := by
    intro b' hb' hb1
    have hbody : NP32_RotateLeft.body n (i, Ptr.live b, h)
        = (match (if i < n then
              (match h.loadCol (i : Int) with
                | .ok v => (Ptr.live b).store (i : Int) v
                | .error e => .error e)
            else .ok (Ptr.live b)) with
          | .ok buf =>
            (match (if (n + i) % 65536 ≥ h.LED_Count then
                (match buf.load ((((n + i) % 65536 : Nat) : Int) - (h.LED_Count : Int)) with
                  | .ok v => h.storeCol (i : Int) v
                  | .error e => .error e)
              else
                (match h.loadCol (((n + i) % 65536 : Nat) : Int) with
                  | .ok v => h.storeCol (i : Int) v
                  | .error e => .error e)) with
              | .ok h' => .ok (i + 1, buf, h')
              | .error e => .error e)
          | .error e => .error e) := by
      simp only [NP32_RotateLeft.body, bind, Except.bind, pure, Except.pure, u16_add,
        u16_succ i h16]
      by_cases hin : i < n <;> by_cases hge : (n + i) % 65536 ≥ h.LED_Count <;>
        simp only [hin, hge, if_true, if_false] <;>
        (repeat' split) <;> simp_all
    rw [hbody, hb1]
    dsimp only
    by_cases hs : (n + i) % 65536 < cs.length
    · refine ⟨cs[(n + i) % 65536], ?_, fun _ => rfl, fun hge => absurd hs (by omega)⟩
      rw [if_neg (by omega), loadCol_live h cs _ hc hs]
      dsimp only
      rw [storeCol_live h cs i _ hc hi]
    · have hidx : (((n + i) % 65536 : Nat) : Int) - (h.LED_Count : Int)
          = (((n + i) % 65536 - h.LED_Count : Nat) : Int) := by omega
      have hlt : (n + i) % 65536 - h.LED_Count < b'.length := by omega
      refine ⟨b'[(n + i) % 65536 - h.LED_Count], ?_, fun hs' => absurd hs' hs,
        fun _ => List.getElem?_eq_getElem hlt⟩
      rw [if_pos (by omega), hidx, Ptr.load_live b' _ hlt]
      dsimp only
      rw [storeCol_live h cs i _ hc hi]
  by_cases hin : i < n
  · obtain ⟨v, h1, h2, h3⟩ := key (b.set i cs[i]) (by simpa using hb) (by
      rw [if_pos hin, loadCol_live h cs i hc hi]
      exact Ptr.store_live b i _ (by omega))
    refine ⟨b.set i cs[i], v, h1, by simpa using hb, h2, ?_, h3⟩
    intro k
    rw [List.getElem?_set]
    by_cases hik : i = k
    · subst hik
      rw [if_pos rfl, if_pos (by omega), if_pos ⟨rfl, hin⟩]
    · rw [if_neg hik, if_neg (by omega)]
  · obtain ⟨v, h1, h2, h3⟩ := key b hb (by rw [if_neg hin])
    exact ⟨b, v, h1, hb, h2, fun k => by rw [if_neg (by omega)], h3⟩

/-- When the 16-bit sum `rotate_amount + i` wraps to 0 at the last index,
`NP32_RotateLeft` returns with the last pixel holding the old pixel at index
`rotate_amount` (copied through pixel 0). -/
theorem RotateLeft_wrap (handle : NP32_Instance) (col : List NP32_RGB) (n fuel : Nat)
    (hcol : handle.LED_Col_Buffer = .live col) (hclen : col.length = handle.LED_Count)
    (hL : handle.LED_Count < 65536) (hn : n < handle.LED_Count)
    (hw : n + (handle.LED_Count - 1) = 65536) (hfuel : handle.LED_Count ≤ fuel) :
    ∃ col', NP32_RotateLeft true fuel handle n
        = .ok (0, { handle with LED_Col_Buffer := .live col' })
      ∧ col'.length = col.length
      ∧ col'[handle.LED_Count - 1]? = col[n]? := by
  obtain ⟨⟨i', buf', h'⟩, hr, ⟨hi1, ⟨b', hbuf', hblen⟩, cs', hs2, hl', h0, hz, hlast⟩, hc⟩ :=
    whileLoop_inv (fun s : Nat × Ptr NP32_RGB × NP32_Instance =>
        decide (s.1 < s.2.2.LED_Count)) (NP32_RotateLeft.body n)
      (fun s => s.1 ≤ handle.LED_Count ∧ (∃ b, s.2.1 = Ptr.live b ∧ b.length = n) ∧
        ∃ cs, s.2.2 = { handle with LED_Col_Buffer := .live cs } ∧ cs.length = col.length ∧
          (1 ≤ s.1 → cs[0]? = col[n]?) ∧ (s.1 = 0 → cs = col) ∧
          (s.1 = handle.LED_Count → cs[handle.LED_Count - 1]? = col[n]?))
      (fun s => handle.LED_Count - s.1)
      (by
        rintro ⟨i, buf, h⟩ ⟨h1, ⟨b, eb, hbl⟩, cs, e, hl, h0, hz, -⟩ hc
        dsimp only at h1 eb e h0 hz
        subst e eb
        simp only [decide_eq_true_eq] at hc
        have hi : i < cs.length := by omega
        obtain ⟨b', v, hbody, hbl', hv, -, -⟩ := RotateLeft_body_eq
          { handle with LED_Col_Buffer := .live cs } cs b n i rfl
          (by simpa using (by omega)) hbl hi (by omega)
        refine ⟨_, hbody,
          ⟨by dsimp only; omega, ⟨b', rfl, hbl'⟩, cs.set i v, rfl, by simpa using hl,
            ?_, ?_, ?_⟩,
          by dsimp only; omega⟩
        · intro _
          rw [List.getElem?_set]
          by_cases hi0 : i = 0
          · subst hi0
            have hs : (n + 0) % 65536 < cs.length := by omega
            have e0 : (n + 0) % 65536 = n := by omega
            rw [if_pos rfl, if_pos hi, hv hs, ← List.getElem?_eq_getElem hs, e0, hz rfl]
          · rw [if_neg hi0]
            exact h0 (by omega)
        · intro hcontra
          dsimp only at hcontra
          omega
        · intro hlastidx
          dsimp only at hlastidx
          have hiL : i = handle.LED_Count - 1 := by omega
          have hs : (n + i) % 65536 < cs.length := by omega
          have e0 : (n + i) % 65536 = 0 := by omega
          rw [List.getElem?_set, if_pos hiL, if_pos hi, hv hs,
            ← List.getElem?_eq_getElem hs, e0, h0 (by omega)])
      fuel (0, Ptr.live (List.replicate n ⟨0, 0, 0⟩), handle)
      ⟨by dsimp only; omega, ⟨_, rfl, by simp⟩, col, by cases handle; simp_all, rfl,
        by dsimp only; omega, fun _ => rfl, by dsimp only; omega⟩
      (by dsimp only; omega)
  dsimp only at hi1 hs2 h0 hz hlast hc
  simp only [decide_eq_false_iff_not, not_lt] at hc
  subst hs2
  dsimp only at hc
  refine ⟨cs', ?_, hl', hlast (by omega)⟩
  simp only [NP32_RotateLeft, callocRGB, if_true, bind, Except.bind, pure, Except.pure, hr]

/-- When no 16-bit sum `rotate_amount + i` wraps and `rotate_amount` is below the
length, `NP32_RotateLeft` with a successful allocation returns 0 and leaves
`new[j] = old[(j + rotate_amount) mod length]`. -/
theorem RotateLeft_nowrap (handle : NP32_Instance) (col : List NP32_RGB) (n fuel : Nat)
    (hcol : handle.LED_Col_Buffer = .live col) (hclen : col.length = handle.LED_Count)
    (hL : handle.LED_Count < 65536) (hn : n < handle.LED_Count)
    (hnw : n + handle.LED_Count ≤ 65536) (hfuel : handle.LED_Count ≤ fuel) :
    ∃ col', NP32_RotateLeft true fuel handle n
        = .ok (0, { handle with LED_Col_Buffer := .live col' })
      ∧ col'.length = col.length
      ∧ ∀ j, j < handle.LED_Count → col'[j]? = col[(j + n) % handle.LED_Count]? := by
  obtain ⟨⟨i', buf', h'⟩, hr, ⟨hi1, ⟨b', hbuf', hblen, hbv⟩, cs', hs2, hl', hlo, hhi⟩, hc⟩ :=
    whileLoop_inv (fun s : Nat × Ptr NP32_RGB × NP32_Instance =>
        decide (s.1 < s.2.2.LED_Count)) (NP32_RotateLeft.body n)
      (fun s => s.1 ≤ handle.LED_Count ∧
        (∃ b, s.2.1 = Ptr.live b ∧ b.length = n ∧
          ∀ k, k < s.1 → k < n → b[k]? = col[k]?) ∧
        ∃ cs, s.2.2 = { handle with LED_Col_Buffer := .live cs } ∧ cs.length = col.length ∧
          (∀ j, j < s.1 → cs[j]? = col[(j + n) % handle.LED_Count]?) ∧
          (∀ j, s.1 ≤ j → cs[j]? = col[j]?))
      (fun s => handle.LED_Count - s.1)
      (by
        rintro ⟨i, buf, h⟩ ⟨h1, ⟨b, eb, hbl, hbv⟩, cs, e, hl, hlo, hhi⟩ hc
        dsimp only at h1 eb e hbv hlo hhi
        subst e eb
        simp only [decide_eq_true_eq] at hc
        have hi : i < cs.length := by omega
        have esv : (n + i) % 65536 = n + i := Nat.mod_eq_of_lt (by omega)
        obtain ⟨b', v, hbody, hbl', hv, hb'get, hvb⟩ := RotateLeft_body_eq
          { handle with LED_Col_Buffer := .live cs } cs b n i rfl
          (by simpa using (by omega)) hbl hi (by omega)
        have hcsi : cs[i]? = col[i]? := hhi i (le_refl _)
        have hb'v : ∀ k, k < i + 1 → k < n → b'[k]? = col[k]? := by
          intro k hk hkn
          rw [hb'get k]
          by_cases hki : k = i
          · subst hki
            rw [if_pos ⟨rfl, hkn⟩, ← List.getElem?_eq_getElem hi, hcsi]
          · rw [if_neg (fun hh => hki hh.1)]
            exact hbv k (by omega) hkn
        refine ⟨_, hbody,
          ⟨by dsimp only; omega, ⟨b', rfl, hbl', hb'v⟩, cs.set i v, rfl, by simpa using hl,
            ?_, ?_⟩,
          by dsimp only; omega⟩
        · intro j hj
          dsimp only at hj
          rw [List.getElem?_set]
          by_cases hij : i = j
          · subst hij
            rw [if_pos rfl, if_pos hi]
            by_cases hs : (n + i) % 65536 < cs.length
            · have em : (i + n) % handle.LED_Count = n + i := by
                rw [Nat.add_comm]; exact Nat.mod_eq_of_lt (by omega)
              rw [hv hs, ← List.getElem?_eq_getElem hs, esv, hhi (n + i) (by omega), em]
            · have em : (i + n) % handle.LED_Count = n + i - handle.LED_Count := by
                rw [Nat.add_comm, Nat.mod_eq_sub_mod (by omega)]
                exact Nat.mod_eq_of_lt (by omega)
              have hvb' := hvb (by omega)
              dsimp only at hvb'
              rw [esv] at hvb'
              rw [← hvb', hb'v _ (by omega) (by omega), em]
          · rw [if_neg hij]
            exact hlo j (by omega)
        · intro j hj
          dsimp only at hj
          rw [List.getElem?_set, if_neg (by omega)]
          exact hhi j (by omega))
      fuel (0, Ptr.live (List.replicate n ⟨0, 0, 0⟩), handle)
      ⟨by dsimp only; omega, ⟨_, rfl, by simp, by intro k hk; dsimp only at hk; omega⟩, col,
        by cases handle; simp_all, rfl,
        by intro j hj; dsimp only at hj; omega, fun _ _ => rfl⟩
      (by dsimp only; omega)
  dsimp only at hi1 hs2 hlo hhi hc
  simp only [decide_eq_false_iff_not, not_lt] at hc
  subst hs2
  dsimp only at hc
  refine ⟨cs', ?_, hl', fun j hj => hlo j (by omega)⟩
  simp only [NP32_RotateLeft, callocRGB, if_true, bind, Except.bind, pure, Except.pure, hr]

theorem bufRotate_length : bufRotate.length = 32769 := by
  rw [bufRotate, List.length_append, List.length_replicate]
  rfl

theorem bufRotate_last : bufRotate[32768]? = some ⟨4, 5, 6⟩ := by
  rw [bufRotate, List.getElem?_append_right (by rw [List.length_replicate]; decide),
    List.length_replicate]
  rfl

theorem bufRotate_prev : bufRotate[32767]? = some ⟨1, 2, 3⟩ := by
  rw [bufRotate, List.getElem?_append_right (by rw [List.length_replicate]),
    List.length_replicate]
  rfl

/-- C6 (the code departs from the claim): on a buffer of 32769 pixels whose last two
pixels are (1,2,3) and (4,5,6), `NP32_RotateLeft(32768)` with a successful allocation
returns 0 and leaves the last pixel (index 32768) holding the old last pixel (4,5,6),
whereas the rotation puts the old pixel `(32768 + 32768) mod 32769 = 32767`, that is
(1,2,3), there: at that index the 16-bit sum wraps to 0 and the pixel is copied from
index 0. -/
theorem NP32_RotateLeft_wraps :
    ∃ col', NP32_RotateLeft true 32769 instRotate 32768
        = .ok (0, { instRotate with LED_Col_Buffer := .live col' })
      ∧ col'.length = 32769
      ∧ col'[32768]? = some ⟨4, 5, 6⟩
      ∧ bufRotate[(32768 + 32768) % 32769]? = some ⟨1, 2, 3⟩
      ∧ (⟨4, 5, 6⟩ : NP32_RGB) ≠ ⟨1, 2, 3⟩ := by
  obtain ⟨col', hr, hl, hlast⟩ := RotateLeft_wrap instRotate bufRotate 32768 32769 rfl
    bufRotate_length (by decide) (by decide) (by decide) (by decide)
  refine ⟨col', hr, by rw [hl, bufRotate_length], ?_, bufRotate_prev, by decide⟩
  have : instRotate.LED_Count - 1 = 32768 := by decide
  rw [this, bufRotate_last] at hlast
  exact hlast

/-! ## Span fill, completion callback, uninitialised update -/

/-- C11: on an instance whose pixel buffer has `LED_Count <= 65535` cells and for bounds
`lower_bound <= higher_bound < LED_Count`, `NP32_SetLEDSpan_RGB` returns 0 (with a budget
of `LED_Count` iterations), every pixel at an index in `[lower_bound, higher_bound]`,
both ends included, is `rgb`, every pixel outside is the old one, and no other field of
the instance changes. -/
theorem NP32_SetLEDSpan_RGB_success (handle : NP32_Instance) (col : List NP32_RGB)
    (lower_bound higher_bound fuel : Nat) (rgb : NP32_RGB)
    (hbuf : handle.LED_Col_Buffer = .live col) (hlen : col.length = handle.LED_Count)
    (hL : handle.LED_Count ≤ 65535) (hlo : lower_bound ≤ higher_bound)
    (hhi : higher_bound < handle.LED_Count) (hfuel : handle.LED_Count ≤ fuel) :
    ∃ col', NP32_SetLEDSpan_RGB fuel handle lower_bound higher_bound rgb
        = .ok (0, { handle with LED_Col_Buffer := .live col' })
      ∧ col'.length = col.length
      ∧ (∀ i, lower_bound ≤ i → i ≤ higher_bound → col'[i]? = some rgb)
      ∧ (∀ i, i < lower_bound ∨ higher_bound < i → col'[i]? = col[i]?) := by
  obtain ⟨i, col', hr, hl, hget⟩ := SetLEDSpan_loop handle col lower_bound higher_bound fuel rgb
    hbuf hlen (by omega) hlo hhi hfuel
  refine ⟨col', ?_, hl, ?_, ?_⟩
  · have hg : ¬ (lower_bound ≥ handle.LED_Count ∨ higher_bound ≥ handle.LED_Count
        ∨ lower_bound > higher_bound) := by omega
    simp only [NP32_SetLEDSpan_RGB, if_neg hg, hr]
  · intro j h1 h2
    rw [hget j, if_pos ⟨h1, h2⟩]
  · intro j hj
    rw [hget j, if_neg (by omega)]

/-- Witness for C11 on the three-pixel instance: the span `[1, 2]`. -/
theorem NP32_SetLEDSpan_RGB_success_witness :
    inst3.LED_Col_Buffer = .live [⟨0, 0, 0⟩, ⟨0, 0, 0⟩, ⟨0, 0, 0⟩]
    ∧ [(⟨0, 0, 0⟩ : NP32_RGB), ⟨0, 0, 0⟩, ⟨0, 0, 0⟩].length = inst3.LED_Count
    ∧ inst3.LED_Count ≤ 65535 ∧ 1 ≤ 2 ∧ 2 < inst3.LED_Count ∧ inst3.LED_Count ≤ 3
    ∧ ∃ col', NP32_SetLEDSpan_RGB 3 inst3 1 2 ⟨10, 20, 30⟩
        = .ok (0, { inst3 with LED_Col_Buffer := .live col' })
      ∧ col'.length = 3
      ∧ (∀ i, 1 ≤ i → i ≤ 2 → col'[i]? = some ⟨10, 20, 30⟩)
      ∧ (∀ i, i < 1 ∨ 2 < i →
          col'[i]? = [(⟨0, 0, 0⟩ : NP32_RGB), ⟨0, 0, 0⟩, ⟨0, 0, 0⟩][i]?) :=
  ⟨rfl, rfl, by decide, by decide, by decide, by decide,
    NP32_SetLEDSpan_RGB_success inst3 _ 1 2 3 ⟨10, 20, 30⟩ rfl rfl (by decide) (by decide)
      (by decide) (by decide)⟩

/-- C14: `NP32_DMAComplete_Callback` leaves `DMA_Busy_Flag = 0` in every state and changes
no other field, so its result is the instance with the flag cleared; applying it twice
gives the same state as applying it once. -/
theorem NP32_DMAComplete_Callback_idle (handle : NP32_Instance) :
    NP32_DMAComplete_Callback handle = { handle with DMA_Busy_Flag := 0 }
    ∧ (NP32_DMAComplete_Callback handle).DMA_Busy_Flag = 0
    ∧ (NP32_DMAComplete_Callback handle).LED_Count = handle.LED_Count
    ∧ (NP32_DMAComplete_Callback handle).LED_Col_Buffer = handle.LED_Col_Buffer
    ∧ (NP32_DMAComplete_Callback handle)._DMA_Buffer = handle._DMA_Buffer
    ∧ (NP32_DMAComplete_Callback handle).LED_Disable_Flag = handle.LED_Disable_Flag
    ∧ (NP32_DMAComplete_Callback handle).StartDMA_Call = handle.StartDMA_Call
    ∧ NP32_DMAComplete_Callback (NP32_DMAComplete_Callback handle)
        = NP32_DMAComplete_Callback handle := by
  have e : NP32_DMAComplete_Callback handle = { handle with DMA_Busy_Flag := 0 } := by
    unfold NP32_DMAComplete_Callback
    by_cases h : handle.DMA_Busy_Flag ≠ 0
    · rw [if_pos h]
    · rw [if_neg h]
      have h0 : handle.DMA_Busy_Flag = 0 := by omega
      cases handle
      simp_all
  refine ⟨e, by rw [e], by rw [e], by rw [e], by rw [e], by rw [e], by rw [e], ?_⟩
  rw [e]
  unfold NP32_DMAComplete_Callback
  rw [if_neg (by simp)]

/-- C16: when the pixel buffer or the timing buffer is `NULL`, whatever the busy flag and
the budget, `NP32_Update` returns -1 at once: the instance is unchanged and the delegate
is not invoked. -/
theorem NP32_Update_not_initialised (fuel : Nat) (startDMA : Ptr Nat → Nat → Int)
    (handle : NP32_Instance)
    (hnull : handle.LED_Col_Buffer = .null ∨ handle._DMA_Buffer = .null) :
    NP32_Update fuel startDMA handle = .ok (-1, handle, []) := by
  have hc : (handle.LED_Col_Buffer.isNull || handle._DMA_Buffer.isNull) = true := by
    rcases hnull with h | h <;> simp [h, Ptr.isNull]
  simp only [NP32_Update, hc, if_true]

/-- Witness for C16: an instance without buffers whose busy flag is set, with no budget
for waiting. -/
theorem NP32_Update_not_initialised_witness :
    (instNull.LED_Col_Buffer = .null ∨ instNull._DMA_Buffer = .null)
    ∧ instNull.DMA_Busy_Flag = 1
    ∧ NP32_Update 0 (fun _ _ => 0) instNull = .ok (-1, instNull, []) :=
  ⟨Or.inl rfl, rfl, NP32_Update_not_initialised 0 (fun _ _ => 0) instNull (Or.inl rfl)⟩

/-! ## NP32_Update: auxiliary facts -/

/-- A `while` loop whose test fails at entry returns at once, whatever the budget. -/
theorem whileLoop_done {σ : Type} (cond : σ → Bool) (body : σ → Except Fault σ)
    (fuel : Nat) (s : σ) (hc : cond s = false) : whileLoop cond body fuel s = .ok s := by
  cases fuel <;> simp [whileLoop, hc]

/-- A `while` loop with an empty body whose test holds at entry never returns. -/
theorem whileLoop_spin {σ : Type} (cond : σ → Bool) (s : σ) (hc : cond s = true) :
    ∀ fuel, whileLoop cond (fun t => .ok t) fuel s = .error .outOfFuel := by
  intro fuel
  induction fuel with
  | zero => simp [whileLoop, hc]
  | succ fuel ih => simp [whileLoop, hc, ih]

/-- `NP32_Update` on an instance with both pointers non-null and the busy flag clear:
the wait ends at once, the encoder runs on the instance as it is, the flag is set, and
the delegate is invoked once with the timing buffer and the element count converted to
`uint16_t`; the status it returns is recorded and not inspected. -/
theorem Update_idle (fuel : Nat) (startDMA : Ptr Nat → Nat → Int)
    (handle hr : NP32_Instance) (fn : Nat)
    (hcol : handle.LED_Col_Buffer.isNull = false) (hdma : handle._DMA_Buffer.isNull = false)
    (hidle : handle.DMA_Busy_Flag = 0) (hrec : _NP32_Recalc_DMA_Buf fuel handle = .ok hr)
    (hfn : hr.StartDMA_Call = some fn) :
    NP32_Update fuel startDMA handle
      = .ok (0, { hr with DMA_Busy_Flag := 1 },
          [⟨hr._DMA_Buffer, u16 ((hr.LED_Count : Int) * 24 + (NP32_WS2812_ZERO_PERIODS : Int)),
            startDMA hr._DMA_Buffer
              (u16 ((hr.LED_Count : Int) * 24 + (NP32_WS2812_ZERO_PERIODS : Int)))⟩]) := by
  have hw : whileLoop (fun h : NP32_Instance => decide (h.DMA_Busy_Flag ≠ 0))
      (fun h => .ok h) fuel handle = .ok handle :=
    whileLoop_done _ _ fuel handle (by simp [hidle])
  simp only [NP32_Update, hcol, hdma, Bool.or_self, Bool.false_eq_true, if_false, bind,
    Except.bind, hw, hrec, hfn, pure, Except.pure]

/-- `NP32_Update` on an instance with both pointers non-null and the busy flag set never
returns in the sequential model: the wait does not end. -/
theorem Update_busy (fuel : Nat) (startDMA : Ptr Nat → Nat → Int) (handle : NP32_Instance)
    (hcol : handle.LED_Col_Buffer.isNull = false) (hdma : handle._DMA_Buffer.isNull = false)
    (hbusy : handle.DMA_Busy_Flag ≠ 0) :
    NP32_Update fuel startDMA handle = .error .outOfFuel := by
  have hw := whileLoop_spin (fun h : NP32_Instance => decide (h.DMA_Busy_Flag ≠ 0)) handle
    (by simp [hbusy]) fuel
  simp only [NP32_Update, hcol, hdma, Bool.or_self, Bool.false_eq_true, if_false, bind,
    Except.bind, hw]

theorem u16_count (L : Nat) (h : L * 24 + 48 ≤ 65535) :
    u16 ((L : Int) * 24 + (NP32_WS2812_ZERO_PERIODS : Int)) = L * 24 + 48 := by
  unfold u16 NP32_WS2812_ZERO_PERIODS; omega

/-- `NP32_Update` on an initialised idle instance with `LED_Count * 24 + 48 <= 65535`:
it returns 0 with the busy flag set and the timing buffer regenerated by the encoder,
after one invocation of the delegate with that buffer and `LED_Count * 24 + 48`. -/
theorem Update_idle_small (fuel : Nat) (startDMA : Ptr Nat → Nat → Int)
    (handle : NP32_Instance) (col : List NP32_RGB) (dma : List Nat) (fn : Nat)
    (hcol : handle.LED_Col_Buffer = .live col) (hclen : col.length = handle.LED_Count)
    (hdma : handle._DMA_Buffer = .live dma)
    (hdlen : dma.length = handle.LED_Count * 24 + 48)
    (hN : handle.LED_Count * 24 + 48 ≤ 65535) (hidle : handle.DMA_Busy_Flag = 0)
    (hfn : handle.StartDMA_Call = some fn) (hfuel : handle.LED_Count * 24 + 48 ≤ fuel) :
    ∃ dma', _NP32_Recalc_DMA_Buf fuel handle = .ok { handle with _DMA_Buffer := .live dma' }
      ∧ NP32_Update fuel startDMA handle
        = .ok (0, { handle with _DMA_Buffer := .live dma', DMA_Busy_Flag := 1 },
            [⟨.live dma', handle.LED_Count * 24 + 48,
              startDMA (.live dma') (handle.LED_Count * 24 + 48)⟩])
      ∧ dma'.length = handle.LED_Count * 24 + 48
      ∧ (handle.LED_Disable_Flag = 1 →
          ∀ j, j < handle.LED_Count * 24 + 48 → dma'[j]? = some 0)
      ∧ (handle.LED_Disable_Flag ≠ 1 →
          (∀ j, j < 24 * handle.LED_Count →
            dma'[j]? = (col[j / 24]?).map (fun px => refWave px (j % 24)))
          ∧ (∀ j, 24 * handle.LED_Count ≤ j → j < 24 * handle.LED_Count + 48 →
            dma'[j]? = some 0)) := by
  have hupd : ∀ dma', _NP32_Recalc_DMA_Buf fuel handle
        = .ok { handle with _DMA_Buffer := .live dma' } →
      NP32_Update fuel startDMA handle
        = .ok (0, { handle with _DMA_Buffer := .live dma', DMA_Busy_Flag := 1 },
            [⟨.live dma', handle.LED_Count * 24 + 48,
              startDMA (.live dma') (handle.LED_Count * 24 + 48)⟩]) := by
    intro dma' hrec
    have := Update_idle fuel startDMA handle _ fn (by simp [hcol, Ptr.isNull])
      (by simp [hdma, Ptr.isNull]) hidle hrec hfn
    rw [this]
    simp only [u16_count handle.LED_Count hN]
  by_cases hflag : handle.LED_Disable_Flag = 1
  · obtain ⟨dma', hr, hl, hz⟩ := Recalc_disabled handle dma fuel hdma hdlen hN hflag hfuel
    exact ⟨dma', hr, hupd dma' hr, by omega, fun _ => hz, fun h => absurd hflag h⟩
  · obtain ⟨dma', hr, hl, hw, hz⟩ := Recalc_enabled handle col dma fuel hcol hclen hdma hdlen
      hN hflag (by omega)
    exact ⟨dma', hr, hupd dma' hr, by omega, fun h => absurd h hflag, fun _ => ⟨hw, hz⟩⟩

/-! ## NP32_Update on an idle instance -/

/-- C12: on an initialised idle instance with `LED_Count * 24 + 48 <= 65535`,
`NP32_Update` returns 0; the instance it leaves differs from the one at the call only in
the busy flag, which is 1, and in the timing buffer, which is the one the encoder
produces from the pixel buffer and disable flag at the call (all zero when the flag is
set, the reference waveform and 48 zeros otherwise); the delegate is invoked exactly
once, with that timing buffer and the count `LED_Count * 24 + 48`. -/
theorem NP32_Update_idle_spec (fuel : Nat) (startDMA : Ptr Nat → Nat → Int)
    (handle : NP32_Instance) (col : List NP32_RGB) (dma : List Nat) (fn : Nat)
    (hcol : handle.LED_Col_Buffer = .live col) (hclen : col.length = handle.LED_Count)
    (hdma : handle._DMA_Buffer = .live dma)
    (hdlen : dma.length = handle.LED_Count * 24 + 48)
    (hN : handle.LED_Count * 24 + 48 ≤ 65535) (hidle : handle.DMA_Busy_Flag = 0)
    (hfn : handle.StartDMA_Call = some fn) (hfuel : handle.LED_Count * 24 + 48 ≤ fuel) :
    ∃ h' dma', NP32_Update fuel startDMA handle
        = .ok (0, h', [⟨.live dma', handle.LED_Count * 24 + 48,
            startDMA (.live dma') (handle.LED_Count * 24 + 48)⟩])
      ∧ h' = { handle with _DMA_Buffer := .live dma', DMA_Busy_Flag := 1 }
      ∧ h'.DMA_Busy_Flag = 1
      ∧ h'.LED_Col_Buffer = handle.LED_Col_Buffer
      ∧ h'.LED_Count = handle.LED_Count
      ∧ h'.LED_Disable_Flag = handle.LED_Disable_Flag
      ∧ _NP32_Recalc_DMA_Buf fuel handle = .ok { handle with _DMA_Buffer := .live dma' }
      ∧ dma'.length = handle.LED_Count * 24 + 48
      ∧ (handle.LED_Disable_Flag = 1 →
          ∀ j, j < handle.LED_Count * 24 + 48 → dma'[j]? = some 0)
      ∧ (handle.LED_Disable_Flag ≠ 1 →
          (∀ j, j < 24 * handle.LED_Count →
            dma'[j]? = (col[j / 24]?).map (fun px => refWave px (j % 24)))
          ∧ (∀ j, 24 * handle.LED_Count ≤ j → j < 24 * handle.LED_Count + 48 →
            dma'[j]? = some 0)) := by
  obtain ⟨dma', hr, hu, hl, h1, h2⟩ := Update_idle_small fuel startDMA handle col dma fn
    hcol hclen hdma hdlen hN hidle hfn hfuel
  exact ⟨_, dma', hu, rfl, rfl, rfl, rfl, rfl, hr, hl, h1, h2⟩

/-- Witness for C12: the one-pixel pure-green instance, idle, with a delegate that
reports success. -/
theorem NP32_Update_idle_spec_witness :
    instGreen.LED_Col_Buffer = .live [⟨0, 255, 0⟩]
    ∧ [(⟨0, 255, 0⟩ : NP32_RGB)].length = instGreen.LED_Count
    ∧ instGreen._DMA_Buffer = .live (List.replicate 72 0)
    ∧ (List.replicate 72 0).length = instGreen.LED_Count * 24 + 48
    ∧ instGreen.LED_Count * 24 + 48 ≤ 65535 ∧ instGreen.DMA_Busy_Flag = 0
    ∧ instGreen.StartDMA_Call = some 1 ∧ instGreen.LED_Count * 24 + 48 ≤ 72
    ∧ ∃ h' dma', NP32_Update 72 (fun _ _ => 0) instGreen
        = .ok (0, h', [⟨.live dma', instGreen.LED_Count * 24 + 48, 0⟩])
      ∧ h' = { instGreen with _DMA_Buffer := .live dma', DMA_Busy_Flag := 1 }
      ∧ dma'.length = instGreen.LED_Count * 24 + 48 :=
  ⟨rfl, rfl, rfl, by decide, by decide, rfl, rfl, by decide,
    (NP32_Update_idle_spec 72 (fun _ _ => 0) instGreen [⟨0, 255, 0⟩] (List.replicate 72 0) 1
      rfl rfl rfl (by decide) (by decide) rfl rfl (by decide)).elim
      fun h' hx => hx.elim fun dma' hy => ⟨h', dma', hy.1, hy.2.1, hy.2.2.2.2.2.2.2.1⟩⟩

/-- The encoder on an instance whose two buffers were freed never returns normally: its
first access goes through a dangling pointer. -/
theorem Recalc_dangling (handle : NP32_Instance) (hcol : handle.LED_Col_Buffer = .freed)
    (hdma : handle._DMA_Buffer = .freed) (fuel : Nat) :
    ∃ e, _NP32_Recalc_DMA_Buf fuel handle = .error e := by
  have hst : ∀ (i : Int) (v : Nat), handle.storeDMA i v = .error .badPointer := by
    intro i v; simp [NP32_Instance.storeDMA, hdma, Ptr.store]
  have hld : ∀ (i : Int), handle.loadCol i = .error .badPointer := by
    intro i; simp [NP32_Instance.loadCol, hcol, Ptr.load]
  by_cases hflag : handle.LED_Disable_Flag = 1
  · cases fuel with
    | zero =>
      exact ⟨.outOfFuel, by
        simp [_NP32_Recalc_DMA_Buf, hflag, whileLoop, NP32_WS2812_ZERO_PERIODS, bind,
          Except.bind]⟩
    | succ fuel =>
      exact ⟨.badPointer, by
        simp [_NP32_Recalc_DMA_Buf, hflag, whileLoop, NP32_WS2812_ZERO_PERIODS, bind,
          Except.bind, zeroBody, hst]⟩
  · by_cases hL : 0 < handle.LED_Count
    · cases fuel with
      | zero =>
        exact ⟨.outOfFuel, by
          simp [_NP32_Recalc_DMA_Buf, hflag, whileLoop, hL, bind, Except.bind]⟩
      | succ fuel =>
        exact ⟨.badPointer, by
          simp [_NP32_Recalc_DMA_Buf, hflag, whileLoop, hL, bind, Except.bind, pixelBody,
            hld]⟩
    · cases fuel with
      | zero =>
        exact ⟨.outOfFuel, by
          simp [_NP32_Recalc_DMA_Buf, hflag, whileLoop, hL, NP32_WS2812_ZERO_PERIODS, bind,
            Except.bind]⟩
      | succ fuel =>
        exact ⟨.badPointer, by
          simp [_NP32_Recalc_DMA_Buf, hflag, whileLoop, hL, NP32_WS2812_ZERO_PERIODS, bind,
            Except.bind, resetBody, hst]⟩

/-- `NP32_Update` on an instance whose two buffers were freed never returns normally:
the pointers are not `NULL`, so the check passes, and either the wait does not end or the
encoder writes through the dangling timing-buffer pointer. -/
theorem Update_dangling (handle : NP32_Instance) (hcol : handle.LED_Col_Buffer = .freed)
    (hdma : handle._DMA_Buffer = .freed) (fuel : Nat) (startDMA : Ptr Nat → Nat → Int) :
    ∃ e, NP32_Update fuel startDMA handle = .error e := by
  by_cases hbusy : handle.DMA_Busy_Flag = 0
  · have hw : whileLoop (fun h : NP32_Instance => decide (h.DMA_Busy_Flag ≠ 0))
        (fun h => .ok h) fuel handle = .ok handle :=
      whileLoop_done _ _ fuel handle (by simp [hbusy])
    obtain ⟨e, he⟩ := Recalc_dangling handle hcol hdma fuel
    exact ⟨e, by
      simp only [NP32_Update, hcol, hdma, Ptr.isNull, Bool.or_self, Bool.false_eq_true,
        if_false, bind, Except.bind, hw, he]⟩
  · exact ⟨.outOfFuel, Update_busy fuel startDMA handle (by simp [hcol, Ptr.isNull])
      (by simp [hdma, Ptr.isNull]) hbusy⟩

/-- C17 (the code departs from the claim): `NP32_DeInit` on the one-pixel initialised
idle instance returns with the LED count 0, but the two pointers are left dangling, not
`NULL`; so the check of a following `NP32_Update` passes and the call does not return -1:
whatever the budget and the delegate it never returns normally, and with a budget of one
iteration it stops at a write through the freed timing-buffer pointer. -/
theorem NP32_DeInit_leaves_dangling_pointers :
    ∃ hT, NP32_DeInit instGreen = .ok hT
      ∧ hT.LED_Count = 0
      ∧ hT.LED_Col_Buffer = .freed ∧ hT._DMA_Buffer = .freed
      ∧ (∀ (fuel : Nat) (startDMA : Ptr Nat → Nat → Int),
          ∃ e, NP32_Update fuel startDMA hT = .error e)
      ∧ NP32_Update 1 (fun _ _ => 0) hT = .error .badPointer :=
  ⟨{ instGreen with LED_Count := 0, LED_Col_Buffer := .freed, _DMA_Buffer := .freed },
    rfl, rfl, rfl, rfl, fun fuel startDMA => Update_dangling _ rfl rfl fuel startDMA, rfl⟩

/-- What `NP32_Init` returns: 0 exactly when the LED count is not 0, both allocations
succeed and the delegate is not `NULL`; the instance then differs from the one at the
call only in the two buffers. -/
theorem Init_result (mem_col mem_dma : Bool) (handle : NP32_Instance) :
    ((NP32_Init mem_col mem_dma handle).1 = 0 ↔
      (handle.LED_Count ≠ 0 ∧ mem_col = true ∧ mem_dma = true
        ∧ handle.StartDMA_Call ≠ none))
    ∧ ((NP32_Init mem_col mem_dma handle).1 = 0 →
        (NP32_Init mem_col mem_dma handle).2 = { handle with
          LED_Col_Buffer := Ptr.live (List.replicate handle.LED_Count ⟨0, 0, 0⟩),
          _DMA_Buffer := Ptr.live (List.replicate (handle.LED_Count * 24 + 48) 0) })
    ∧ (NP32_Init mem_col mem_dma handle).2.DMA_Busy_Flag = handle.DMA_Busy_Flag := by
  unfold NP32_Init
  by_cases hL : handle.LED_Count = 0
  · simp [hL]
  · cases mem_col <;> cases mem_dma <;> cases hfn : handle.StartDMA_Call <;>
      simp [hL, callocRGB, callocU16, Ptr.isNull, hfn, NP32_WS2812_ZERO_PERIODS]

/-- C18, as the claim states it, fails: on a caller-prepared one-LED instance whose busy
flag happens to be set, `NP32_Init` succeeds (both allocations succeed, the delegate is
not `NULL`) and the busy flag is still 1 afterwards, so the first `NP32_Update` never gets
past its wait. -/
theorem NP32_Init_busy_counterexample :
    (NP32_Init true true instRaw).1 = 0
    ∧ (NP32_Init true true instRaw).2.DMA_Busy_Flag = 1
    ∧ ∀ (fuel : Nat) (startDMA : Ptr Nat → Nat → Int),
        NP32_Update fuel startDMA (NP32_Init true true instRaw).2 = .error .outOfFuel :=
  ⟨rfl, rfl, fun fuel startDMA => Update_busy fuel startDMA _ rfl rfl (by decide)⟩

/-- C18, amended: `NP32_Init` does not write `DMA_Busy_Flag`.  Whatever the instance before
the call and the outcome of the call, the flag afterwards is the flag before; hence after
a successful `NP32_Init` the controller is Idle exactly when the flag was 0 before the
call, and when it was not 0 the first `NP32_Update` never gets past its wait. -/
theorem NP32_Init_keeps_busy_flag (mem_col mem_dma : Bool) (handle : NP32_Instance) :
    (NP32_Init mem_col mem_dma handle).2.DMA_Busy_Flag = handle.DMA_Busy_Flag
    ∧ ((NP32_Init mem_col mem_dma handle).1 = 0 →
        ((NP32_Init mem_col mem_dma handle).2.DMA_Busy_Flag = 0 ↔ handle.DMA_Busy_Flag = 0))
    ∧ ((NP32_Init mem_col mem_dma handle).1 = 0 → handle.DMA_Busy_Flag ≠ 0 →
        ∀ (fuel : Nat) (startDMA : Ptr Nat → Nat → Int),
          NP32_Update fuel startDMA (NP32_Init mem_col mem_dma handle).2
            = .error .outOfFuel) := by
  obtain ⟨-, hres, hflag⟩ := Init_result mem_col mem_dma handle
  refine ⟨hflag, fun _ => by rw [hflag], ?_⟩
  intro hok hbusy fuel startDMA
  have e := hres hok
  exact Update_busy fuel startDMA _ (by rw [e]; rfl) (by rw [e]; rfl) (by rw [hflag]; exact hbusy)

/-! ## Frame of the timing buffer -/

/-- Partial correctness of a `while` loop: a property kept by every successful run of the
body holds when the loop returns. -/
theorem whileLoop_ok_inv {σ : Type} (cond : σ → Bool) (body : σ → Except Fault σ)
    (I : σ → Prop) (hstep : ∀ s s', I s → body s = .ok s' → I s') :
    ∀ (fuel : Nat) (s s' : σ), I s → whileLoop cond body fuel s = .ok s' → I s' := by
  intro fuel
  induction fuel with
  | zero =>
    intro s s' hs hr
    cases hc : cond s <;> simp [whileLoop, hc] at hr
    subst hr; exact hs
  | succ fuel ih =>
    intro s s' hs hr
    cases hc : cond s
    · simp [whileLoop, hc] at hr
      subst hr; exact hs
    · cases hb : body s with
      | error e => simp [whileLoop, hc, hb] at hr
      | ok t =>
        simp [whileLoop, hc, hb] at hr
        exact ih t s' (hstep s t hs hb) hr

/-- A successful store into the pixel buffer changes no other field. -/
theorem storeCol_frame (h h' : NP32_Instance) (i : Int) (v : NP32_RGB)
    (hs : h.storeCol i v = .ok h') :
    h'._DMA_Buffer = h._DMA_Buffer ∧ h'.DMA_Busy_Flag = h.DMA_Busy_Flag
      ∧ h'.LED_Count = h.LED_Count ∧ h'.LED_Disable_Flag = h.LED_Disable_Flag := by
  unfold NP32_Instance.storeCol at hs
  cases hp : h.LED_Col_Buffer.store i v with
  | error e => simp [hp] at hs
  | ok p =>
    simp [hp] at hs
    subst hs
    exact ⟨rfl, rfl, rfl, rfl⟩

theorem SetLED_frame (h h' : NP32_Instance) (i : Nat) (rgb : NP32_RGB) (r : Int)
    (hr : NP32_SetLED_RGB h i rgb = .ok (r, h')) : h'._DMA_Buffer = h._DMA_Buffer := by
  unfold NP32_SetLED_RGB at hr
  split at hr
  · simp at hr; rw [← hr.2]
  · cases hs : h.storeCol (i : Int) rgb with
    | error e => simp [hs] at hr
    | ok t =>
      simp [hs] at hr
      rw [← hr.2]
      exact (storeCol_frame h t _ _ hs).1

theorem SetAll_frame (fuel : Nat) (h h' : NP32_Instance) (rgb : NP32_RGB) (r : Int)
    (hr : NP32_SetAllLEDs_RGB fuel h rgb = .ok (r, h')) :
    h'._DMA_Buffer = h._DMA_Buffer := by
  unfold NP32_SetAllLEDs_RGB at hr
  cases hw : whileLoop ltCount (NP32_SetAllLEDs_RGB.body rgb) fuel (0, h) with
  | error e => simp [hw] at hr
  | ok t =>
    simp [hw] at hr
    rw [← hr.2]
    refine whileLoop_ok_inv ltCount (NP32_SetAllLEDs_RGB.body rgb)
      (fun s => s.2._DMA_Buffer = h._DMA_Buffer) ?_ fuel (0, h) t rfl hw
    intro s s' hs hb
    unfold NP32_SetAllLEDs_RGB.body at hb
    cases hst : s.2.storeCol (s.1 : Int) rgb with
    | error e => simp [hst] at hb
    | ok u =>
      simp [hst] at hb
      rw [← hb]
      exact (storeCol_frame s.2 u _ _ hst).1.trans hs

theorem SetSpan_frame (fuel : Nat) (h h' : NP32_Instance) (lo hi : Nat) (rgb : NP32_RGB)
    (r : Int) (hr : NP32_SetLEDSpan_RGB fuel h lo hi rgb = .ok (r, h')) :
    h'._DMA_Buffer = h._DMA_Buffer := by
  unfold NP32_SetLEDSpan_RGB at hr
  split at hr
  · simp at hr; rw [← hr.2]
  · cases hw : whileLoop (fun s : Nat × NP32_Instance => decide (s.1 ≤ hi))
        (NP32_SetLEDSpan_RGB.body rgb) fuel (lo, h) with
    | error e => simp [hw] at hr
    | ok t =>
      simp [hw] at hr
      rw [← hr.2]
      refine whileLoop_ok_inv _ (NP32_SetLEDSpan_RGB.body rgb)
        (fun s => s.2._DMA_Buffer = h._DMA_Buffer) ?_ fuel (lo, h) t rfl hw
      intro s s' hs hb
      unfold NP32_SetLEDSpan_RGB.body at hb
      cases hst : s.2.storeCol (s.1 : Int) rgb with
      | error e => simp [hst] at hb
      | ok u =>
        simp [hst] at hb
        rw [← hb]
        exact (storeCol_frame s.2 u _ _ hst).1.trans hs

/-- A bind in the `Except` monad returns only if both of its parts return. -/
theorem bind_ok {α β : Type} (x : Except Fault α) (f : α → Except Fault β) (b : β)
    (h : (x >>= f) = .ok b) : ∃ a, x = .ok a ∧ f a = .ok b := by
  cases x with
  | error e => simp [bind, Except.bind] at h
  | ok a => exact ⟨a, rfl, h⟩

theorem ShiftLeft_body_frame (n : Nat) (s s' : Nat × NP32_Instance)
    (hb : NP32_ShiftLeft.body n s = .ok s') : s'.2._DMA_Buffer = s.2._DMA_Buffer := by
  unfold NP32_ShiftLeft.body at hb
  dsimp only at hb
  split at hb
  · obtain ⟨y, hst, hp⟩ := bind_ok _ _ _ hb
    simp only [pure, Except.pure, Except.ok.injEq] at hp
    rw [← hp]
    exact (storeCol_frame _ _ _ _ hst).1
  · obtain ⟨v, -, h2⟩ := bind_ok _ _ _ hb
    obtain ⟨y, hst, hp⟩ := bind_ok _ _ _ h2
    simp only [pure, Except.pure, Except.ok.injEq] at hp
    rw [← hp]
    exact (storeCol_frame _ _ _ _ hst).1

theorem ShiftLeft_frame (fuel : Nat) (h h' : NP32_Instance) (n : Nat) (r : Int)
    (hr : NP32_ShiftLeft fuel h n = .ok (r, h')) : h'._DMA_Buffer = h._DMA_Buffer := by
  unfold NP32_ShiftLeft at hr
  obtain ⟨t, hw, hp⟩ := bind_ok _ _ _ hr
  simp only [pure, Except.pure, Except.ok.injEq, Prod.mk.injEq] at hp
  rw [← hp.2]
  exact whileLoop_ok_inv ltCount (NP32_ShiftLeft.body n)
    (fun s => s.2._DMA_Buffer = h._DMA_Buffer)
    (fun s s' hs hb => (ShiftLeft_body_frame n s s' hb).trans hs) fuel (0, h) t rfl hw

theorem RotateLeft_body_frame (n : Nat) (s s' : Nat × Ptr NP32_RGB × NP32_Instance)
    (hb : NP32_RotateLeft.body n s = .ok s') :
    s'.2.2._DMA_Buffer = s.2.2._DMA_Buffer := by
  unfold NP32_RotateLeft.body at hb
  dsimp only at hb
  have inner : ∀ b : Ptr NP32_RGB,
      (if u16 ((n : Int) + (s.1 : Int)) ≥ s.2.2.LED_Count then do
          let v ← b.load ((u16 ((n : Int) + (s.1 : Int)) : Int) - (s.2.2.LED_Count : Int))
          let y ← s.2.2.storeCol (s.1 : Int) v
          pure (u16 ((s.1 : Int) + 1), b, y)
        else do
          let v ← s.2.2.loadCol (u16 ((n : Int) + (s.1 : Int)) : Int)
          let y ← s.2.2.storeCol (s.1 : Int) v
          pure (u16 ((s.1 : Int) + 1), b, y)) = Except.ok s' →
      s'.2.2._DMA_Buffer = s.2.2._DMA_Buffer := by
    intro b hi
    split at hi
    · obtain ⟨v, -, h2⟩ := bind_ok _ _ _ hi
      obtain ⟨y, hst, hp⟩ := bind_ok _ _ _ h2
      simp only [pure, Except.pure, Except.ok.injEq] at hp
      rw [← hp]
      exact (storeCol_frame _ _ _ _ hst).1
    · obtain ⟨v, -, h2⟩ := bind_ok _ _ _ hi
      obtain ⟨y, hst, hp⟩ := bind_ok _ _ _ h2
      simp only [pure, Except.pure, Except.ok.injEq] at hp
      rw [← hp]
      exact (storeCol_frame _ _ _ _ hst).1
  split at hb
  · obtain ⟨v, -, h2⟩ := bind_ok _ _ _ hb
    obtain ⟨b, -, h3⟩ := bind_ok _ _ _ h2
    exact inner b h3
  · obtain ⟨b, -, h3⟩ := bind_ok _ _ _ hb
    exact inner b h3

theorem RotateLeft_frame (mem_ok : Bool) (fuel : Nat) (h h' : NP32_Instance) (n : Nat)
    (r : Int) (hr : NP32_RotateLeft mem_ok fuel h n = .ok (r, h')) :
    h'._DMA_Buffer = h._DMA_Buffer := by
  unfold NP32_RotateLeft at hr
  split at hr
  · simp at hr; rw [← hr.2]
  · obtain ⟨t, hw, hp⟩ := bind_ok _ _ _ hr
    simp only [pure, Except.pure, Except.ok.injEq, Prod.mk.injEq] at hp
    rw [← hp.2]
    exact whileLoop_ok_inv _ (NP32_RotateLeft.body n)
      (fun s => s.2.2._DMA_Buffer = h._DMA_Buffer)
      (fun s s' hs hb => (RotateLeft_body_frame n s s' hb).trans hs) fuel _ t rfl hw

/-- A `while` loop with an empty body returns only in the state it started in, and only
if its test fails there. -/
theorem whileLoop_empty_ok {σ : Type} (cond : σ → Bool) :
    ∀ (fuel : Nat) (s s' : σ), whileLoop cond (fun t => .ok t) fuel s = .ok s' →
      s' = s ∧ cond s = false := by
  intro fuel s s' hr
  cases hc : cond s
  · rw [whileLoop_done cond _ fuel s hc] at hr
    exact ⟨(Except.ok.inj hr).symm, rfl⟩
  · rw [whileLoop_spin cond s hc fuel] at hr
    simp at hr

/-- When `NP32_Update` returns, either a buffer pointer was `NULL` and the instance is
unchanged, or the busy flag was 0 at the call. -/
theorem Update_ok_cases (fuel : Nat) (startDMA : Ptr Nat → Nat → Int)
    (h h' : NP32_Instance) (r : Int) (calls : List DMACall)
    (hr : NP32_Update fuel startDMA h = .ok (r, h', calls)) :
    (h' = h ∧ r = -1 ∧ calls = [] ∧ (h.LED_Col_Buffer = .null ∨ h._DMA_Buffer = .null))
    ∨ (h.DMA_Busy_Flag = 0 ∧ r = 0 ∧ h'.DMA_Busy_Flag = 1
        ∧ ∃ hrec, _NP32_Recalc_DMA_Buf fuel h = .ok hrec
          ∧ h' = { hrec with DMA_Busy_Flag := 1 }) := by
  unfold NP32_Update at hr
  split at hr
  · rename_i hnull
    simp only [Except.ok.injEq, Prod.mk.injEq] at hr
    refine Or.inl ⟨hr.2.1.symm, hr.1.symm, hr.2.2.symm, ?_⟩
    simp only [Bool.or_eq_true] at hnull
    rcases hnull with hn | hn
    · left; revert hn; cases h.LED_Col_Buffer <;> simp [Ptr.isNull]
    · right; revert hn; cases h._DMA_Buffer <;> simp [Ptr.isNull]
  · obtain ⟨h1, hw, hr2⟩ := bind_ok _ _ _ hr
    obtain ⟨e1, hc⟩ := whileLoop_empty_ok _ fuel h h1 hw
    subst e1
    obtain ⟨hrec, hre, hr3⟩ := bind_ok _ _ _ hr2
    right
    simp only [decide_eq_false_iff_not, ne_eq, not_not] at hc
    dsimp only at hr3
    split at hr3
    · simp at hr3
    · simp only [pure, Except.pure, Except.ok.injEq, Prod.mk.injEq] at hr3
      exact ⟨hc, hr3.1.symm, by rw [← hr3.2.1], hrec, hre, hr3.2.1.symm⟩

/-! ## The step relation -/

/-- Every step other than `NP32_Update` leaves the timing buffer as it was. -/
theorem Step_frame (op : Op) (h h' : NP32_Instance) (hs : Step op h h') (hop : op ≠ .update) :
    h'._DMA_Buffer = h._DMA_Buffer := by
  cases hs with
  | setLED _ _ i rgb r hr => exact SetLED_frame h h' i rgb r hr
  | setAll _ _ fuel rgb r hr => exact SetAll_frame fuel h h' rgb r hr
  | setSpan _ _ fuel lo hi rgb r hr => exact SetSpan_frame fuel h h' lo hi rgb r hr
  | clearAll _ _ fuel r hr => exact SetAll_frame fuel h h' NP32_COL_BLACK r hr
  | shiftLeft _ _ fuel n r hr => exact ShiftLeft_frame fuel h h' n r hr
  | rotateLeft _ _ mem_ok fuel n r hr => exact RotateLeft_frame mem_ok fuel h h' n r hr
  | dmaComplete _ =>
    unfold NP32_DMAComplete_Callback
    split <;> rfl
  | update _ _ fuel startDMA r calls hr => exact absurd rfl hop

/-! ## The encoder on large LED counts -/

theorem u16_lt (x : Int) : u16 x < 65536 := by
  unfold u16; omega

/-- A successful store into the timing buffer changes no other field. -/
theorem storeDMA_frame (h h' : NP32_Instance) (i : Int) (v : Nat)
    (hs : h.storeDMA i v = .ok h') :
    h'.LED_Count = h.LED_Count ∧ h'.LED_Col_Buffer = h.LED_Col_Buffer
      ∧ h'.LED_Disable_Flag = h.LED_Disable_Flag := by
  unfold NP32_Instance.storeDMA at hs
  cases hp : h._DMA_Buffer.store i v with
  | error e => simp [hp] at hs
  | ok p =>
    simp [hp] at hs
    subst hs
    exact ⟨rfl, rfl, rfl⟩

/-- The disable-mode loop of the encoder never returns when `LED_Count * 24 + 48` exceeds
65535: its `uint16_t` counter `i_dma` stays below the bound for ever. -/
theorem Recalc_disabled_never (handle : NP32_Instance) (hflag : handle.LED_Disable_Flag = 1)
    (hN : 65536 ≤ handle.LED_Count * 24 + 48) (fuel : Nat) :
    ∃ e, _NP32_Recalc_DMA_Buf fuel handle = .error e := by
  obtain ⟨e, he⟩ := whileLoop_never
    (fun s : Nat × NP32_Instance =>
      decide (s.1 < s.2.LED_Count * 24 + NP32_WS2812_ZERO_PERIODS)) zeroBody
    (fun s => s.1 < 65536 ∧ s.2.LED_Count = handle.LED_Count)
    (by
      rintro ⟨i, h⟩ ⟨h1, h2⟩
      dsimp only at h1 h2
      refine ⟨by simp only [decide_eq_true_eq, NP32_WS2812_ZERO_PERIODS, h2]; omega, ?_⟩
      cases hb : zeroBody (i, h) with
      | error e => exact Or.inl ⟨e, rfl⟩
      | ok s' =>
        refine Or.inr ⟨s', rfl, ?_⟩
        unfold zeroBody at hb
        obtain ⟨y, hst, hp⟩ := bind_ok _ _ _ hb
        simp only [pure, Except.pure, Except.ok.injEq] at hp
        rw [← hp]
        exact ⟨u16_lt ((i : Int) + 1), (storeDMA_frame _ _ _ _ hst).1.trans h2⟩)
    fuel (0, handle) ⟨by dsimp only; omega, rfl⟩
  exact ⟨e, by simp only [_NP32_Recalc_DMA_Buf, if_pos hflag, bind, Except.bind, he]⟩

/-- One `do ... while (b > 0)` loop of the encoder on a timing buffer of at least 65536
entries: every index the `uint16_t` counter can take is inside the buffer, so the loop
returns whatever `i_dma` is, wrapping included. -/
theorem bitLoop_large (val : Nat) (h : NP32_Instance) :
    ∀ (b fuel i_dma : Nat) (dma : List Nat), 0 < b → b ≤ 256 → b ≤ fuel →
      i_dma < 65536 → 65536 ≤ dma.length →
      ∃ i' dma', doWhile (bitBody val) (fun t => decide (t.1 > 0)) fuel
          (b, i_dma, { h with _DMA_Buffer := .live dma })
          = .ok (0, i', { h with _DMA_Buffer := .live dma' })
        ∧ i' < 65536 ∧ dma'.length = dma.length := by
  intro b
  induction b with
  | zero => intro _ _ _ h0; omega
  | succ b ih =>
    intro fuel i_dma dma _ hb hfuel hi hlen
    obtain ⟨fuel, rfl⟩ : ∃ f, fuel = f + 1 := ⟨fuel - 1, by omega⟩
    have hbody : bitBody val (b + 1, i_dma, { h with _DMA_Buffer := .live dma })
        = .ok (b, u16 ((i_dma : Int) + 1),
            { h with _DMA_Buffer := .live (dma.set i_dma (NP32_RESOLVE_BIT_TIME val b)) }) := by
      simp only [bitBody, bind, Except.bind, pure, Except.pure]
      rw [storeDMA_live _ dma i_dma _ rfl (by omega)]
      have e1 : u8 (((b + 1 : Nat) : Int) - 1) = b := by
        have := u8_pred (b + 1) (by omega) hb
        simpa using this
      simp only [e1]
    by_cases hb0 : b = 0
    · subst hb0
      exact ⟨u16 ((i_dma : Int) + 1), dma.set i_dma (NP32_RESOLVE_BIT_TIME val 0),
        by simp [doWhile, hbody], u16_lt _, by simp⟩
    · obtain ⟨i', dma', hr, hi', hl⟩ := ih fuel (u16 ((i_dma : Int) + 1))
        (dma.set i_dma (NP32_RESOLVE_BIT_TIME val b)) (by omega) (by omega) (by omega)
        (u16_lt _) (by simpa using hlen)
      refine ⟨i', dma', ?_, hi', by simpa using hl⟩
      have hpos : 0 < b := by omega
      simp only [doWhile, hbody, gt_iff_lt, hpos, decide_True, if_true]
      exact hr

/-- One iteration of the pixel loop of the encoder on a timing buffer of at least 65536
entries. -/
theorem pixelBody_large (h : NP32_Instance) (col : List NP32_RGB) (dma : List Nat)
    (i i_dma0 fuel : Nat) (hcol : h.LED_Col_Buffer = .live col) (hi : i < col.length)
    (hi16 : i + 1 < 65536) (hfuel : 8 ≤ fuel) (hlen : 65536 ≤ dma.length) :
    ∃ i' dma', pixelBody fuel (i, i_dma0, { h with _DMA_Buffer := .live dma })
        = .ok (i + 1, i', { h with _DMA_Buffer := .live dma' })
      ∧ i' < 65536 ∧ dma'.length = dma.length := by
  obtain ⟨i1, d1, hr1, hi1, hl1⟩ := bitLoop_large col[i].G h 8 fuel (u16 ((i : Int) * 24)) dma
    (by omega) (by omega) hfuel (u16_lt _) hlen
  obtain ⟨i2, d2, hr2, hi2, hl2⟩ := bitLoop_large col[i].R h 8 fuel i1 d1
    (by omega) (by omega) hfuel hi1 (by omega)
  obtain ⟨i3, d3, hr3, hi3, hl3⟩ := bitLoop_large col[i].B h 8 fuel i2 d2
    (by omega) (by omega) hfuel hi2 (by omega)
  refine ⟨i3, d3, ?_, hi3, by omega⟩
  have hload : ({ h with _DMA_Buffer := .live dma } : NP32_Instance).loadCol (i : Int)
      = .ok col[i] := loadCol_live _ col i hcol hi
  simp only [pixelBody, bind, Except.bind, pure, Except.pure, hload, hr1, hr2, hr3,
    u16_succ i hi16]

/-- The encoder with the disable flag not set on a timing buffer of at least 65536
entries: it returns, and only the contents of the timing buffer change. -/
theorem Recalc_enabled_large (handle : NP32_Instance) (col : List NP32_RGB) (dma : List Nat)
    (fuel : Nat) (hcol : handle.LED_Col_Buffer = .live col)
    (hclen : col.length = handle.LED_Count) (hdma : handle._DMA_Buffer = .live dma)
    (hlen : 65536 ≤ dma.length) (hL : handle.LED_Count ≤ 65535)
    (hflag : handle.LED_Disable_Flag ≠ 1) (hfuel : handle.LED_Count + 48 ≤ fuel) :
    ∃ dma', _NP32_Recalc_DMA_Buf fuel handle = .ok { handle with _DMA_Buffer := .live dma' }
      ∧ dma'.length = dma.length := by
  obtain ⟨⟨i', id', h'⟩, hr, ⟨hi1, hi2, d1, hs2, hl1⟩, hc⟩ :=
    whileLoop_inv (fun s : Nat × Nat × NP32_Instance => decide (s.1 < s.2.2.LED_Count))
      (pixelBody fuel)
      (fun s => s.1 ≤ handle.LED_Count ∧ s.2.1 < 65536 ∧
        ∃ d, s.2.2 = { handle with _DMA_Buffer := .live d } ∧ d.length = dma.length)
      (fun s => handle.LED_Count - s.1)
      (by
        rintro ⟨i, id, hh⟩ ⟨h1, h2, d, e, hl⟩ hc
        dsimp only at h1 h2 e
        subst e
        simp only [decide_eq_true_eq] at hc
        obtain ⟨i2, d', hb, hi2, hl'⟩ := pixelBody_large handle col d i id fuel hcol
          (by omega) (by omega) (by omega) (by omega)
        exact ⟨(i + 1, i2, { handle with _DMA_Buffer := .live d' }), hb,
          ⟨by dsimp only; omega, hi2, d', rfl, by omega⟩, by dsimp only; omega⟩)
      fuel (0, 0, handle)
      ⟨by dsimp only; omega, by dsimp only; omega, dma, inst_eta_dma handle dma hdma, rfl⟩
      (by dsimp only; omega)
  dsimp only at hi1 hi2 hs2
  subst hs2
  obtain ⟨⟨j', jd', g'⟩, hr2, ⟨-, -, d2, hs3, hl2⟩, -⟩ :=
    whileLoop_inv (fun s : Nat × Nat × NP32_Instance =>
        decide (s.1 < NP32_WS2812_ZERO_PERIODS)) resetBody
      (fun s => s.1 ≤ 48 ∧ s.2.1 < 65536 ∧
        ∃ d, s.2.2 = { handle with _DMA_Buffer := .live d } ∧ d.length = dma.length)
      (fun s => 48 - s.1)
      (by
        rintro ⟨i, id, hh⟩ ⟨h1, h2, d, e, hl⟩ hc
        dsimp only at h1 h2 e
        subst e
        simp only [decide_eq_true_eq, NP32_WS2812_ZERO_PERIODS] at hc
        refine ⟨(i + 1, u16 ((id : Int) + 1),
            { handle with _DMA_Buffer := .live (d.set id 0) }), ?_,
          ⟨by dsimp only; omega, u16_lt _, d.set id 0, rfl, by simpa using hl⟩,
          by dsimp only; omega⟩
        simp only [resetBody, bind, Except.bind, pure, Except.pure]
        rw [storeDMA_live _ d id 0 rfl (by omega)]
        simp only [u16_succ i (by omega)])
      fuel (0, id', { handle with _DMA_Buffer := .live d1 })
      ⟨by dsimp only; omega, hi2, d1, rfl, hl1⟩
      (by dsimp only; omega)
  dsimp only at hs3
  subst hs3
  exact ⟨d2, by
    simp only [_NP32_Recalc_DMA_Buf, if_neg hflag, bind, Except.bind, pure, Except.pure, hr,
      hr2], hl2⟩

/-- The encoder with the disable flag not set is total on a well-formed instance: for
every `LED_Count <= 65535` it returns, every write falling inside the timing buffer of
`LED_Count * 24 + 48` entries, and only the contents of that buffer change. -/
theorem Recalc_enabled_total (handle : NP32_Instance) (col : List NP32_RGB) (dma : List Nat)
    (fuel : Nat) (hcol : handle.LED_Col_Buffer = .live col)
    (hclen : col.length = handle.LED_Count) (hdma : handle._DMA_Buffer = .live dma)
    (hdlen : dma.length = handle.LED_Count * 24 + 48) (hL : handle.LED_Count ≤ 65535)
    (hflag : handle.LED_Disable_Flag ≠ 1) (hfuel : handle.LED_Count + 48 ≤ fuel) :
    ∃ dma', _NP32_Recalc_DMA_Buf fuel handle = .ok { handle with _DMA_Buffer := .live dma' }
      ∧ dma'.length = dma.length := by
  by_cases hN : handle.LED_Count * 24 + 48 ≤ 65535
  · obtain ⟨dma', hr, hl, -⟩ := Recalc_enabled handle col dma fuel hcol hclen hdma hdlen
      hN hflag hfuel
    exact ⟨dma', hr, hl⟩
  · exact Recalc_enabled_large handle col dma fuel hcol hclen hdma (by omega) hL hflag hfuel

/-! ## Large LED counts: element count and blackout -/

/-- C19 (the code departs from the claim): on the idle, enabled instance of 2729 LEDs,
whose timing buffer has `2729 * 24 + 48 = 65544` entries, `NP32_Update` returns 0 after
invoking the delegate once with the element count 8: the count is converted to the
`uint16_t` parameter `len`, and `65544 mod 65536 = 8`. -/
theorem NP32_Update_count_truncated (startDMA : Ptr Nat → Nat → Int) :
    ∃ h' dma', NP32_Update 2777 startDMA instLarge
        = .ok (0, h', [⟨.live dma', 8, startDMA (.live dma') 8⟩])
      ∧ dma'.length = 65544
      ∧ instLarge.LED_Count * 24 + 48 = 65544 := by
  obtain ⟨dma', hr, hl⟩ := Recalc_enabled_total instLarge (List.replicate 2729 ⟨0, 0, 0⟩)
    (List.replicate 65544 0) 2777 rfl (List.length_replicate 2729 _) rfl
    (List.length_replicate 65544 _) (by decide) (by decide) (by decide)
  have hu := Update_idle 2777 startDMA instLarge _ 1 rfl rfl rfl hr rfl
  have e8 : u16 ((instLarge.LED_Count : Int) * 24 + (NP32_WS2812_ZERO_PERIODS : Int)) = 8 := by
    decide
  dsimp only at hu
  rw [e8] at hu
  exact ⟨_, dma', hu, hl.trans (List.length_replicate 65544 _), by decide⟩

/-- C20 (the code departs from the claim): on the instance of 2729 LEDs with the disable
flag set, `_NP32_Recalc_DMA_Buf` never returns, whatever the budget: the loop bound
`2729 * 24 + 48 = 65544` is above every value of the `uint16_t` counter `i_dma`.  With the
flag clear the encoder does return on the same LED count. -/
theorem Recalc_DMA_Buf_disabled_diverges :
    instLargeDisabled.LED_Count ≤ 65535
    ∧ instLargeDisabled.LED_Disable_Flag = 1
    ∧ (∀ fuel : Nat, ∃ e, _NP32_Recalc_DMA_Buf fuel instLargeDisabled = .error e)
    ∧ ∃ dma', _NP32_Recalc_DMA_Buf 2777 instLarge
        = .ok { instLarge with _DMA_Buffer := .live dma' } :=
  ⟨by decide, rfl, fun fuel => Recalc_disabled_never instLargeDisabled rfl (by decide) fuel,
    (Recalc_enabled_total instLarge (List.replicate 2729 ⟨0, 0, 0⟩)
      (List.replicate 65544 0) 2777 rfl (List.length_replicate 2729 _) rfl
      (List.length_replicate 65544 _) (by decide) (by decide) (by decide)).elim
      fun dma' hx => ⟨dma', hx.1⟩⟩

/-! ## Shift past the end and rotation bounds -/

/-- `NP32_ShiftLeft` with a 16-bit shift amount not below the length: it returns 0 and
every pixel is black.  Where the 16-bit sum `shift_amount + i` wraps, it falls on an
index below `i`, whose pixel the loop has already made black. -/
theorem ShiftLeft_all_black (handle : NP32_Instance) (col : List NP32_RGB) (n fuel : Nat)
    (hcol : handle.LED_Col_Buffer = .live col) (hclen : col.length = handle.LED_Count)
    (hL : handle.LED_Count ≤ 65535) (hn16 : n < 65536) (hn : handle.LED_Count ≤ n)
    (hfuel : handle.LED_Count ≤ fuel) :
    ∃ col', NP32_ShiftLeft fuel handle n
        = .ok (0, { handle with LED_Col_Buffer := .live col' })
      ∧ col'.length = col.length
      ∧ ∀ j, j < handle.LED_Count → col'[j]? = some NP32_COL_BLACK := by
  obtain ⟨⟨i', h'⟩, hr, ⟨hi1, cs', hs2, hl', hlo⟩, hc⟩ :=
    whileLoop_inv ltCount (NP32_ShiftLeft.body n)
      (fun s => s.1 ≤ handle.LED_Count ∧
        ∃ cs, s.2 = { handle with LED_Col_Buffer := .live cs } ∧ cs.length = col.length ∧
          ∀ j, j < s.1 → cs[j]? = some NP32_COL_BLACK)
      (fun s => handle.LED_Count - s.1)
      (by
        rintro ⟨i, h⟩ ⟨h1, cs, e, hl, hlo⟩ hc
        dsimp only at h1 e hlo
        subst e
        simp only [ltCount, decide_eq_true_eq] at hc
        have hi : i < cs.length := by omega
        refine ⟨_, ShiftLeft_body_eq _ cs n i rfl (by simpa using (by omega)) hi (by omega),
          ⟨by dsimp only; omega, _, rfl, by simpa using hl, ?_⟩,
          by dsimp only; omega⟩
        intro j hj
        dsimp only at hj
        rw [List.getElem?_set]
        by_cases hij : i = j
        · subst hij
          rw [if_pos rfl, if_pos hi]
          by_cases hs : (n + i) % 65536 < cs.length
          · rw [dif_pos hs, ← List.getElem?_eq_getElem hs]
            exact hlo _ (by omega)
          · rw [dif_neg hs]
        · rw [if_neg hij]
          exact hlo j (by omega))
      fuel (0, handle)
      ⟨by dsimp only; omega, col, by cases handle; simp_all, rfl,
        by intro j hj; dsimp only at hj; omega⟩
      (by dsimp only; omega)
  dsimp only at hi1 hs2 hlo hc
  simp only [ltCount, decide_eq_false_iff_not, not_lt] at hc
  subst hs2
  dsimp only at hc
  refine ⟨cs', ?_, hl', fun j hj => hlo j (by omega)⟩
  simp only [NP32_ShiftLeft, bind, Except.bind, pure, Except.pure, hr]

/-- C21: on an instance whose pixel buffer has `LED_Count` cells, `LED_Count <= 65535`,
and for every 16-bit shift amount not below `LED_Count`, `NP32_ShiftLeft` returns 0 and
leaves every pixel black (the zero-fill region is the whole buffer), also when the
16-bit sum `shift_amount + i` wraps around; no other field of the instance changes. -/
theorem NP32_ShiftLeft_fills_black (handle : NP32_Instance) (col : List NP32_RGB)
    (shift_amount fuel : Nat)
    (hcol : handle.LED_Col_Buffer = .live col) (hclen : col.length = handle.LED_Count)
    (hL : handle.LED_Count ≤ 65535)
    (hn16 : shift_amount < 65536) (hn : handle.LED_Count ≤ shift_amount)
    (hfuel : handle.LED_Count ≤ fuel) :
    ∃ col', NP32_ShiftLeft fuel handle shift_amount
        = .ok (0, { handle with LED_Col_Buffer := .live col' })
      ∧ col'.length = handle.LED_Count
      ∧ (∀ j, j < handle.LED_Count → col'[j]? = some NP32_COL_BLACK)
      ∧ col' = List.replicate (min shift_amount handle.LED_Count) NP32_COL_BLACK := by
  obtain ⟨col', hr, hl, hb⟩ := ShiftLeft_all_black handle col shift_amount fuel hcol hclen hL
    hn16 hn hfuel
  refine ⟨col', hr, by omega, hb, ?_⟩
  apply List.ext_getElem?
  intro j
  by_cases hj : j < handle.LED_Count
  · rw [hb j hj, List.getElem?_eq_getElem (by rw [List.length_replicate]; omega),
      List.getElem_replicate]
  · rw [List.getElem?_eq_none (by omega),
      List.getElem?_eq_none (by rw [List.length_replicate]; omega)]

/-- Witness for C21: the three-pixel instance shifted by 65535, where the 16-bit sum
wraps at the indices 1 and 2. -/
theorem NP32_ShiftLeft_fills_black_witness :
    instThree.LED_Col_Buffer = .live [⟨1, 1, 1⟩, ⟨2, 2, 2⟩, ⟨3, 3, 3⟩]
    ∧ [(⟨1, 1, 1⟩ : NP32_RGB), ⟨2, 2, 2⟩, ⟨3, 3, 3⟩].length = instThree.LED_Count
    ∧ instThree.LED_Count ≤ 65535
    ∧ 65535 < 65536 ∧ instThree.LED_Count ≤ 65535 ∧ instThree.LED_Count ≤ 3
    ∧ u16 ((65535 : Int) + 1) = 0
    ∧ ∃ col', NP32_ShiftLeft 3 instThree 65535
        = .ok (0, { instThree with LED_Col_Buffer := .live col' })
      ∧ col'.length = instThree.LED_Count
      ∧ (∀ j, j < instThree.LED_Count → col'[j]? = some NP32_COL_BLACK)
      ∧ col' = List.replicate (min 65535 instThree.LED_Count) NP32_COL_BLACK :=
  ⟨rfl, rfl, by decide, by decide, by decide, by decide, by decide,
    NP32_ShiftLeft_fills_black instThree _ 65535 3 rfl rfl (by decide) (by decide)
      (by decide) (by decide)⟩

/-- `NP32_RotateLeft` with a successful allocation returns for every rotate amount: every
access of its loop falls inside the scratch buffer of `rotate_amount` cells or inside the
pixel buffer of `LED_Count` cells. -/
theorem RotateLeft_returns (handle : NP32_Instance) (col : List NP32_RGB) (n fuel : Nat)
    (hcol : handle.LED_Col_Buffer = .live col) (hclen : col.length = handle.LED_Count)
    (hL : handle.LED_Count ≤ 65535) (hfuel : handle.LED_Count ≤ fuel) :
    ∃ col', NP32_RotateLeft true fuel handle n
        = .ok (0, { handle with LED_Col_Buffer := .live col' })
      ∧ col'.length = col.length := by
  obtain ⟨⟨i', buf', h'⟩, hr, ⟨hi1, -, cs', hs2, hl'⟩, hc⟩ :=
    whileLoop_inv (fun s : Nat × Ptr NP32_RGB × NP32_Instance =>
        decide (s.1 < s.2.2.LED_Count)) (NP32_RotateLeft.body n)
      (fun s => s.1 ≤ handle.LED_Count ∧ (∃ b, s.2.1 = Ptr.live b ∧ b.length = n) ∧
        ∃ cs, s.2.2 = { handle with LED_Col_Buffer := .live cs } ∧ cs.length = col.length)
      (fun s => handle.LED_Count - s.1)
      (by
        rintro ⟨i, buf, h⟩ ⟨h1, ⟨b, eb, hbl⟩, cs, e, hl⟩ hc
        dsimp only at h1 eb e
        subst e eb
        simp only [decide_eq_true_eq] at hc
        have hi : i < cs.length := by omega
        obtain ⟨b', v, hbody, hbl', -⟩ := RotateLeft_body_eq
          { handle with LED_Col_Buffer := .live cs } cs b n i rfl
          (by simpa using (by omega)) hbl hi (by omega)
        exact ⟨_, hbody,
          ⟨by dsimp only; omega, ⟨b', rfl, hbl'⟩, cs.set i v, rfl, by simpa using hl⟩,
          by dsimp only; omega⟩)
      fuel (0, Ptr.live (List.replicate n ⟨0, 0, 0⟩), handle)
      ⟨by dsimp only; omega, ⟨_, rfl, by simp⟩, col, by cases handle; simp_all, rfl⟩
      (by dsimp only; omega)
  dsimp only at hi1 hs2
  subst hs2
  refine ⟨cs', ?_, hl'⟩
  simp only [NP32_RotateLeft, callocRGB, if_true, bind, Except.bind, pure, Except.pure, hr]

/-- C22: on an instance whose pixel buffer has `LED_Count <= 65535` cells and for every
rotate amount, below the length or not, `NP32_RotateLeft` with a successful allocation
returns 0 (with a budget of `LED_Count` iterations) and leaves `LED_Count` and the length
of the pixel buffer unchanged.  In the model an access outside an allocation is a fault,
so returning means that every access was in bounds; the indices themselves are: `i`,
below `LED_Count` (and below `rotate_amount` where the scratch buffer is written);
`s - LED_Count`, below `rotate_amount`, where the 16-bit sum `s` is not below `LED_Count`;
and `s`, below `LED_Count`, otherwise. -/
theorem NP32_RotateLeft_in_bounds (handle : NP32_Instance) (col : List NP32_RGB)
    (rotate_amount fuel : Nat)
    (hcol : handle.LED_Col_Buffer = .live col) (hclen : col.length = handle.LED_Count)
    (hL : handle.LED_Count ≤ 65535) (hfuel : handle.LED_Count ≤ fuel) :
    (∃ h' col', NP32_RotateLeft true fuel handle rotate_amount = .ok (0, h')
      ∧ h' = { handle with LED_Col_Buffer := .live col' }
      ∧ h'.LED_Count = handle.LED_Count
      ∧ col'.length = handle.LED_Count)
    ∧ (∀ e, NP32_RotateLeft true fuel handle rotate_amount ≠ .error e)
    ∧ (∀ i, i < handle.LED_Count →
        (0 : Int) ≤ (i : Int) ∧ (i < rotate_amount → i < rotate_amount ∧ i < handle.LED_Count)
        ∧ (u16 ((rotate_amount : Int) + (i : Int)) ≥ handle.LED_Count →
            (0 : Int) ≤ (u16 ((rotate_amount : Int) + (i : Int)) : Int)
                - (handle.LED_Count : Int)
            ∧ (u16 ((rotate_amount : Int) + (i : Int)) : Int) - (handle.LED_Count : Int)
                < (rotate_amount : Int))
        ∧ (¬ u16 ((rotate_amount : Int) + (i : Int)) ≥ handle.LED_Count →
            u16 ((rotate_amount : Int) + (i : Int)) < handle.LED_Count)) := by
  obtain ⟨col', hr, hl⟩ := RotateLeft_returns handle col rotate_amount fuel hcol hclen hL hfuel
  refine ⟨⟨_, col', hr, rfl, rfl, by omega⟩, ?_, ?_⟩
  · intro e he
    rw [hr] at he
    exact Except.noConfusion he
  · intro i hi
    rw [u16_add]
    refine ⟨by omega, fun h => ⟨h, hi⟩, fun h => ⟨by omega, by omega⟩, fun h => by omega⟩

/-- Witness for C22: the three-pixel instance rotated by 7, an amount above the length. -/
theorem NP32_RotateLeft_in_bounds_witness :
    instThree.LED_Col_Buffer = .live [⟨1, 1, 1⟩, ⟨2, 2, 2⟩, ⟨3, 3, 3⟩]
    ∧ [(⟨1, 1, 1⟩ : NP32_RGB), ⟨2, 2, 2⟩, ⟨3, 3, 3⟩].length = instThree.LED_Count
    ∧ instThree.LED_Count ≤ 65535 ∧ instThree.LED_Count ≤ 3
    ∧ ∃ h' col', NP32_RotateLeft true 3 instThree 7 = .ok (0, h')
      ∧ h' = { instThree with LED_Col_Buffer := .live col' }
      ∧ h'.LED_Count = instThree.LED_Count
      ∧ col'.length = instThree.LED_Count :=
  ⟨rfl, rfl, by decide, by decide,
    (NP32_RotateLeft_in_bounds instThree _ 7 3 rfl rfl (by decide) (by decide)).1⟩

/-! ## A call of `NP32_Update` in progress: the timing buffer and the busy flag -/

/-- The statement-level run of `NP32_Update` spinning at the wait: with the busy flag set
and no interruption it never gets further. -/
theorem drive_spin (fuel : Nat) (startDMA : Ptr Nat → Nat → Int) (h : NP32_Instance)
    (hbusy : h.DMA_Busy_Flag ≠ 0) :
    ∀ (k : Nat) (calls : List DMACall),
      NP32_Update.drive fuel startDMA k .wait h calls = .error .outOfFuel := by
  intro k
  induction k with
  | zero => intro calls; simp [NP32_Update.drive]
  | succ k ih =>
    intro calls
    have hs : NP32_Update.step fuel startDMA .wait h = .ok (.wait, h, []) := by
      simp only [NP32_Update.step]; rw [if_pos hbusy]
    simp only [NP32_Update.drive, hs]
    exact ih _

/-- The function `NP32_Update` is the uninterrupted succession of its statements: for every
instance, budget and delegate, its result (value or fault) is that of the statement-level
run started at the `NULL` check. -/
theorem Update_eq_drive (fuel : Nat) (startDMA : Ptr Nat → Nat → Int) (h : NP32_Instance)
    (k : Nat) (hk : 5 ≤ k) :
    NP32_Update fuel startDMA h = NP32_Update.drive fuel startDMA k .check h [] := by
  obtain ⟨k, rfl⟩ : ∃ j, k = j + 5 := ⟨k - 5, by omega⟩
  by_cases hnull : (h.LED_Col_Buffer.isNull || h._DMA_Buffer.isNull) = true
  · have hs : NP32_Update.step fuel startDMA .check h = .ok (.ret (-1), h, []) := by
      simp only [NP32_Update.step]; rw [if_pos hnull]
    simp only [NP32_Update, NP32_Update.drive, hs]
    rw [if_pos hnull]; rfl
  · have hcn : h.LED_Col_Buffer.isNull = false := by
      cases hc : h.LED_Col_Buffer.isNull <;> simp_all
    have hdn : h._DMA_Buffer.isNull = false := by
      cases hd : h._DMA_Buffer.isNull <;> simp_all
    have hs0 : NP32_Update.step fuel startDMA .check h = .ok (.wait, h, []) := by
      simp only [NP32_Update.step]; rw [if_neg hnull]
    by_cases hbusy : h.DMA_Busy_Flag ≠ 0
    · rw [Update_busy fuel startDMA h hcn hdn hbusy]
      have hsb : NP32_Update.step fuel startDMA .wait h = .ok (.wait, h, []) := by
        simp only [NP32_Update.step]; rw [if_pos hbusy]
      simp only [NP32_Update.drive, hs0, hsb]
      exact (drive_spin fuel startDMA h hbusy _ _).symm
    · have hw : whileLoop (fun t : NP32_Instance => decide (t.DMA_Busy_Flag ≠ 0))
          (fun t => .ok t) fuel h = .ok h :=
        whileLoop_done _ _ fuel h (by simpa using hbusy)
      have hs1 : NP32_Update.step fuel startDMA .wait h = .ok (.encode, h, []) := by
        simp only [NP32_Update.step]; rw [if_neg hbusy]
      unfold NP32_Update
      rw [if_neg hnull]
      simp only [bind, Except.bind, hw]
      simp only [NP32_Update.drive, hs0, hs1]
      cases hrec : _NP32_Recalc_DMA_Buf fuel h with
      | error e =>
        have hs2 : NP32_Update.step fuel startDMA .encode h = .error e := by
          simp only [NP32_Update.step, hrec]
        simp only [hs2]
      | ok hr =>
        have hs2 : NP32_Update.step fuel startDMA .encode h = .ok (.setBusy, hr, []) := by
          simp only [NP32_Update.step, hrec]
        have hs3 : NP32_Update.step fuel startDMA .setBusy hr
            = .ok (.call, { hr with DMA_Busy_Flag := 1 }, []) := by
          simp only [NP32_Update.step]
        simp only [hs2, NP32_Update.drive, hs3]
        cases hfn : hr.StartDMA_Call with
        | none =>
          simp only [NP32_Update.step, hfn]
        | some fn =>
          simp only [NP32_Update.step, hfn, pure, Except.pure, List.append_nil, List.nil_append]
          cases k <;> rfl

/-! ### The busy flag under the pixel-buffer operations -/

theorem SetLED_flag (h h' : NP32_Instance) (i : Nat) (rgb : NP32_RGB) (r : Int)
    (hr : NP32_SetLED_RGB h i rgb = .ok (r, h')) : h'.DMA_Busy_Flag = h.DMA_Busy_Flag := by
  unfold NP32_SetLED_RGB at hr
  split at hr
  · simp at hr; rw [← hr.2]
  · cases hs : h.storeCol (i : Int) rgb with
    | error e => simp [hs] at hr
    | ok t =>
      simp [hs] at hr
      rw [← hr.2]
      exact (storeCol_frame h t _ _ hs).2.1

theorem SetAll_flag (fuel : Nat) (h h' : NP32_Instance) (rgb : NP32_RGB) (r : Int)
    (hr : NP32_SetAllLEDs_RGB fuel h rgb = .ok (r, h')) :
    h'.DMA_Busy_Flag = h.DMA_Busy_Flag := by
  unfold NP32_SetAllLEDs_RGB at hr
  cases hw : whileLoop ltCount (NP32_SetAllLEDs_RGB.body rgb) fuel (0, h) with
  | error e => simp [hw] at hr
  | ok t =>
    simp [hw] at hr
    rw [← hr.2]
    refine whileLoop_ok_inv ltCount (NP32_SetAllLEDs_RGB.body rgb)
      (fun s => s.2.DMA_Busy_Flag = h.DMA_Busy_Flag) ?_ fuel (0, h) t rfl hw
    intro s s' hs hb
    unfold NP32_SetAllLEDs_RGB.body at hb
    cases hst : s.2.storeCol (s.1 : Int) rgb with
    | error e => simp [hst] at hb
    | ok u =>
      simp [hst] at hb
      rw [← hb]
      exact (storeCol_frame s.2 u _ _ hst).2.1.trans hs

theorem SetSpan_flag (fuel : Nat) (h h' : NP32_Instance) (lo hi : Nat) (rgb : NP32_RGB)
    (r : Int) (hr : NP32_SetLEDSpan_RGB fuel h lo hi rgb = .ok (r, h')) :
    h'.DMA_Busy_Flag = h.DMA_Busy_Flag := by
  unfold NP32_SetLEDSpan_RGB at hr
  split at hr
  · simp at hr; rw [← hr.2]
  · cases hw : whileLoop (fun s : Nat × NP32_Instance => decide (s.1 ≤ hi))
        (NP32_SetLEDSpan_RGB.body rgb) fuel (lo, h) with
    | error e => simp [hw] at hr
    | ok t =>
      simp [hw] at hr
      rw [← hr.2]
      refine whileLoop_ok_inv _ (NP32_SetLEDSpan_RGB.body rgb)
        (fun s => s.2.DMA_Busy_Flag = h.DMA_Busy_Flag) ?_ fuel (lo, h) t rfl hw
      intro s s' hs hb
      unfold NP32_SetLEDSpan_RGB.body at hb
      cases hst : s.2.storeCol (s.1 : Int) rgb with
      | error e => simp [hst] at hb
      | ok u =>
        simp [hst] at hb
        rw [← hb]
        exact (storeCol_frame s.2 u _ _ hst).2.1.trans hs

theorem ShiftLeft_body_flag (n : Nat) (s s' : Nat × NP32_Instance)
    (hb : NP32_ShiftLeft.body n s = .ok s') : s'.2.DMA_Busy_Flag = s.2.DMA_Busy_Flag := by
  unfold NP32_ShiftLeft.body at hb
  dsimp only at hb
  split at hb
  · obtain ⟨y, hst, hp⟩ := bind_ok _ _ _ hb
    simp only [pure, Except.pure, Except.ok.injEq] at hp
    rw [← hp]
    exact (storeCol_frame _ _ _ _ hst).2.1
  · obtain ⟨v, -, h2⟩ := bind_ok _ _ _ hb
    obtain ⟨y, hst, hp⟩ := bind_ok _ _ _ h2
    simp only [pure, Except.pure, Except.ok.injEq] at hp
    rw [← hp]
    exact (storeCol_frame _ _ _ _ hst).2.1

theorem ShiftLeft_flag (fuel : Nat) (h h' : NP32_Instance) (n : Nat) (r : Int)
    (hr : NP32_ShiftLeft fuel h n = .ok (r, h')) : h'.DMA_Busy_Flag = h.DMA_Busy_Flag := by
  unfold NP32_ShiftLeft at hr
  obtain ⟨t, hw, hp⟩ := bind_ok _ _ _ hr
  simp only [pure, Except.pure, Except.ok.injEq, Prod.mk.injEq] at hp
  rw [← hp.2]
  exact whileLoop_ok_inv ltCount (NP32_ShiftLeft.body n)
    (fun s => s.2.DMA_Busy_Flag = h.DMA_Busy_Flag)
    (fun s s' hs hb => (ShiftLeft_body_flag n s s' hb).trans hs) fuel (0, h) t rfl hw

theorem RotateLeft_body_flag (n : Nat) (s s' : Nat × Ptr NP32_RGB × NP32_Instance)
    (hb : NP32_RotateLeft.body n s = .ok s') :
    s'.2.2.DMA_Busy_Flag = s.2.2.DMA_Busy_Flag := by
  unfold NP32_RotateLeft.body at hb
  dsimp only at hb
  have inner : ∀ b : Ptr NP32_RGB,
      (if u16 ((n : Int) + (s.1 : Int)) ≥ s.2.2.LED_Count then do
          let v ← b.load ((u16 ((n : Int) + (s.1 : Int)) : Int) - (s.2.2.LED_Count : Int))
          let y ← s.2.2.storeCol (s.1 : Int) v
          pure (u16 ((s.1 : Int) + 1), b, y)
        else do
          let v ← s.2.2.loadCol (u16 ((n : Int) + (s.1 : Int)) : Int)
          let y ← s.2.2.storeCol (s.1 : Int) v
          pure (u16 ((s.1 : Int) + 1), b, y)) = Except.ok s' →
      s'.2.2.DMA_Busy_Flag = s.2.2.DMA_Busy_Flag := by
    intro b hi
    split at hi
    · obtain ⟨v, -, h2⟩ := bind_ok _ _ _ hi
      obtain ⟨y, hst, hp⟩ := bind_ok _ _ _ h2
      simp only [pure, Except.pure, Except.ok.injEq] at hp
      rw [← hp]
      exact (storeCol_frame _ _ _ _ hst).2.1
    · obtain ⟨v, -, h2⟩ := bind_ok _ _ _ hi
      obtain ⟨y, hst, hp⟩ := bind_ok _ _ _ h2
      simp only [pure, Except.pure, Except.ok.injEq] at hp
      rw [← hp]
      exact (storeCol_frame _ _ _ _ hst).2.1
  split at hb
  · obtain ⟨v, -, h2⟩ := bind_ok _ _ _ hb
    obtain ⟨b, -, h3⟩ := bind_ok _ _ _ h2
    exact inner b h3
  · obtain ⟨b, -, h3⟩ := bind_ok _ _ _ hb
    exact inner b h3

theorem RotateLeft_flag (mem_ok : Bool) (fuel : Nat) (h h' : NP32_Instance) (n : Nat)
    (r : Int) (hr : NP32_RotateLeft mem_ok fuel h n = .ok (r, h')) :
    h'.DMA_Busy_Flag = h.DMA_Busy_Flag := by
  unfold NP32_RotateLeft at hr
  split at hr
  · simp at hr; rw [← hr.2]
  · obtain ⟨t, hw, hp⟩ := bind_ok _ _ _ hr
    simp only [pure, Except.pure, Except.ok.injEq, Prod.mk.injEq] at hp
    rw [← hp.2]
    exact whileLoop_ok_inv _ (NP32_RotateLeft.body n)
      (fun s => s.2.2.DMA_Busy_Flag = h.DMA_Busy_Flag)
      (fun s s' hs hb => (RotateLeft_body_flag n s s' hb).trans hs) fuel _ t rfl hw

/-- No step other than `NP32_Update` sets the busy flag: the pixel-buffer operations leave
it as it was, and `NP32_DMAComplete_Callback` leaves it at 0. -/
theorem Step_flag (op : Op) (h h' : NP32_Instance) (hs : Step op h h') (hop : op ≠ .update) :
    h'.DMA_Busy_Flag = h.DMA_Busy_Flag ∨ h'.DMA_Busy_Flag = 0 := by
  cases hs with
  | setLED _ _ i rgb r hr => exact Or.inl (SetLED_flag h h' i rgb r hr)
  | setAll _ _ fuel rgb r hr => exact Or.inl (SetAll_flag fuel h h' rgb r hr)
  | setSpan _ _ fuel lo hi rgb r hr => exact Or.inl (SetSpan_flag fuel h h' lo hi rgb r hr)
  | clearAll _ _ fuel r hr => exact Or.inl (SetAll_flag fuel h h' NP32_COL_BLACK r hr)
  | shiftLeft _ _ fuel n r hr => exact Or.inl (ShiftLeft_flag fuel h h' n r hr)
  | rotateLeft _ _ mem_ok fuel n r hr => exact Or.inl (RotateLeft_flag mem_ok fuel h h' n r hr)
  | dmaComplete _ =>
    unfold NP32_DMAComplete_Callback
    split
    · exact Or.inr rfl
    · exact Or.inl rfl
  | update _ _ fuel startDMA r calls hr => exact absurd rfl hop

/-! ### The statements of `NP32_Update` one by one -/

/-- What one statement of `NP32_Update` does, program point by program point. -/
theorem step_cases (fuel : Nat) (startDMA : Ptr Nat → Nat → Int) (pc pc' : UpdatePC)
    (h h' : NP32_Instance) (made : List DMACall)
    (hs : NP32_Update.step fuel startDMA pc h = .ok (pc', h', made)) :
    (pc = .check ∧ h' = h ∧ (pc' = .wait ∨ pc' = .ret (-1)))
    ∨ (pc = .wait ∧ h' = h ∧ pc' = .wait ∧ h.DMA_Busy_Flag ≠ 0)
    ∨ (pc = .wait ∧ h' = h ∧ pc' = .encode ∧ h.DMA_Busy_Flag = 0)
    ∨ (pc = .encode ∧ pc' = .setBusy ∧ _NP32_Recalc_DMA_Buf fuel h = .ok h')
    ∨ (pc = .setBusy ∧ pc' = .call ∧ h' = { h with DMA_Busy_Flag := 1 })
    ∨ (pc = .call ∧ h' = h ∧ pc' = .ret 0)
    ∨ (∃ s, pc = .ret s ∧ h' = h ∧ pc' = .ret s) := by
  cases pc with
  | check =>
    simp only [NP32_Update.step] at hs
    split at hs
    · simp only [Except.ok.injEq, Prod.mk.injEq] at hs
      exact Or.inl ⟨rfl, hs.2.1.symm, Or.inr hs.1.symm⟩
    · simp only [Except.ok.injEq, Prod.mk.injEq] at hs
      exact Or.inl ⟨rfl, hs.2.1.symm, Or.inl hs.1.symm⟩
  | wait =>
    simp only [NP32_Update.step] at hs
    split at hs
    · rename_i hb
      simp only [Except.ok.injEq, Prod.mk.injEq] at hs
      exact Or.inr (Or.inl ⟨rfl, hs.2.1.symm, hs.1.symm, hb⟩)
    · rename_i hb
      simp only [Except.ok.injEq, Prod.mk.injEq] at hs
      exact Or.inr (Or.inr (Or.inl ⟨rfl, hs.2.1.symm, hs.1.symm, by omega⟩))
  | encode =>
    simp only [NP32_Update.step] at hs
    cases hrec : _NP32_Recalc_DMA_Buf fuel h with
    | error e => simp [hrec] at hs
    | ok t =>
      simp only [hrec, Except.ok.injEq, Prod.mk.injEq] at hs
      exact Or.inr (Or.inr (Or.inr (Or.inl ⟨rfl, hs.1.symm, by rw [hs.2.1]⟩)))
  | setBusy =>
    simp only [NP32_Update.step, Except.ok.injEq, Prod.mk.injEq] at hs
    exact Or.inr (Or.inr (Or.inr (Or.inr (Or.inl ⟨rfl, hs.1.symm, hs.2.1.symm⟩))))
  | call =>
    simp only [NP32_Update.step] at hs
    cases hfn : h.StartDMA_Call with
    | none => simp [hfn] at hs
    | some fn =>
      simp only [hfn, Except.ok.injEq, Prod.mk.injEq] at hs
      exact Or.inr (Or.inr (Or.inr (Or.inr (Or.inr (Or.inl ⟨rfl, hs.2.1.symm, hs.1.symm⟩)))))
  | ret s =>
    simp only [NP32_Update.step, Except.ok.injEq, Prod.mk.injEq] at hs
    exact Or.inr (Or.inr (Or.inr (Or.inr (Or.inr (Or.inr ⟨s, rfl, hs.2.1.symm, hs.1.symm⟩)))))

/-- A transition that changes the timing buffer is the call of the encoder inside
`NP32_Update`. -/
theorem Trans_writes (m m' : Machine) (ht : Trans m m')
    (hne : m'.handle._DMA_Buffer ≠ m.handle._DMA_Buffer) :
    m.pc = some .encode ∧ m'.pc = some .setBusy := by
  cases ht with
  | publicOp op h' hop hs => exact absurd (Step_frame op _ _ hs hop) hne
  | enter hpc => exact absurd rfl hne
  | leave status hpc => exact absurd rfl hne
  | statement fuel startDMA pc pc' h' made hpc hs =>
    rcases step_cases fuel startDMA pc pc' _ h' made hs with
      ⟨-, e, -⟩ | ⟨-, e, -⟩ | ⟨-, e, -⟩ | ⟨e1, e2, -⟩ | ⟨-, -, e⟩ | ⟨-, e, -⟩ | ⟨s, -, e, -⟩
    · exact absurd (by rw [e]) hne
    · exact absurd (by rw [e]) hne
    · exact absurd (by rw [e]) hne
    · subst e1 e2; exact ⟨hpc, rfl⟩
    · exact absurd (by rw [e]) hne
    · exact absurd (by rw [e]) hne
    · exact absurd (by rw [e]) hne

/-- The program point before the encoder is entered only from the wait, by an evaluation
of the loop test that read the busy flag as 0. -/
theorem Trans_enters_encode (m m' : Machine) (ht : Trans m m')
    (hpc' : m'.pc = some .encode) (hpc : m.pc ≠ some .encode) :
    m.pc = some .wait ∧ m.handle.DMA_Busy_Flag = 0 ∧ m'.handle = m.handle := by
  cases ht with
  | publicOp op h' hop hs => exact absurd hpc' hpc
  | enter hn => simp at hpc'
  | leave status hn => simp at hpc'
  | statement fuel startDMA pc pc' h' made hp hs =>
    simp only [Option.some.injEq] at hpc'
    subst hpc'
    rcases step_cases fuel startDMA pc _ _ h' made hs with
      ⟨-, -, e | e⟩ | ⟨-, -, e, -⟩ | ⟨e1, e2, -, e3⟩ | ⟨-, e, -⟩ | ⟨-, e, -⟩ | ⟨-, -, e⟩
        | ⟨s, -, -, e⟩
    · cases e
    · cases e
    · cases e
    · subst e1; exact ⟨hp, e3, e2⟩
    · cases e
    · cases e
    · cases e
    · cases e

/-- While a call of `NP32_Update` stands before its encoder, the busy flag is 0. -/
theorem Reach_encode_idle (m0 m : Machine) (h0 : m0.pc = none) (hr : Reach m0 m)
    (hpc : m.pc = some .encode) : m.handle.DMA_Busy_Flag = 0 := by
  induction hr with
  | refl => rw [h0] at hpc; cases hpc
  | tail m m' hr ht ih =>
    by_cases hm : m.pc = some .encode
    · have hflag := ih hm
      cases ht with
      | publicOp op h' hop hs =>
        rcases Step_flag op _ _ hs hop with e | e
        · exact e.trans hflag
        · exact e
      | enter hn => rw [hm] at hn; cases hn
      | leave status hn => simp at hpc
      | statement fuel startDMA pc pc' h' made hp hs =>
        rw [hm] at hp
        simp only [Option.some.injEq] at hp hpc
        subst hp hpc
        rcases step_cases fuel startDMA _ _ _ h' made hs with
          ⟨e, -⟩ | ⟨e, -⟩ | ⟨e, -⟩ | ⟨-, e, -⟩ | ⟨e, -⟩ | ⟨e, -⟩ | ⟨s, e, -⟩ <;> cases e
    · obtain ⟨-, hf, he⟩ := Trans_enters_encode m m' ht hpc hm
      rw [he]; exact hf

/-- No transition taken from a Busy state changes the timing buffer, whether or not a call
of `NP32_Update` is in progress. -/
theorem Reach_busy_frozen (m0 m m' : Machine) (h0 : m0.pc = none) (hr : Reach m0 m)
    (hbusy : m.handle.DMA_Busy_Flag ≠ 0) (ht : Trans m m') :
    m'.handle._DMA_Buffer = m.handle._DMA_Buffer := by
  by_contra hne
  exact hbusy (Reach_encode_idle m0 m h0 hr (Trans_writes m m' ht hne).1)

/-! ### The busy flag under the encoder -/

/-- Partial correctness of a `do ... while` loop: a property kept by every successful run
of the body holds when the loop returns. -/
theorem doWhile_ok_inv {σ : Type} (body : σ → Except Fault σ) (cond : σ → Bool)
    (I : σ → Prop) (hstep : ∀ s s', I s → body s = .ok s' → I s') :
    ∀ (fuel : Nat) (s s' : σ), I s → doWhile body cond fuel s = .ok s' → I s' := by
  intro fuel
  induction fuel with
  | zero => intro s s' hs hr; simp [doWhile] at hr
  | succ fuel ih =>
    intro s s' hs hr
    cases hb : body s with
    | error e => simp [doWhile, hb] at hr
    | ok t =>
      cases hc : cond t
      · simp [doWhile, hb, hc] at hr
        subst hr; exact hstep s t hs hb
      · simp [doWhile, hb, hc] at hr
        exact ih t s' (hstep s t hs hb) hr

/-- A successful store into the timing buffer leaves the busy flag as it was. -/
theorem storeDMA_flag (h h' : NP32_Instance) (i : Int) (v : Nat)
    (hs : h.storeDMA i v = .ok h') : h'.DMA_Busy_Flag = h.DMA_Busy_Flag := by
  unfold NP32_Instance.storeDMA at hs
  cases hp : h._DMA_Buffer.store i v with
  | error e => simp [hp] at hs
  | ok p =>
    simp [hp] at hs
    subst hs
    rfl

theorem bitBody_flag (val : Nat) (s s' : Nat × Nat × NP32_Instance)
    (hb : bitBody val s = .ok s') : s'.2.2.DMA_Busy_Flag = s.2.2.DMA_Busy_Flag := by
  unfold bitBody at hb
  obtain ⟨y, hst, hp⟩ := bind_ok _ _ _ hb
  simp only [pure, Except.pure, Except.ok.injEq] at hp
  rw [← hp]
  exact storeDMA_flag _ _ _ _ hst

theorem pixelBody_flag (fuel : Nat) (s s' : Nat × Nat × NP32_Instance)
    (hb : pixelBody fuel s = .ok s') : s'.2.2.DMA_Busy_Flag = s.2.2.DMA_Busy_Flag := by
  unfold pixelBody at hb
  obtain ⟨cs, -, h1⟩ := bind_ok _ _ _ hb
  obtain ⟨t1, hd1, h2⟩ := bind_ok _ _ _ h1
  obtain ⟨t2, hd2, h3⟩ := bind_ok _ _ _ h2
  obtain ⟨t3, hd3, hp⟩ := bind_ok _ _ _ h3
  simp only [pure, Except.pure, Except.ok.injEq] at hp
  rw [← hp]
  have e1 := doWhile_ok_inv (bitBody cs.G) _
    (fun t => t.2.2.DMA_Busy_Flag = s.2.2.DMA_Busy_Flag)
    (fun a b ha hab => (bitBody_flag _ a b hab).trans ha) fuel (8, u16 ((s.1 : Int) * 24), s.2.2) t1 rfl hd1
  have e2 := doWhile_ok_inv (bitBody cs.R) _
    (fun t => t.2.2.DMA_Busy_Flag = s.2.2.DMA_Busy_Flag)
    (fun a b ha hab => (bitBody_flag _ a b hab).trans ha) fuel (8, t1.2.1, t1.2.2) t2 e1 hd2
  exact doWhile_ok_inv (bitBody cs.B) _
    (fun t => t.2.2.DMA_Busy_Flag = s.2.2.DMA_Busy_Flag)
    (fun a b ha hab => (bitBody_flag _ a b hab).trans ha) fuel (8, t2.2.1, t2.2.2) t3 e2 hd3

/-- The encoder leaves the busy flag as it was. -/
theorem Recalc_flag (fuel : Nat) (h h' : NP32_Instance)
    (hr : _NP32_Recalc_DMA_Buf fuel h = .ok h') : h'.DMA_Busy_Flag = h.DMA_Busy_Flag := by
  unfold _NP32_Recalc_DMA_Buf at hr
  split at hr
  · obtain ⟨t, hw, hp⟩ := bind_ok _ _ _ hr
    simp only [pure, Except.pure, Except.ok.injEq] at hp
    rw [← hp]
    refine whileLoop_ok_inv _ zeroBody (fun s => s.2.DMA_Busy_Flag = h.DMA_Busy_Flag) ?_
      fuel (0, h) t rfl hw
    intro a b ha hab
    unfold zeroBody at hab
    obtain ⟨y, hst, hq⟩ := bind_ok _ _ _ hab
    simp only [pure, Except.pure, Except.ok.injEq] at hq
    rw [← hq]
    exact (storeDMA_flag _ _ _ _ hst).trans ha
  · obtain ⟨t, hw, h2⟩ := bind_ok _ _ _ hr
    obtain ⟨t2, hw2, hp⟩ := bind_ok _ _ _ h2
    simp only [pure, Except.pure, Except.ok.injEq] at hp
    rw [← hp]
    have e1 := whileLoop_ok_inv _ (pixelBody fuel)
      (fun s => s.2.2.DMA_Busy_Flag = h.DMA_Busy_Flag)
      (fun a b ha hab => (pixelBody_flag fuel a b hab).trans ha) fuel (0, 0, h) t rfl hw
    refine whileLoop_ok_inv _ resetBody (fun s => s.2.2.DMA_Busy_Flag = h.DMA_Busy_Flag) ?_
      fuel (0, t.2.1, t.2.2) t2 e1 hw2
    intro a b ha hab
    unfold resetBody at hab
    obtain ⟨y, hst, hq⟩ := bind_ok _ _ _ hab
    simp only [pure, Except.pure, Except.ok.injEq] at hq
    rw [← hq]
    exact (storeDMA_flag _ _ _ _ hst).trans ha

/-- The busy flag is raised by one transition only: the assignment
`handle->DMA_Busy_Flag = 1U` of `NP32_Update`, which follows the encoder. -/
theorem Trans_raises_flag (m m' : Machine) (ht : Trans m m')
    (hidle : m.handle.DMA_Busy_Flag = 0) (hbusy : m'.handle.DMA_Busy_Flag ≠ 0) :
    m.pc = some .setBusy ∧ m'.pc = some .call := by
  cases ht with
  | publicOp op h' hop hs =>
    rcases Step_flag op _ _ hs hop with e | e
    · exact absurd (e.trans hidle) hbusy
    · exact absurd e hbusy
  | enter hpc => exact absurd hidle hbusy
  | leave status hpc => exact absurd hidle hbusy
  | statement fuel startDMA pc pc' h' made hpc hs =>
    rcases step_cases fuel startDMA pc pc' _ h' made hs with
      ⟨-, e, -⟩ | ⟨-, e, -⟩ | ⟨-, e, -⟩ | ⟨-, -, e⟩ | ⟨e1, e2, -⟩ | ⟨-, e, -⟩ | ⟨s, -, e, -⟩
    · exact absurd (by rw [e]; exact hidle) hbusy
    · exact absurd (by rw [e]; exact hidle) hbusy
    · exact absurd (by rw [e]; exact hidle) hbusy
    · exact absurd ((Recalc_flag fuel _ _ e).trans hidle) hbusy
    · subst e1 e2; exact ⟨hpc, rfl⟩
    · exact absurd (by rw [e]; exact hidle) hbusy
    · exact absurd (by rw [e]; exact hidle) hbusy

/-! ### A call of `NP32_Update` on a Busy instance -/

/-- A call of `NP32_Update` on the Busy two-pixel instance.  The call is entered, passes
the `NULL` check and stands at the wait, where an evaluation of the loop test leaves it;
`NP32_DMAComplete_Callback`, run from the interrupt, clears the flag; the next evaluation
of the test leaves the loop; then the encoder runs and changes the timing buffer. -/
theorem instBusy_update_run :
    Reach ⟨instBusy, none⟩ ⟨instBusy, some .wait⟩
    ∧ Trans ⟨instBusy, some .wait⟩ ⟨instBusy, some .wait⟩
    ∧ Trans ⟨instBusy, some .wait⟩ ⟨NP32_DMAComplete_Callback instBusy, some .wait⟩
    ∧ Reach ⟨instBusy, none⟩ ⟨NP32_DMAComplete_Callback instBusy, some .encode⟩
    ∧ ∃ h', Trans ⟨NP32_DMAComplete_Callback instBusy, some .encode⟩ ⟨h', some .setBusy⟩
        ∧ h'._DMA_Buffer ≠ instBusy._DMA_Buffer := by
  have r1 : Reach ⟨instBusy, none⟩ ⟨instBusy, some .wait⟩ :=
    Reach.tail _ _ _ (Reach.tail _ _ _ (Reach.refl _) (Trans.enter _ rfl))
      (Trans.statement _ 0 (fun _ _ => 0) .check .wait instBusy [] rfl rfl)
  have t1 : Trans ⟨instBusy, some .wait⟩ ⟨instBusy, some .wait⟩ :=
    Trans.statement _ 0 (fun _ _ => 0) .wait .wait instBusy [] rfl rfl
  have t2 : Trans ⟨instBusy, some .wait⟩ ⟨NP32_DMAComplete_Callback instBusy, some .wait⟩ :=
    Trans.publicOp _ .dmaComplete _ (by decide) (Step.dmaComplete instBusy)
  have t3 : Trans ⟨NP32_DMAComplete_Callback instBusy, some .wait⟩
      ⟨NP32_DMAComplete_Callback instBusy, some .encode⟩ :=
    Trans.statement _ 0 (fun _ _ => 0) .wait .encode _ [] rfl rfl
  refine ⟨r1, t1, t2, Reach.tail _ _ _ (Reach.tail _ _ _ r1 t2) t3, ?_⟩
  obtain ⟨dma', hr, -, -, hz⟩ := Recalc_enabled (NP32_DMAComplete_Callback instBusy)
    [⟨9, 8, 7⟩, ⟨1, 2, 3⟩] (List.replicate 96 28) 50 rfl rfl rfl (by decide) (by decide)
    (by decide) (by decide)
  refine ⟨{ NP32_DMAComplete_Callback instBusy with _DMA_Buffer := Ptr.live dma' },
    Trans.statement _ 50 (fun _ _ => 0) .encode .setBusy _ [] rfl
      (by simp only [NP32_Update.step, hr]), ?_⟩
  intro e
  have e2 : dma' = List.replicate 96 28 := by
    have e3 : (Ptr.live dma' : Ptr Nat) = Ptr.live (List.replicate 96 28) := e
    exact Ptr.live.inj e3
  have h48 := hz 48 (by decide) (by decide)
  rw [e2] at h48
  exact absurd h48 (by decide)

/-- C15: the timing buffer is never written while a transfer is outstanding.  In the step
relation of the public operations, every step other than `NP32_Update` leaves
`_DMA_Buffer` unchanged.  `NP32_Update` is the succession of its statements (`NULL` check,
wait, encoder, `DMA_Busy_Flag = 1U`, delegate call, `return`): its result, value or fault,
is that of the statement-level run.  In the transition system in which these statements
are interleaved with the other public operations (the completion interrupt may run
`NP32_DMAComplete_Callback` at any program point), a transition that changes
`_DMA_Buffer` is the encoder statement; the program point before the encoder is entered
only from the wait, by an evaluation of the loop test that read `DMA_Busy_Flag = 0`; as
long as the call stands there the flag is 0, the flag being raised only by the statement
`DMA_Busy_Flag = 1U` that follows the encoder.  Hence no transition taken from a Busy
state, with or without an `NP32_Update` call in progress, changes the timing buffer; in
particular no returning call does, and an `NP32_Update` call that returns either changed
nothing or started from `DMA_Busy_Flag = 0`. -/
theorem timing_buffer_frozen_while_busy :
    (∀ (op : Op) (h h' : NP32_Instance), Step op h h' → op ≠ .update →
        h'._DMA_Buffer = h._DMA_Buffer)
    ∧ (∀ (fuel : Nat) (startDMA : Ptr Nat → Nat → Int) (h : NP32_Instance) (k : Nat),
        5 ≤ k → NP32_Update fuel startDMA h = NP32_Update.drive fuel startDMA k .check h [])
    ∧ (∀ (m m' : Machine), Trans m m' → m'.handle._DMA_Buffer ≠ m.handle._DMA_Buffer →
        m.pc = some .encode ∧ m'.pc = some .setBusy)
    ∧ (∀ (m m' : Machine), Trans m m' → m'.pc = some .encode → m.pc ≠ some .encode →
        m.pc = some .wait ∧ m.handle.DMA_Busy_Flag = 0 ∧ m'.handle = m.handle)
    ∧ (∀ (m m' : Machine), Trans m m' → m.handle.DMA_Busy_Flag = 0 →
        m'.handle.DMA_Busy_Flag ≠ 0 → m.pc = some .setBusy ∧ m'.pc = some .call)
    ∧ (∀ (m0 m : Machine), m0.pc = none → Reach m0 m → m.pc = some .encode →
        m.handle.DMA_Busy_Flag = 0)
    ∧ (∀ (m0 m m' : Machine), m0.pc = none → Reach m0 m → m.handle.DMA_Busy_Flag ≠ 0 →
        Trans m m' → m'.handle._DMA_Buffer = m.handle._DMA_Buffer)
    ∧ (∀ (h h' : NP32_Instance), Step .update h h' → h' = h ∨ h.DMA_Busy_Flag = 0)
    ∧ (∀ (op : Op) (h h' : NP32_Instance), Step op h h' → h.DMA_Busy_Flag ≠ 0 →
        h'._DMA_Buffer = h._DMA_Buffer) := by
  have hupd : ∀ (h h' : NP32_Instance), Step .update h h' → h' = h ∨ h.DMA_Busy_Flag = 0 := by
    intro h h' hs
    cases hs with
    | update _ _ fuel startDMA r calls hr =>
      rcases Update_ok_cases fuel startDMA h h' r calls hr with ⟨e, -⟩ | ⟨e, -⟩
      · exact Or.inl e
      · exact Or.inr e
  refine ⟨Step_frame, Update_eq_drive, Trans_writes, Trans_enters_encode, Trans_raises_flag,
    Reach_encode_idle, Reach_busy_frozen, hupd, ?_⟩
  intro op h h' hs hbusy
  by_cases hop : op = .update
  · subst hop
    rcases hupd h h' hs with e | e
    · rw [e]
    · exact absurd e hbusy
  · exact Step_frame op h h' hs hop

/-- Witness for C15: a call of `NP32_Update` in progress on the Busy two-pixel instance
stands at its wait; from there `NP32_DMAComplete_Callback` is a transition taken from a
Busy state, and it leaves the timing buffer as it was; after it the call reaches the
program point before the encoder, where the flag is 0, and only then does the encoder
change the timing buffer.  On the same Busy instance with a dangling timing buffer the
encoder alone faults at its first store, and `NP32_Update`, with no interrupt, stays in
its wait and never gets to it. -/
theorem timing_buffer_frozen_while_busy_witness :
    (⟨instBusy, none⟩ : Machine).pc = none
    ∧ Reach ⟨instBusy, none⟩ ⟨instBusy, some .wait⟩
    ∧ instBusy.DMA_Busy_Flag ≠ 0
    ∧ Trans ⟨instBusy, some .wait⟩ ⟨NP32_DMAComplete_Callback instBusy, some .wait⟩
    ∧ (NP32_DMAComplete_Callback instBusy)._DMA_Buffer = instBusy._DMA_Buffer
    ∧ Reach ⟨instBusy, none⟩ ⟨NP32_DMAComplete_Callback instBusy, some .encode⟩
    ∧ (NP32_DMAComplete_Callback instBusy).DMA_Busy_Flag = 0
    ∧ (∃ h', Trans ⟨NP32_DMAComplete_Callback instBusy, some .encode⟩ ⟨h', some .setBusy⟩
        ∧ h'._DMA_Buffer ≠ instBusy._DMA_Buffer)
    ∧ _NP32_Recalc_DMA_Buf 50 { instBusy with _DMA_Buffer := Ptr.freed } = .error .badPointer
    ∧ NP32_Update 50 (fun _ _ => 0) { instBusy with _DMA_Buffer := Ptr.freed }
        = .error .outOfFuel :=
  ⟨rfl, instBusy_update_run.1, by decide, instBusy_update_run.2.2.1,
    timing_buffer_frozen_while_busy.2.2.2.2.2.2.1 ⟨instBusy, none⟩ ⟨instBusy, some .wait⟩
      ⟨NP32_DMAComplete_Callback instBusy, some .wait⟩ rfl instBusy_update_run.1 (by decide)
      instBusy_update_run.2.2.1,
    instBusy_update_run.2.2.2.1,
    timing_buffer_frozen_while_busy.2.2.2.2.2.1 ⟨instBusy, none⟩
      ⟨NP32_DMAComplete_Callback instBusy, some .encode⟩ rfl instBusy_update_run.2.2.2.1 rfl,
    instBusy_update_run.2.2.2.2, rfl,
    (timing_buffer_frozen_while_busy.2.1 50 (fun _ _ => 0)
      { instBusy with _DMA_Buffer := Ptr.freed } 5 (Nat.le_refl 5)).trans rfl⟩

end NP32
